import Mathlib

/-! # StayShare conversation subsystem

A shallow embedding of `backend/controllers/conversationController.js` and
`backend/models/Conversation.js`, with the review count of
`backend/controllers/roommateReviewController.js`.  The MongoDB collections are lists of
documents held in a `Store`; every controller is a function from the store, the authenticated
caller and the request to a response and the next store.  The clock and the identifier
generator are passed in an `Env`.

Request values that the controllers receive as JSON or URL text are kept as strings, because the
controller compares some of them as strings and hands others to the driver, which casts them to
object identifiers.
-/

namespace StayShare

/-! ## Object identifiers -/

/-- A 12-byte object identifier, held as its 24 hexadecimal digits. -/
abbrev ObjectId := { digits : List (Fin 16) // digits.length = 24 }

/-- The lower-case hexadecimal character of a digit. -/
def hexChar (d : Fin 16) : Char :=
  ['0', '1', '2', '3', '4', '5', '6', '7', '8', '9', 'a', 'b', 'c', 'd', 'e', 'f'].getD d.val '0'

/-- The digit a character stands for; both letter cases are accepted, as by `/^[0-9a-fA-F]{24}$/`. -/
def hexVal? (c : Char) : Option (Fin 16) :=
  if c = '0' then some 0 else if c = '1' then some 1 else if c = '2' then some 2
  else if c = '3' then some 3 else if c = '4' then some 4 else if c = '5' then some 5
  else if c = '6' then some 6 else if c = '7' then some 7 else if c = '8' then some 8
  else if c = '9' then some 9
  else if c = 'a' ∨ c = 'A' then some 10 else if c = 'b' ∨ c = 'B' then some 11
  else if c = 'c' ∨ c = 'C' then some 12 else if c = 'd' ∨ c = 'D' then some 13
  else if c = 'e' ∨ c = 'E' then some 14 else if c = 'f' ∨ c = 'F' then some 15
  else none

/-- Digits of a character list, when every character is a hexadecimal digit. -/
def hexDigits? : List Char → Option (List (Fin 16))
  | [] => some []
  | c :: cs =>
    match hexVal? c, hexDigits? cs with
    | some d, some ds => some (d :: ds)
    | _, _ => none

/-- The text of an identifier, `ObjectId.prototype.toString`: 24 lower-case hexadecimal characters. -/
def ObjectId.toString (o : ObjectId) : String := String.mk (o.val.map hexChar)

/-- The cast of request text to an identifier, as `new ObjectId(text)` and the driver's query
casting do it: the text must be 24 hexadecimal characters, of either letter case. -/
def castObjectId (text : String) : Option ObjectId :=
  match hexDigits? text.data with
  | some ds => if h : ds.length = 24 then some ⟨ds, h⟩ else none
  | none => none

/-- The identifier whose first 23 digits are `a` and whose last digit is `b`. -/
def ObjectId.ofDigits (a b : Fin 16) : ObjectId :=
  ⟨List.replicate 23 a ++ [b], by simp⟩

/-! ## JavaScript strings -/

/-- The characters `String.prototype.trim` removes: white space and line terminators. -/
def isJsWhitespace (c : Char) : Bool :=
  let n := c.toNat
  n = 0x09 || n = 0x0A || n = 0x0B || n = 0x0C || n = 0x0D || n = 0x20 || n = 0xA0
    || n = 0x1680 || (0x2000 ≤ n && n ≤ 0x200A) || n = 0x2028 || n = 0x2029
    || n = 0x202F || n = 0x205F || n = 0x3000 || n = 0xFEFF

/-- Trimming a character list at both ends. -/
def trimChars (cs : List Char) : List Char :=
  ((cs.dropWhile isJsWhitespace).reverse.dropWhile isJsWhitespace).reverse

/-- The result of `String.prototype.trim`. -/
def jsTrim (s : String) : String := String.mk (trimChars s.data)

/-- A request value that may be absent: the value when it is truthy in JavaScript (present and
not the empty string), nothing otherwise. -/
def truthy? (v : Option String) : Option String :=
  match v with
  | some s => if s = "" then none else some s
  | none => none

/-! ## Documents -/

/-- A listing document, with the field `startConversation` selects. -/
structure Listing where
  _id : ObjectId
  landlord : Option ObjectId
  deriving DecidableEq, Repr

/-- A roommate request document, with the field `startConversation` selects. -/
structure RoommateRequest where
  _id : ObjectId
  user : Option ObjectId
  deriving DecidableEq, Repr

/-- A conversation document (`conversationSchema`).  The bookkeeping fields that
`timestamps: true` adds are not read by any controller and are left out. -/
structure Conversation where
  _id : ObjectId
  listing : Option ObjectId
  roommateRequest : Option ObjectId
  participants : List ObjectId
  lastMessage : Option ObjectId
  lastActivityAt : Nat
  unreadFor : List ObjectId
  deriving DecidableEq, Repr

/-- Modelled from the spec: the message document of `models/Message.js`, which is not among the
sources.  It has the owning conversation, the sender, the body, the readers and the creation
time; the length limit the spec leaves to the validation layer is not modelled. -/
structure Message where
  _id : ObjectId
  conversation : ObjectId
  sender : ObjectId
  body : String
  readBy : List ObjectId
  createdAt : Nat
  deriving DecidableEq, Repr

/-- The collections the conversation controllers read and write. -/
structure Store where
  listings : List Listing
  roommateRequests : List RoommateRequest
  conversations : List Conversation
  messages : List Message
  deriving DecidableEq, Repr

/-- What a controller call takes from its surroundings: the identifier generated for a created
document, the creation time stamped on a created message, and the value of `new Date()`. -/
structure Env where
  newId : ObjectId
  createdAt : Nat
  now : Nat
  deriving DecidableEq, Repr

/-! ## Responses -/

/-- The error a controller caught, whose text it passes on under `error`. -/
inductive Failure where
  /-- The driver could not cast `value` for `path` of `model`. -/
  | cast (model path value : String)
  /-- The constructor `new mongoose.Types.ObjectId(value)` threw. -/
  | objectId (value : String)
  /-- A validation hook passed an error with this text. -/
  | validation (text : String)
  deriving DecidableEq, Repr

/-- A conversation as `populateConversation` returns it.  The summaries of users, listings and
roommate requests come from collections the controllers never write; they stay references here,
and the last message is looked up. -/
structure ConversationView where
  conversation : Conversation
  lastMessage : Option Message
  deriving DecidableEq, Repr

/-- The `data` (and, for a sent message, `conversation`) members of a response body. -/
inductive Payload where
  | none
  | conversation (view : Option ConversationView)
  | conversations (views : List ConversationView)
  | messages (page : List Message)
  | sent (message : Option Message) (conversation : Option ConversationView)
  deriving DecidableEq, Repr

/-- An HTTP response: the status and the members of the JSON body. -/
structure Response where
  status : Nat
  success : Bool
  message : Option String
  payload : Payload
  error : Option Failure
  deriving DecidableEq, Repr

/-- The response `res.status(status).json({ success: false, message })`. -/
def Response.fail (status : Nat) (message : String) : Response :=
  ⟨status, false, some message, Payload.none, none⟩

/-- The response of a `catch` block: status 500 with the error's text. -/
def Response.thrown (message : String) (e : Failure) : Response :=
  ⟨500, false, some message, Payload.none, some e⟩

/-- The response `res.json({ success: true, data })`. -/
def Response.data (payload : Payload) : Response :=
  ⟨200, true, none, payload, none⟩

/-- The statuses and flags the interface allows: status 200, 201, 400, 404 or 500, the success
flag set exactly with 200 and 201, and an error text only with 500. -/
def Response.regular (r : Response) : Prop :=
  (r.status = 200 ∨ r.status = 201 ∨ r.status = 400 ∨ r.status = 404 ∨ r.status = 500)
    ∧ (r.success = true ↔ r.status = 200 ∨ r.status = 201)
    ∧ (r.error ≠ none → r.status = 500)

/-- The forms of response the controllers write: a success with status 200 or 201 and no error
text, a refusal with status 400 and one of the six texts for an invalid request, a refusal with
status 404 and one of the three texts for a document that was not found, or the response of a
`catch` block. -/
def Response.reported (r : Response) : Prop :=
  (r.success = true ∧ (r.status = 200 ∨ r.status = 201) ∧ r.error = none)
    ∨ (∃ m ∈ ["Provide listingId or roommateRequestId.",
          "Provide participantId when landlord starts a conversation.",
          "Provide participantId when starting a conversation about your own request.",
          "Conversation requires another participant.",
          "Cannot start a conversation with yourself.",
          "Message body is required."], r = Response.fail 400 m)
    ∨ (∃ m ∈ ["Listing not found.", "Roommate request not found.", "Conversation not found."],
        r = Response.fail 404 m)
    ∨ (∃ m e, r = Response.thrown m e)

/-! ## The conversation model -/

/-- The `pre('validate')` hook of `conversationSchema`: the error text, if the document is
rejected. -/
def validateContext (doc : Conversation) : Except String Unit :=
  let hasListing := doc.listing.isSome
  let hasRoommateRequest := doc.roommateRequest.isSome
  if !hasListing && !hasRoommateRequest then
    Except.error "Conversation must reference a listing or a roommate request."
  else if hasListing && hasRoommateRequest then
    Except.error "Conversation cannot be linked to both a listing and a roommate request."
  else
    Except.ok ()

/-- The first conversation with the given identifier (`Conversation.findById`). -/
def Store.findConversationById (store : Store) (id : ObjectId) : Option Conversation :=
  store.conversations.find? (fun c => c._id = id)

/-- The first message with the given identifier (`Message.findById`). -/
def Store.findMessageById (store : Store) (id : ObjectId) : Option Message :=
  store.messages.find? (fun m => m._id = id)

/-- Applies `f` to the first conversation with the given identifier, as an update addressed by
`_id` does. -/
def updateById (docs : List Conversation) (id : ObjectId) (f : Conversation → Conversation) :
    List Conversation :=
  match docs with
  | [] => []
  | c :: rest => if c._id = id then f c :: rest else c :: updateById rest id f

/-- The update `Message.updateMany({ conversation, readBy: { $ne: userId } },
{ $addToSet: { readBy: userId } })`. -/
def markMessagesRead (messages : List Message) (conversation userId : ObjectId) : List Message :=
  messages.map fun m =>
    if m.conversation = conversation ∧ userId ∉ m.readBy then
      { m with readBy := m.readBy ++ [userId] }
    else m

/-! ## The controllers -/

/-- The participant test of the controllers, on the identifiers' texts. -/
def ensureParticipant (conversation : Conversation) (userId : ObjectId) : Bool :=
  conversation.participants.any fun participant => participant.toString = userId.toString

/-- The lookup of `populateConversation`. -/
def populateConversation (store : Store) (conversationId : ObjectId) : Option ConversationView :=
  (store.findConversationById conversationId).map fun c =>
    { conversation := c, lastMessage := c.lastMessage.bind store.findMessageById }

/-- The body of a start request. -/
structure StartRequest where
  listingId : Option String
  participantId : Option String
  roommateRequestId : Option String
  deriving DecidableEq, Repr

/-- What the context branches of `startConversation` leave behind: the text of the other
participant's identifier, if any, and the context, already cast as the queries cast it. -/
structure Resolved where
  otherParticipantId : Option String
  listing : Option ObjectId
  roommateRequest : Option ObjectId
  deriving DecidableEq, Repr

/-- The listing branch of `startConversation`. -/
def resolveListing (store : Store) (requesterId : ObjectId) (listingId : String)
    (participantId : Option String) : Except Response Resolved :=
  match castObjectId listingId with
  | none => Except.error
      (Response.thrown "Unable to start conversation" (Failure.cast "Listing" "_id" listingId))
  | some lid =>
    match store.listings.find? (fun l => l._id = lid) with
    | none => Except.error (Response.fail 404 "Listing not found.")
    | some listing =>
      let landlordId := listing.landlord.map ObjectId.toString
      if landlordId = some requesterId.toString then
        match truthy? participantId with
        | none => Except.error
            (Response.fail 400 "Provide participantId when landlord starts a conversation.")
        | some p => Except.ok ⟨some p, some lid, none⟩
      else
        Except.ok ⟨landlordId, some lid, none⟩

/-- The roommate request branch of `startConversation`. -/
def resolveRoommateRequest (store : Store) (requesterId : ObjectId) (roommateRequestId : String)
    (participantId : Option String) : Except Response Resolved :=
  match castObjectId roommateRequestId with
  | none => Except.error
      (Response.thrown "Unable to start conversation"
        (Failure.cast "RoommateRequest" "_id" roommateRequestId))
  | some rid =>
    match store.roommateRequests.find? (fun r => r._id = rid) with
    | none => Except.error (Response.fail 404 "Roommate request not found.")
    | some request =>
      let ownerId := request.user.map ObjectId.toString
      if ownerId = some requesterId.toString then
        match truthy? participantId with
        | none => Except.error
            (Response.fail 400
              "Provide participantId when starting a conversation about your own request.")
        | some p => Except.ok ⟨some p, none, some rid⟩
      else
        Except.ok ⟨ownerId, none, some rid⟩

/-- The context part of `startConversation`: the check that a context is named, then one of the
two branches; the listing is taken when both are named. -/
def resolveContext (store : Store) (requesterId : ObjectId) (req : StartRequest) :
    Except Response Resolved :=
  match truthy? req.listingId, truthy? req.roommateRequestId with
  | none, none => Except.error (Response.fail 400 "Provide listingId or roommateRequestId.")
  | some listingId, _ => resolveListing store requesterId listingId req.participantId
  | none, some roommateRequestId =>
    resolveRoommateRequest store requesterId roommateRequestId req.participantId

/-- The test of `conversationFilter`: all of `participantIds` among the participants, as many
participants as `participantIds`, and the context members that were set. -/
def matchesFilter (participantIds : List ObjectId) (listing roommateRequest : Option ObjectId)
    (c : Conversation) : Bool :=
  participantIds.all (fun p => p ∈ c.participants)
    && c.participants.length = participantIds.length
    && (match listing with
        | some l => c.listing = some l
        | none => true)
    && (match roommateRequest with
        | some r => c.roommateRequest = some r
        | none => true)

/-- The last part of `startConversation`: the lookup with `conversationFilter`, and the creation
of a conversation when the lookup finds none. -/
def findOrCreate (store : Store) (participantIds : List ObjectId)
    (listing roommateRequest : Option ObjectId) (env : Env) : Response × Store :=
  match store.conversations.find? (matchesFilter participantIds listing roommateRequest) with
  | some existing =>
    (Response.data (Payload.conversation (populateConversation store existing._id)), store)
  | none =>
    let doc : Conversation :=
      { _id := env.newId
        listing := listing
        roommateRequest := roommateRequest
        participants := participantIds
        lastMessage := none
        lastActivityAt := env.now
        unreadFor := [] }
    match validateContext doc with
    | Except.error text =>
      (Response.thrown "Unable to start conversation" (Failure.validation text), store)
    | Except.ok _ =>
      let created := { store with conversations := store.conversations ++ [doc] }
      (Response.data (Payload.conversation (populateConversation created doc._id)), created)

/-- The controller `startConversation`. -/
def startConversation (store : Store) (requesterId : ObjectId) (req : StartRequest) (env : Env) :
    Response × Store :=
  match resolveContext store requesterId req with
  | Except.error response => (response, store)
  | Except.ok ctx =>
    match truthy? ctx.otherParticipantId with
    | none => (Response.fail 400 "Conversation requires another participant.", store)
    | some otherParticipantId =>
      if otherParticipantId = requesterId.toString then
        (Response.fail 400 "Cannot start a conversation with yourself.", store)
      else
        match castObjectId otherParticipantId with
        | none =>
          (Response.thrown "Unable to start conversation" (Failure.objectId otherParticipantId),
            store)
        | some otherId =>
          findOrCreate store [requesterId, otherId] ctx.listing ctx.roommateRequest env

/-- The order of `sort({ lastActivityAt: -1 })`. -/
def newerActivity (a b : Conversation) : Prop := b.lastActivityAt ≤ a.lastActivityAt

instance : DecidableRel newerActivity := fun a b =>
  inferInstanceAs (Decidable (b.lastActivityAt ≤ a.lastActivityAt))

instance : IsTotal Conversation newerActivity :=
  ⟨fun a b => Nat.le_total b.lastActivityAt a.lastActivityAt⟩

instance : IsTrans Conversation newerActivity := ⟨fun _ _ _ hab hbc => Nat.le_trans hbc hab⟩

/-- The controller `getConversations`. -/
def getConversations (store : Store) (userId : ObjectId) : Response × Store :=
  let conversations :=
    (store.conversations.filter fun c => userId ∈ c.participants).insertionSort newerActivity
  let views := conversations.map fun c =>
    ({ conversation := c, lastMessage := c.lastMessage.bind store.findMessageById } :
      ConversationView)
  (Response.data (Payload.conversations views), store)

/-- The order of `sort({ createdAt: -1 })`. -/
def newerMessage (a b : Message) : Prop := b.createdAt ≤ a.createdAt

instance : DecidableRel newerMessage := fun a b =>
  inferInstanceAs (Decidable (b.createdAt ≤ a.createdAt))

instance : IsTotal Message newerMessage := ⟨fun a b => Nat.le_total b.createdAt a.createdAt⟩

instance : IsTrans Message newerMessage := ⟨fun _ _ _ hab hbc => Nat.le_trans hbc hab⟩

/-- The cursor method `limit(n)`: at most `n` documents, and all of them when `n` is 0. -/
def limitDocs (n : Nat) (docs : List Message) : List Message :=
  if n = 0 then docs else docs.take n

/-- The query of a page request, after `new Date(before)` and `Number(limit)`: the instant
`before` denotes and the number `limit` denotes, each absent when the query leaves it out. -/
structure PageQuery where
  before : Option Nat
  limit : Option Nat
  deriving DecidableEq, Repr

/-- The test of the query `{ conversation: id, createdAt: { $lt: before } }`, whose second member
is there only when `before` is given. -/
def matchesQuery (conversation : ObjectId) (before : Option Nat) (m : Message) : Bool :=
  m.conversation = conversation
    && (match before with
        | some instant => m.createdAt < instant
        | none => true)

/-- The messages `Message.find(query).sort({ createdAt: -1 }).limit(Number(limit))` yields. -/
def findPage (store : Store) (conversation : ObjectId) (query : PageQuery) : List Message :=
  limitDocs (query.limit.getD 50)
    ((store.messages.filter (matchesQuery conversation query.before)).insertionSort newerMessage)

/-- The document `Message.create` stores for a sent message. -/
def createMessage (conversation sender : ObjectId) (text : String) (env : Env) : Message :=
  { _id := env.newId
    conversation := conversation
    sender := sender
    body := jsTrim text
    readBy := [sender]
    createdAt := env.createdAt }

/-- The conversation after the three assignments of `sendConversationMessage`; the unread list
is computed on the identifiers' texts, which the model casts back on assignment. -/
def sendUpdate (conversation : Conversation) (userId messageId : ObjectId) (env : Env) :
    Conversation :=
  let unreadFor :=
    (conversation.participants.map ObjectId.toString).filter
      fun participant => participant ≠ userId.toString
  { conversation with
    lastMessage := some messageId
    lastActivityAt := env.now
    unreadFor := unreadFor.filterMap castObjectId }

/-- The conversation after the assignment of `markConversationRead`. -/
def readUpdate (conversation : Conversation) (userId : ObjectId) : Conversation :=
  { conversation with
    unreadFor := conversation.unreadFor.filter
      fun participant => participant.toString ≠ userId.toString }

/-- The update `{ $pull: { unreadFor: userId } }`. -/
def pullUnread (userId : ObjectId) (c : Conversation) : Conversation :=
  { c with unreadFor := c.unreadFor.filter fun u => u ≠ userId }

/-- The controller `getConversationMessages`. -/
def getConversationMessages (store : Store) (userId : ObjectId) (id : String)
    (query : PageQuery) : Response × Store :=
  match castObjectId id with
  | none =>
    (Response.thrown "Unable to load messages" (Failure.cast "Conversation" "_id" id), store)
  | some cid =>
    match store.findConversationById cid with
    | none => (Response.fail 404 "Conversation not found.", store)
    | some conversation =>
      if !ensureParticipant conversation userId then
        (Response.fail 404 "Conversation not found.", store)
      else
        let messages := findPage store cid query
        let read :=
          { store with
            messages := markMessagesRead store.messages cid userId
            conversations := updateById store.conversations cid (pullUnread userId) }
        (Response.data (Payload.messages messages.reverse), read)

/-- The controller `sendConversationMessage`. -/
def sendConversationMessage (store : Store) (userId : ObjectId) (id : String)
    (body : Option String) (env : Env) : Response × Store :=
  match truthy? body with
  | none => (Response.fail 400 "Message body is required.", store)
  | some text =>
    if jsTrim text = "" then
      (Response.fail 400 "Message body is required.", store)
    else
      match castObjectId id with
      | none =>
        (Response.thrown "Unable to send message" (Failure.cast "Conversation" "_id" id), store)
      | some cid =>
        match store.findConversationById cid with
        | none => (Response.fail 404 "Conversation not found.", store)
        | some conversation =>
          if !ensureParticipant conversation userId then
            (Response.fail 404 "Conversation not found.", store)
          else
            let message := createMessage cid userId text env
            let stored := { store with messages := store.messages ++ [message] }
            let populatedMessage := stored.findMessageById message._id
            let updated := sendUpdate conversation userId message._id env
            match validateContext updated with
            | Except.error text =>
              (Response.thrown "Unable to send message" (Failure.validation text), stored)
            | Except.ok _ =>
              let saved :=
                { stored with
                  conversations := updateById stored.conversations updated._id fun _ => updated }
              (⟨201, true, some "Message sent.",
                  Payload.sent populatedMessage (populateConversation saved updated._id), none⟩,
                saved)

/-- The controller `markConversationRead`. -/
def markConversationRead (store : Store) (userId : ObjectId) (id : String) : Response × Store :=
  match castObjectId id with
  | none =>
    (Response.thrown "Unable to mark conversation as read"
      (Failure.cast "Conversation" "_id" id), store)
  | some cid =>
    match store.findConversationById cid with
    | none => (Response.fail 404 "Conversation not found.", store)
    | some conversation =>
      if !ensureParticipant conversation userId then
        (Response.fail 404 "Conversation not found.", store)
      else
        let marked := { store with messages := markMessagesRead store.messages cid userId }
        let updated := readUpdate conversation userId
        match validateContext updated with
        | Except.error text =>
          (Response.thrown "Unable to mark conversation as read" (Failure.validation text),
            marked)
        | Except.ok _ =>
          let saved :=
            { marked with
              conversations := updateById marked.conversations updated._id fun _ => updated }
          (⟨200, true, some "Conversation marked as read.", Payload.none, none⟩, saved)

/-! ## Runs of the service

The five operations as one step function, the states a sequence of calls reaches from a store
without conversations and messages, and the effects a call can have on the store. -/

/-- A call of one of the five operations, with its caller and request. -/
inductive Call where
  | start (requester : ObjectId) (req : StartRequest)
  | list (user : ObjectId)
  | page (user : ObjectId) (id : String) (query : PageQuery)
  | send (user : ObjectId) (id : String) (body : Option String)
  | read (user : ObjectId) (id : String)
  deriving DecidableEq, Repr

/-- The response to a call and the store after it. -/
def perform (store : Store) (call : Call) (env : Env) : Response × Store :=
  match call with
  | Call.start requester req => startConversation store requester req env
  | Call.list user => getConversations store user
  | Call.page user id query => getConversationMessages store user id query
  | Call.send user id body => sendConversationMessage store user id body env
  | Call.read user id => markConversationRead store user id

/-- What a run assumes of the surroundings of a call: the generated identifier is the identifier
of no stored conversation, and the clock has not gone back behind the creation time of a stored
message. -/
def Env.admissible (env : Env) (store : Store) : Prop :=
  (∀ c ∈ store.conversations, c._id ≠ env.newId)
    ∧ ∀ m ∈ store.messages, m.createdAt ≤ env.createdAt

instance (env : Env) (store : Store) : Decidable (env.admissible store) :=
  inferInstanceAs (Decidable (_ ∧ _))

/-- The stores reachable by sequential calls from a store without conversations and messages.
Listings and roommate requests belong to other parts of the application and may change between
calls. -/
inductive Reachable : Store → Prop where
  | empty (listings : List Listing) (roommateRequests : List RoommateRequest) :
    Reachable ⟨listings, roommateRequests, [], []⟩
  | outside {store : Store} (listings : List Listing) (roommateRequests : List RoommateRequest) :
    Reachable store →
    Reachable { store with listings := listings, roommateRequests := roommateRequests }
  | call {store : Store} (call : Call) (env : Env) :
    Reachable store → env.admissible store → Reachable (perform store call env).2

/-- What `markMessagesRead` does to one message. -/
def markOne (conversation userId : ObjectId) (m : Message) : Message :=
  if m.conversation = conversation ∧ userId ∉ m.readBy then
    { m with readBy := m.readBy ++ [userId] }
  else m

/-- The most recently created message of a conversation: messages are only ever appended, so it
is the last message of the conversation in the collection. -/
def lastOf (messages : List Message) (conversation : ObjectId) : Option Message :=
  (messages.filter fun m => m.conversation = conversation).getLast?

/-- The ways a call can change the store. -/
inductive Effect (store : Store) (env : Env) : Store → Prop where
  | unchanged : Effect store env store
  | created (participantIds : List ObjectId) (listing roommateRequest : Option ObjectId) :
    participantIds.length = 2 →
    store.conversations.find? (matchesFilter participantIds listing roommateRequest) = none →
    validateContext
      ⟨env.newId, listing, roommateRequest, participantIds, none, env.now, []⟩ = Except.ok () →
    Effect store env
      { store with
        conversations := store.conversations ++
          [⟨env.newId, listing, roommateRequest, participantIds, none, env.now, []⟩] }
  | read (cid : ObjectId) (conv : Conversation) (user : ObjectId) :
    store.findConversationById cid = some conv → user ∈ conv.participants →
    Effect store env
      { store with
        messages := markMessagesRead store.messages cid user
        conversations := updateById store.conversations cid (pullUnread user) }
  | readRejected (cid : ObjectId) (conv : Conversation) (user : ObjectId) (why : String) :
    store.findConversationById cid = some conv → validateContext conv = Except.error why →
    Effect store env { store with messages := markMessagesRead store.messages cid user }
  | sent (cid : ObjectId) (conv : Conversation) (user : ObjectId) (text : String) :
    store.findConversationById cid = some conv → user ∈ conv.participants →
    Effect store env
      { store with
        messages := store.messages ++ [createMessage cid user text env]
        conversations :=
          updateById store.conversations cid fun _ => sendUpdate conv user env.newId env }
  | sentRejected (cid : ObjectId) (conv : Conversation) (user : ObjectId) (text why : String) :
    store.findConversationById cid = some conv → validateContext conv = Except.error why →
    Effect store env { store with messages := store.messages ++ [createMessage cid user text env] }

/-- The properties every reachable store has. -/
structure Inv (store : Store) : Prop where
  ids : (store.conversations.map fun c => c._id).Nodup
  valid : ∀ c ∈ store.conversations, validateContext c = Except.ok ()
  two : ∀ c ∈ store.conversations, c.participants.length = 2
  owned : ∀ m ∈ store.messages, m.conversation ∈ store.conversations.map fun c => c._id
  last : ∀ c ∈ store.conversations,
    c.lastMessage = (lastOf store.messages c._id).map fun m => m._id
  unread : ∀ c ∈ store.conversations, ∀ u,
    u ∈ c.unreadFor ↔ u ∈ c.participants ∧ ∃ m, lastOf store.messages c._id = some m ∧ u ∉ m.readBy
  short : ∀ c ∈ store.conversations, c.unreadFor.length ≤ 1
  clock : store.messages.Pairwise fun a b => a.createdAt ≤ b.createdAt

/-! ## Creation, uniqueness and interleaving -/

/-- The write `Conversation.create`: the validation hook, then the insertion.  The indexes of
the schema are declared without `unique`, so the insertion itself refuses nothing. -/
def createConversation (store : Store) (doc : Conversation) : Except String Store :=
  match validateContext doc with
  | Except.error text => Except.error text
  | Except.ok _ => Except.ok { store with conversations := store.conversations ++ [doc] }

/-- Two conversations with the same context and the same set of participants. -/
def sameTopic (a b : Conversation) : Prop :=
  a.listing = b.listing ∧ a.roommateRequest = b.roommateRequest
    ∧ (∀ x ∈ a.participants, x ∈ b.participants) ∧ ∀ x ∈ b.participants, x ∈ a.participants

instance (a b : Conversation) : Decidable (sameTopic a b) :=
  inferInstanceAs (Decidable (_ ∧ _ ∧ _ ∧ _))

/-- The first step of the last part of `startConversation`, up to the point where
`await Conversation.findOne(conversationFilter)` returns. -/
def lookupConversation (store : Store) (participantIds : List ObjectId)
    (listing roommateRequest : Option ObjectId) : Option Conversation :=
  store.conversations.find? (matchesFilter participantIds listing roommateRequest)

/-- The steps after the lookup has returned `found`, run on the store as it is by then: the
creation when nothing was found, then `populateConversation` and the response. -/
def completeStart (found : Option Conversation) (store : Store) (participantIds : List ObjectId)
    (listing roommateRequest : Option ObjectId) (env : Env) : Response × Store :=
  match found with
  | some existing =>
    (Response.data (Payload.conversation (populateConversation store existing._id)), store)
  | none =>
    match createConversation store
        ⟨env.newId, listing, roommateRequest, participantIds, none, env.now, []⟩ with
    | Except.error text =>
      (Response.thrown "Unable to start conversation" (Failure.validation text), store)
    | Except.ok created =>
      (Response.data (Payload.conversation (populateConversation created env.newId)), created)

/-- Two calls for the same pair and context, the second starting when the first has
finished. -/
def startTwiceInSequence (store : Store) (participantIds : List ObjectId)
    (listing roommateRequest : Option ObjectId) (envA envB : Env) :
    (Response × Response) × Store :=
  let foundA := lookupConversation store participantIds listing roommateRequest
  let a := completeStart foundA store participantIds listing roommateRequest envA
  let foundB := lookupConversation a.2 participantIds listing roommateRequest
  let b := completeStart foundB a.2 participantIds listing roommateRequest envB
  ((a.1, b.1), b.2)

/-- Two concurrent calls for the same pair and context whose lookups both return before either
call goes on. -/
def startTwiceInterleaved (store : Store) (participantIds : List ObjectId)
    (listing roommateRequest : Option ObjectId) (envA envB : Env) :
    (Response × Response) × Store :=
  let foundA := lookupConversation store participantIds listing roommateRequest
  let foundB := lookupConversation store participantIds listing roommateRequest
  let a := completeStart foundA store participantIds listing roommateRequest envA
  let b := completeStart foundB a.2 participantIds listing roommateRequest envB
  ((a.1, b.1), b.2)

/-! ## Roommate reviews

The part of `backend/controllers/roommateReviewController.js` that keeps the review count of a
roommate request.  The mean rating it stores next to the count is a floating-point value and is
left out. -/

/-- A review document (`roommateReviewSchema`), with the references the controller uses. -/
structure Review where
  _id : ObjectId
  roommateRequest : ObjectId
  reviewer : ObjectId
  deriving DecidableEq, Repr

/-- A roommate request document with its stored review count. -/
structure RatedRequest where
  _id : ObjectId
  user : Option ObjectId
  reviewCount : Nat
  deriving DecidableEq, Repr

/-- The collections the review controller reads and writes. -/
structure ReviewStore where
  requests : List RatedRequest
  reviews : List Review
  deriving DecidableEq, Repr

/-- Sets the review count of the first request with the given identifier. -/
def setReviewCount (requests : List RatedRequest) (id : ObjectId) (count : Nat) :
    List RatedRequest :=
  match requests with
  | [] => []
  | r :: rest =>
    if r._id = id then { r with reviewCount := count } :: rest
    else r :: setReviewCount rest id count

/-- The helper `recalcRoommateRating`: counts the reviews that reference the request with the
given identifier text and stores the count on that request, if it exists. -/
def recalcRoommateRating (store : ReviewStore) (roommateRequestId : String) :
    Except Failure ReviewStore :=
  match castObjectId roommateRequestId with
  | none => Except.error (Failure.objectId roommateRequestId)
  | some rid =>
    let count := (store.reviews.filter fun v => v.roommateRequest = rid).length
    match store.requests.find? (fun r => r._id = rid) with
    | none => Except.ok store
    | some _ => Except.ok { store with requests := setReviewCount store.requests rid count }

/-- The controller `deleteRoommateReview`; `roommateRequestId` and `reviewId` are the two
parameters of the URL, `isAdmin` says whether the caller's role is `admin`. -/
def deleteRoommateReview (store : ReviewStore) (userId : ObjectId) (isAdmin : Bool)
    (roommateRequestId reviewId : String) : Response × ReviewStore :=
  match castObjectId reviewId with
  | none =>
    (Response.thrown "Unable to delete review" (Failure.cast "RoommateReview" "_id" reviewId),
      store)
  | some vid =>
    match store.reviews.find? (fun v => v._id = vid) with
    | none => (Response.fail 404 "Review not found", store)
    | some review =>
      if review.reviewer.toString ≠ userId.toString && !isAdmin then
        (Response.fail 403 "Not authorized to delete this review", store)
      else
        let deleted :=
          { store with reviews := store.reviews.eraseP fun v => v._id = review._id }
        match recalcRoommateRating deleted roommateRequestId with
        | Except.error e => (Response.thrown "Unable to delete review" e, deleted)
        | Except.ok recalculated =>
          (⟨200, true, some "Review deleted", Payload.none, none⟩, recalculated)

/-- Whether every request's stored count is the number of reviews that reference it. -/
def ReviewStore.consistent (store : ReviewStore) : Prop :=
  ∀ r ∈ store.requests,
    r.reviewCount = (store.reviews.filter fun v => v.roommateRequest = r._id).length

instance (store : ReviewStore) : Decidable store.consistent :=
  inferInstanceAs (Decidable (∀ r ∈ store.requests, _))

/-! ## Paging backwards -/

/-- A client that pages backwards through a conversation: it asks for a page of `limit`
messages, takes the creation time of the oldest message of the page as the next `before`, and
stops when a page is empty (or the answer is no page).  The pages are put together oldest
first; `fuel` bounds the number of requests. -/
def pageBackward (fuel : Nat) (store : Store) (userId : ObjectId) (id : String) (limit : Nat)
    (before : Option Nat) : List Message :=
  match fuel with
  | 0 => []
  | fuel + 1 =>
    match getConversationMessages store userId id ⟨before, some limit⟩ with
    | (⟨_, _, _, Payload.messages (oldest :: rest), _⟩, next) =>
      pageBackward fuel next userId id limit (some oldest.createdAt) ++ oldest :: rest
    | _ => []

/-- The messages a page query selects, newest first, before the limit is applied. -/
def selectNewestFirst (messages : List Message) (conversation : ObjectId)
    (before : Option Nat) : List Message :=
  (messages.filter (matchesQuery conversation before)).insertionSort newerMessage

/-- The store after a participant fetched a page or marked the conversation as read. -/
def readStore (store : Store) (conversation userId : ObjectId) : Store :=
  { store with
    messages := markMessagesRead store.messages conversation userId
    conversations := updateById store.conversations conversation (pullUnread userId) }

/-! ## Sample data

A store with one listing of Alice, one conversation about it between Bob and Alice, and ten
messages of Bob created at the instants 1 to 10. -/

namespace Demo

/-- The landlord; the text of her identifier is `aaaaaaaaaaaaaaaaaaaaaaa1`. -/
def alice : ObjectId := ObjectId.ofDigits 10 1

/-- A tenant. -/
def bob : ObjectId := ObjectId.ofDigits 11 2

/-- A user outside the conversation. -/
def carol : ObjectId := ObjectId.ofDigits 12 3

/-- The listing of Alice. -/
def flat : ObjectId := ObjectId.ofDigits 0 1

/-- The conversation of Bob and Alice about the listing. -/
def chat : ObjectId := ObjectId.ofDigits 0 2

/-- The conversation document; Alice is recorded as having unread messages. -/
def chatDoc : Conversation :=
  { _id := chat
    listing := some flat
    roommateRequest := none
    participants := [bob, alice]
    lastMessage := none
    lastActivityAt := 10
    unreadFor := [alice] }

/-- The message Bob sent at instant `t`. -/
def note (t : Fin 16) : Message :=
  { _id := ObjectId.ofDigits 1 t
    conversation := chat
    sender := bob
    body := "note"
    readBy := [bob]
    createdAt := t.val }

/-- The store. -/
def store : Store :=
  { listings := [⟨flat, some alice⟩]
    roommateRequests := []
    conversations := [chatDoc]
    messages := [note 1, note 2, note 3, note 4, note 5, note 6, note 7, note 8, note 9, note 10] }

/-- The text a client sends for the conversation. -/
def chatText : String := "000000000000000000000002"

/-- The text of a well-formed identifier no conversation has. -/
def strayText : String := "ffffffffffffffffffffffff"

/-- A request to talk about the listing of Alice. -/
def askFlat : StartRequest :=
  { listingId := some "000000000000000000000001", participantId := none, roommateRequestId := none }

/-- The request of Alice about her own listing that names herself, in capitals, as the other
participant. -/
def askSelf : StartRequest :=
  { listingId := some "000000000000000000000001"
    participantId := some "AAAAAAAAAAAAAAAAAAAAAAA1"
    roommateRequestId := none }

/-- The store before any conversation was started. -/
def listed : Store :=
  { listings := [⟨flat, some alice⟩], roommateRequests := [], conversations := [], messages := [] }

/-- The surroundings of a call at instant 20. -/
def env : Env := { newId := ObjectId.ofDigits 2 0, createdAt := 20, now := 20 }

/-- The surroundings of a call at instant 30. -/
def later : Env := { newId := ObjectId.ofDigits 3 0, createdAt := 30, now := 30 }

/-- The roommate request of Bob. -/
def room : ObjectId := ObjectId.ofDigits 0 3

/-- A store with the listing of Alice and the roommate request of Bob, before any
conversation. -/
def shared : Store :=
  { listings := [⟨flat, some alice⟩]
    roommateRequests := [⟨room, some bob⟩]
    conversations := []
    messages := [] }

/-- A request that names both the listing of Alice and the roommate request of Bob, and no
participant. -/
def askBoth : StartRequest :=
  { listingId := some "000000000000000000000001"
    participantId := none
    roommateRequestId := some "000000000000000000000003" }

/-- The request of Alice that names both her listing and the roommate request of Bob, and Carol
as the other participant. -/
def askCarol : StartRequest :=
  { listingId := some "000000000000000000000001"
    participantId := some "ccccccccccccccccccccccc3"
    roommateRequestId := some "000000000000000000000003" }

/-- The surroundings of the first message, at instant 21. -/
def first : Env := { newId := ObjectId.ofDigits 3 1, createdAt := 21, now := 21 }

/-- The surroundings of the second message, at instant 22. -/
def second : Env := { newId := ObjectId.ofDigits 3 2, createdAt := 22, now := 22 }

/-- The text of the identifier generated in `env`. -/
def talkText : String := "222222222222222222222220"

/-- The store after Bob asked about the listing of Alice. -/
def started : Store := (perform listed (Call.start bob askFlat) env).2

/-- The store after Bob then wrote to Alice. -/
def wrote : Store := (perform started (Call.send bob talkText (some "Hello")) first).2

/-- The store after Alice then answered without opening the conversation. -/
def answered : Store := (perform wrote (Call.send alice talkText (some "Hi")) second).2

/-- The store after Alice asked about her own listing, naming herself in capitals. -/
def alone : Store := (perform listed (Call.start alice askSelf) env).2

/-- The review of Carol. -/
def praise : ObjectId := ObjectId.ofDigits 4 1

/-- The roommate request of Alice. -/
def attic : ObjectId := ObjectId.ofDigits 0 4

/-- The roommate request of Alice without a review, that of Bob with the review of Carol. -/
def reviewed : ReviewStore :=
  { requests := [⟨attic, some alice, 0⟩, ⟨room, some bob, 1⟩]
    reviews := [⟨praise, room, carol⟩] }

/-- A message of Bob with the given last identifier digit and creation time. -/
def memo (k : Fin 16) (createdAt : Nat) : Message :=
  { _id := ObjectId.ofDigits 5 k
    conversation := chat
    sender := bob
    body := "memo"
    readBy := [bob]
    createdAt := createdAt }

/-- The conversation of Bob and Alice with three messages, two of them created at the same
instant. -/
def tied : Store :=
  { listings := [⟨flat, some alice⟩]
    roommateRequests := []
    conversations := [chatDoc]
    messages := [memo 1 1, memo 2 1, memo 3 2] }

end Demo

/-! ## Identifiers and strings -/

theorem hexVal?_hexChar (d : Fin 16) : hexVal? (hexChar d) = some d := by
  revert d; decide

theorem hexDigits?_map_hexChar (ds : List (Fin 16)) : hexDigits? (ds.map hexChar) = some ds := by
  induction ds with
  | nil => rfl
  | cons d ds ih => simp [hexDigits?, hexVal?_hexChar, ih]

/-- Casting the text of an identifier gives the identifier back. -/
theorem castObjectId_toString (o : ObjectId) : castObjectId o.toString = some o := by
  obtain ⟨ds, h⟩ := o
  simp [castObjectId, ObjectId.toString, hexDigits?_map_hexChar, h]

/-- Two identifiers with the same text are the same. -/
theorem toString_inj {o p : ObjectId} : o.toString = p.toString ↔ o = p := by
  constructor
  · intro h
    have h1 := castObjectId_toString o
    rw [h, castObjectId_toString] at h1
    exact (Option.some.inj h1).symm
  · intro h; rw [h]

/-- The participant test holds exactly for the members of `participants`. -/
theorem ensureParticipant_iff (c : Conversation) (u : ObjectId) :
    ensureParticipant c u = true ↔ u ∈ c.participants := by
  simp only [ensureParticipant, List.any_eq_true, decide_eq_true_eq, toString_inj]
  constructor
  · rintro ⟨x, hx, rfl⟩; exact hx
  · intro h; exact ⟨u, h, rfl⟩

theorem dropWhile_initial_self {α : Type} (p : α → Bool) {d t : List α}
    (hd : d.dropWhile p = d) (ht : t <+: d) : t.dropWhile p = t := by
  cases t with
  | nil => rfl
  | cons a t =>
    obtain ⟨s, rfl⟩ := ht
    rw [List.dropWhile_eq_self_iff] at hd ⊢
    intro _
    exact hd (by simp)

theorem trimChars_eq (cs : List Char) :
    trimChars cs = (cs.dropWhile isJsWhitespace).rdropWhile isJsWhitespace := rfl

theorem trimChars_idem (cs : List Char) : trimChars (trimChars cs) = trimChars cs := by
  rw [trimChars_eq, trimChars_eq,
    dropWhile_initial_self isJsWhitespace (List.dropWhile_idempotent isJsWhitespace cs)
      ( List.rdropWhile_prefix isJsWhitespace _),
    List.rdropWhile_idempotent]

theorem trimChars_all (cs : List Char) (h : cs.all isJsWhitespace = true) : trimChars cs = [] := by
  have h1 : cs.dropWhile isJsWhitespace = [] := by
    rw [List.dropWhile_eq_nil_iff]
    simpa using h
  simp [trimChars, h1]

theorem jsTrim_idem (s : String) : jsTrim (jsTrim s) = jsTrim s := by
  simp [jsTrim, trimChars_idem]

theorem jsTrim_empty : jsTrim "" = "" := by decide

theorem truthy?_of_trim_ne {text : String} (h : jsTrim text ≠ "") :
    truthy? (some text) = some text := by
  have : text ≠ "" := by
    rintro rfl
    exact h jsTrim_empty
  simp [truthy?, this]

theorem ensureParticipant_false {c : Conversation} {u : ObjectId} (h : u ∉ c.participants) :
    ensureParticipant c u = false := by
  rw [← Bool.not_eq_true, ensureParticipant_iff]; exact h

/-! ## Store lemmas -/

/-- The stored list around the document `findConversationById` returns. -/
theorem findConversationById_split {store : Store} {cid : ObjectId} {conv : Conversation}
    (h : store.findConversationById cid = some conv) :
    conv._id = cid ∧ ∃ front back, store.conversations = front ++ conv :: back
      ∧ ∀ x ∈ front, x._id ≠ cid := by
  unfold Store.findConversationById at h
  rw [List.find?_eq_some] at h
  obtain ⟨hid, front, back, hsplit, hfront⟩ := h
  refine ⟨by simpa using hid, front, back, hsplit, ?_⟩
  intro x hx
  simpa using hfront x hx

theorem updateById_split (front back : List Conversation) (conv : Conversation) (cid : ObjectId)
    (f : Conversation → Conversation) (hid : conv._id = cid) (hfront : ∀ x ∈ front, x._id ≠ cid) :
    updateById (front ++ conv :: back) cid f = front ++ f conv :: back := by
  induction front with
  | nil => simp [updateById, hid]
  | cons a front ih =>
    have ha : a._id ≠ cid := hfront a (by simp)
    have := ih (fun x hx => hfront x (by simp [hx]))
    simp [updateById, ha, this]

theorem find?_split_id (front back : List Conversation) (conv : Conversation) (cid : ObjectId)
    (hid : conv._id = cid) (hfront : ∀ x ∈ front, x._id ≠ cid) :
    (front ++ conv :: back).find? (fun c => c._id = cid) = some conv := by
  rw [List.find?_eq_some]
  refine ⟨by simpa using hid, front, back, rfl, ?_⟩
  intro x hx
  simpa using hfront x hx

/-- After an update addressed by identifier that keeps the identifier, the lookup returns the
updated document. -/
theorem find?_updateById (docs : List Conversation) (cid : ObjectId)
    (f : Conversation → Conversation) (hf : ∀ c, (f c)._id = c._id) :
    (updateById docs cid f).find? (fun c => c._id = cid)
      = (docs.find? (fun c => c._id = cid)).map f := by
  induction docs with
  | nil => rfl
  | cons a docs ih =>
    by_cases ha : a._id = cid
    · simp [updateById, ha, hf]
    · simp [updateById, ha, ih]

/-- The texts that survive the sender test, cast back, are the participants other than the
sender. -/
theorem filterMap_cast_filter (ps : List ObjectId) (u : ObjectId) :
    ((ps.map ObjectId.toString).filter fun p => p ≠ u.toString).filterMap castObjectId
      = ps.filter fun p => p ≠ u := by
  induction ps with
  | nil => rfl
  | cons a ps ih =>
    by_cases h : a = u
    · subst h; simpa using ih
    · have h2 : a.toString ≠ u.toString := fun e => h (toString_inj.mp e)
      simpa [List.filter_cons, h, h2, castObjectId_toString] using ih

theorem sendUpdate_eq (conv : Conversation) (u mid : ObjectId) (env : Env) :
    sendUpdate conv u mid env =
      { conv with
        lastMessage := some mid
        lastActivityAt := env.now
        unreadFor := conv.participants.filter fun p => p ≠ u } := by
  simp only [sendUpdate, filterMap_cast_filter]

theorem readUpdate_eq (conv : Conversation) (u : ObjectId) :
    readUpdate conv u = pullUnread u conv := by
  simp [readUpdate, pullUnread, toString_inj]

theorem validateContext_sendUpdate (conv : Conversation) (u mid : ObjectId) (env : Env) :
    validateContext (sendUpdate conv u mid env) = validateContext conv := by
  simp [validateContext, sendUpdate]

theorem validateContext_pullUnread (conv : Conversation) (u : ObjectId) :
    validateContext (pullUnread u conv) = validateContext conv := by
  simp [validateContext, pullUnread]

/-- The course of `sendConversationMessage` for a participant and a non-blank body, when the
conversation passes the validator. -/
theorem sendConversationMessage_ok {store : Store} {s : ObjectId} {c : String}
    {cid : ObjectId} {conv : Conversation} {text : String} (env : Env)
    (hc : castObjectId c = some cid) (hfound : store.findConversationById cid = some conv)
    (hs : s ∈ conv.participants) (hbody : jsTrim text ≠ "")
    (hv : validateContext conv = Except.ok ()) :
    sendConversationMessage store s c (some text) env =
      (⟨201, true, some "Message sent.",
          Payload.sent
            (Store.findMessageById
              { store with messages := store.messages ++ [createMessage cid s text env] }
              env.newId)
            (populateConversation
              { store with
                messages := store.messages ++ [createMessage cid s text env]
                conversations :=
                  updateById store.conversations cid fun _ => sendUpdate conv s env.newId env }
              cid),
          none⟩,
        { store with
          messages := store.messages ++ [createMessage cid s text env]
          conversations :=
            updateById store.conversations cid fun _ => sendUpdate conv s env.newId env }) := by
  have hp := (ensureParticipant_iff conv s).mpr hs
  have ht := truthy?_of_trim_ne hbody
  have hid : conv._id = cid := (findConversationById_split hfound).1
  have hv2 : validateContext (sendUpdate conv s env.newId env) = Except.ok () := by
    rw [validateContext_sendUpdate, hv]
  have hid2 : (sendUpdate conv s env.newId env)._id = cid := by simp [sendUpdate, hid]
  simp only [sendConversationMessage, ht, hbody, hc, hfound, hp, createMessage, hv2, hid2]
  simp

/-- The course of `sendConversationMessage` for a participant and a non-blank body, when the
conversation fails the validator: the message is stored and the save throws. -/
theorem sendConversationMessage_rejected {store : Store} {s : ObjectId} {c : String}
    {cid : ObjectId} {conv : Conversation} {text : String} (env : Env) {why : String}
    (hc : castObjectId c = some cid) (hfound : store.findConversationById cid = some conv)
    (hs : s ∈ conv.participants) (hbody : jsTrim text ≠ "")
    (hv : validateContext conv = Except.error why) :
    sendConversationMessage store s c (some text) env =
      (Response.thrown "Unable to send message" (Failure.validation why),
        { store with messages := store.messages ++ [createMessage cid s text env] }) := by
  have hp := (ensureParticipant_iff conv s).mpr hs
  have ht := truthy?_of_trim_ne hbody
  have hv2 : validateContext (sendUpdate conv s env.newId env) = Except.error why := by
    rw [validateContext_sendUpdate, hv]
  simp only [sendConversationMessage, ht, hbody, hc, hfound, hp, createMessage, hv2]
  simp

/-! ## Reading lemmas -/

theorem updateById_const_eq {store : Store} {cid : ObjectId} {conv : Conversation}
    (f : Conversation → Conversation) (h : store.findConversationById cid = some conv) :
    updateById store.conversations cid (fun _ => f conv) = updateById store.conversations cid f := by
  obtain ⟨hid, front, back, hsplit, hfront⟩ := findConversationById_split h
  rw [hsplit, updateById_split front back conv cid _ hid hfront,
    updateById_split front back conv cid _ hid hfront]

theorem updateById_twice (docs : List Conversation) (cid : ObjectId)
    (f : Conversation → Conversation) (hf : ∀ c, (f c)._id = c._id) (hff : ∀ c, f (f c) = f c) :
    updateById (updateById docs cid f) cid f = updateById docs cid f := by
  induction docs with
  | nil => rfl
  | cons a docs ih =>
    by_cases ha : a._id = cid
    · simp [updateById, ha, hf, hff]
    · simp [updateById, ha, ih]

theorem pullUnread_idem (u : ObjectId) (c : Conversation) :
    pullUnread u (pullUnread u c) = pullUnread u c := by
  simp [pullUnread, List.filter_filter]

theorem markMessagesRead_idem (ms : List Message) (cid u : ObjectId) :
    markMessagesRead (markMessagesRead ms cid u) cid u = markMessagesRead ms cid u := by
  simp only [markMessagesRead, List.map_map]
  apply List.map_congr_left
  intro m _
  by_cases h : m.conversation = cid ∧ u ∉ m.readBy
  · simp [h]
  · simp [h]

/-- The lookup by identifier after an update addressed by identifier. -/
theorem findConversationById_update (store : Store) (ms : List Message) (cid : ObjectId)
    (f : Conversation → Conversation) (hf : ∀ c, (f c)._id = c._id) :
    Store.findConversationById
        { store with messages := ms, conversations := updateById store.conversations cid f } cid
      = (store.findConversationById cid).map f := by
  simp only [Store.findConversationById]
  exact find?_updateById store.conversations cid f hf

/-- The course of `getConversationMessages` for a participant. -/
theorem getConversationMessages_participant {store : Store} {u : ObjectId} {c : String}
    {cid : ObjectId} {conv : Conversation} (query : PageQuery)
    (hc : castObjectId c = some cid) (hfound : store.findConversationById cid = some conv)
    (hu : u ∈ conv.participants) :
    getConversationMessages store u c query =
      (Response.data (Payload.messages (findPage store cid query).reverse),
        { store with
          messages := markMessagesRead store.messages cid u
          conversations := updateById store.conversations cid (pullUnread u) }) := by
  have hp := (ensureParticipant_iff conv u).mpr hu
  simp [getConversationMessages, hc, hfound, hp]

/-- The course of `markConversationRead` for a participant, when the conversation passes the
validator. -/
theorem markConversationRead_ok {store : Store} {u : ObjectId} {c : String}
    {cid : ObjectId} {conv : Conversation}
    (hc : castObjectId c = some cid) (hfound : store.findConversationById cid = some conv)
    (hu : u ∈ conv.participants) (hv : validateContext conv = Except.ok ()) :
    markConversationRead store u c =
      (⟨200, true, some "Conversation marked as read.", Payload.none, none⟩,
        { store with
          messages := markMessagesRead store.messages cid u
          conversations := updateById store.conversations cid (pullUnread u) }) := by
  have hp := (ensureParticipant_iff conv u).mpr hu
  have hid : conv._id = cid := (findConversationById_split hfound).1
  have hv2 : validateContext (readUpdate conv u) = Except.ok () := by
    rw [readUpdate_eq, validateContext_pullUnread, hv]
  have hid2 : (readUpdate conv u)._id = cid := by simp [readUpdate, hid]
  have hupd := updateById_const_eq (pullUnread u) hfound
  simp only [markConversationRead, hc, hfound, hp, hv2, hid2]
  simp [readUpdate_eq, hupd]

/-- The course of `markConversationRead` for a participant, when the conversation fails the
validator: the messages are marked and the save throws. -/
theorem markConversationRead_rejected {store : Store} {u : ObjectId} {c : String}
    {cid : ObjectId} {conv : Conversation} {why : String}
    (hc : castObjectId c = some cid) (hfound : store.findConversationById cid = some conv)
    (hu : u ∈ conv.participants) (hv : validateContext conv = Except.error why) :
    markConversationRead store u c =
      (Response.thrown "Unable to mark conversation as read" (Failure.validation why),
        { store with messages := markMessagesRead store.messages cid u }) := by
  have hp := (ensureParticipant_iff conv u).mpr hu
  have hv2 : validateContext (readUpdate conv u) = Except.error why := by
    rw [readUpdate_eq, validateContext_pullUnread, hv]
  simp only [markConversationRead, hc, hfound, hp, hv2]
  simp

/-! ## Starting lemmas -/

theorem resolveContext_congr {s1 s2 : Store} (hl : s1.listings = s2.listings)
    (hr : s1.roommateRequests = s2.roommateRequests) (requester : ObjectId) (req : StartRequest) :
    resolveContext s1 requester req = resolveContext s2 requester req := by
  simp [resolveContext, resolveListing, resolveRoommateRequest, hl, hr]

theorem validateContext_congr {a b : Conversation} (hl : a.listing = b.listing)
    (hr : a.roommateRequest = b.roommateRequest) : validateContext a = validateContext b := by
  simp [validateContext, hl, hr]

theorem resolveListing_error_status {store : Store} {requester : ObjectId} {listingId : String}
    {participantId : Option String} {response : Response}
    (h : resolveListing store requester listingId participantId = Except.error response) :
    response.status ≠ 200 := by
  cases hc : castObjectId listingId with
  | none =>
    simp only [resolveListing, hc] at h
    cases h; simp [Response.thrown]
  | some lid =>
    cases hf : store.listings.find? (fun l => l._id = lid) with
    | none =>
      simp only [resolveListing, hc, hf] at h
      cases h; simp [Response.fail]
    | some listing =>
      by_cases hl : listing.landlord.map ObjectId.toString = some requester.toString
      · cases ht : truthy? participantId with
        | none =>
          simp only [resolveListing, hc, hf, hl, ht, if_true] at h
          cases h; simp [Response.fail]
        | some p => simp only [resolveListing, hc, hf, hl, ht, if_true] at h; cases h
      · simp only [resolveListing, hc, hf, hl, if_false] at h; cases h

theorem resolveRoommateRequest_error_status {store : Store} {requester : ObjectId}
    {roommateRequestId : String} {participantId : Option String} {response : Response}
    (h : resolveRoommateRequest store requester roommateRequestId participantId
      = Except.error response) :
    response.status ≠ 200 := by
  cases hc : castObjectId roommateRequestId with
  | none =>
    simp only [resolveRoommateRequest, hc] at h
    cases h; simp [Response.thrown]
  | some rid =>
    cases hf : store.roommateRequests.find? (fun r => r._id = rid) with
    | none =>
      simp only [resolveRoommateRequest, hc, hf] at h
      cases h; simp [Response.fail]
    | some request =>
      by_cases hl : request.user.map ObjectId.toString = some requester.toString
      · cases ht : truthy? participantId with
        | none =>
          simp only [resolveRoommateRequest, hc, hf, hl, ht, if_true] at h
          cases h; simp [Response.fail]
        | some p => simp only [resolveRoommateRequest, hc, hf, hl, ht, if_true] at h; cases h
      · simp only [resolveRoommateRequest, hc, hf, hl, if_false] at h; cases h

theorem resolveContext_error_status {store : Store} {requester : ObjectId} {req : StartRequest}
    {response : Response} (h : resolveContext store requester req = Except.error response) :
    response.status ≠ 200 := by
  unfold resolveContext at h
  split at h
  · cases h; simp [Response.fail]
  · exact resolveListing_error_status h
  · exact resolveRoommateRequest_error_status h

theorem findOrCreate_frame (store : Store) (ps : List ObjectId) (l r : Option ObjectId)
    (env : Env) :
    (findOrCreate store ps l r env).2.listings = store.listings
      ∧ (findOrCreate store ps l r env).2.roommateRequests = store.roommateRequests
      ∧ (findOrCreate store ps l r env).2.messages = store.messages := by
  cases hfind : store.conversations.find? (matchesFilter ps l r) with
  | some existing => simp [findOrCreate, hfind]
  | none =>
    cases hv : validateContext ⟨env.newId, l, r, ps, none, env.now, []⟩ with
    | error why => simp [findOrCreate, hfind, hv]
    | ok done => simp [findOrCreate, hfind, hv]

theorem matchesFilter_created (ps : List ObjectId) (l r : Option ObjectId) (env : Env) :
    matchesFilter ps l r ⟨env.newId, l, r, ps, none, env.now, []⟩ = true := by
  cases l <;> cases r <;> simp [matchesFilter]

theorem findConversationById_of_mem (store : Store) {x : Conversation}
    (hx : x ∈ store.conversations) : ∃ c, store.findConversationById x._id = some c := by
  cases h : store.findConversationById x._id with
  | some c => exact ⟨c, rfl⟩
  | none =>
    unfold Store.findConversationById at h
    rw [List.find?_eq_none] at h
    exact absurd (by simp) (h x hx)

/-- A repeated lookup-or-create returns what the first call returned and writes nothing. -/
theorem findOrCreate_idem (store : Store) (ps : List ObjectId) (l r : Option ObjectId)
    (env env2 : Env) :
    findOrCreate (findOrCreate store ps l r env).2 ps l r env2 = findOrCreate store ps l r env := by
  cases hfind : store.conversations.find? (matchesFilter ps l r) with
  | some existing => simp [findOrCreate, hfind]
  | none =>
    cases hv : validateContext ⟨env.newId, l, r, ps, none, env.now, []⟩ with
    | error why =>
      have hv2 : validateContext ⟨env2.newId, l, r, ps, none, env2.now, []⟩ = Except.error why := by
        rw [← hv]; exact validateContext_congr rfl rfl
      simp [findOrCreate, hfind, hv, hv2]
    | ok done =>
      simp [findOrCreate, hfind, hv, matchesFilter_created]

/-- A successful lookup-or-create answers with a conversation. -/
theorem findOrCreate_view (store : Store) (ps : List ObjectId) (l r : Option ObjectId)
    (env : Env) (hok : (findOrCreate store ps l r env).1.status = 200) :
    ∃ view, (findOrCreate store ps l r env).1.payload = Payload.conversation (some view) := by
  unfold findOrCreate at hok ⊢
  cases hfind : store.conversations.find? (matchesFilter ps l r) with
  | some existing =>
    obtain ⟨c, hc⟩ := findConversationById_of_mem store (List.mem_of_find?_eq_some hfind)
    simp [Response.data, populateConversation, hc]
  | none =>
    cases hv : validateContext ⟨env.newId, l, r, ps, none, env.now, []⟩ with
    | error why => simp [hfind, hv, Response.thrown] at hok
    | ok done =>
      have hmem : (⟨env.newId, l, r, ps, none, env.now, []⟩ : Conversation)
          ∈ (store.conversations ++ [⟨env.newId, l, r, ps, none, env.now, []⟩]) := by simp
      obtain ⟨c, hc⟩ := findConversationById_of_mem
        { store with
          conversations := store.conversations ++ [⟨env.newId, l, r, ps, none, env.now, []⟩] }
        hmem
      simp [hv, Response.data, populateConversation, hc]

/-- When the text of the other participant is the text of the requester's identifier, the
request is refused with status 400 and nothing is written. -/
theorem startConversation_same_text {store : Store} {requester : ObjectId} {req : StartRequest}
    {ctx : Resolved} (env : Env) (hr : resolveContext store requester req = Except.ok ctx)
    (hself : ctx.otherParticipantId = some requester.toString) :
    startConversation store requester req env
      = (Response.fail 400 "Cannot start a conversation with yourself.", store) := by
  have hne : requester.toString ≠ "" := by
    intro h
    have h1 := castObjectId_toString requester
    have h0 : castObjectId "" = none := by decide
    rw [h, h0] at h1
    cases h1
  simp [startConversation, hr, hself, truthy?, hne]

theorem truthy?_of_cast {t : String} {id : ObjectId} (h : castObjectId t = some id) :
    truthy? (some t) = some t := by
  have hne : t ≠ "" := by
    rintro rfl
    have h0 : castObjectId "" = none := by decide
    rw [h0] at h; cases h
  simp [truthy?, hne]

/-- The listing branch for a requester who is not the landlord: the other participant is the
landlord, whatever `participantId` says. -/
theorem resolveListing_other {store : Store} {requester landlord : ObjectId} {t : String}
    {lid : ObjectId} {listing : Listing} (participantId : Option String)
    (ht : castObjectId t = some lid)
    (hfind : store.listings.find? (fun l => l._id = lid) = some listing)
    (hland : listing.landlord = some landlord) (hne : landlord ≠ requester) :
    resolveListing store requester t participantId
      = Except.ok ⟨some landlord.toString, some lid, none⟩ := by
  have h2 : landlord.toString ≠ requester.toString := fun e => hne (toString_inj.mp e)
  simp [resolveListing, ht, hfind, hland, h2]

/-- The listing branch for the landlord who names another participant. -/
theorem resolveListing_owner {store : Store} {requester : ObjectId} {t p : String}
    {lid : ObjectId} {listing : Listing} {participantId : Option String}
    (ht : castObjectId t = some lid)
    (hfind : store.listings.find? (fun l => l._id = lid) = some listing)
    (hland : listing.landlord = some requester) (hp : truthy? participantId = some p) :
    resolveListing store requester t participantId = Except.ok ⟨some p, some lid, none⟩ := by
  simp [resolveListing, ht, hfind, hland, hp]

/-- The listing branch for the landlord who names no other participant. -/
theorem resolveListing_owner_alone {store : Store} {requester : ObjectId} {t : String}
    {lid : ObjectId} {listing : Listing} {participantId : Option String}
    (ht : castObjectId t = some lid)
    (hfind : store.listings.find? (fun l => l._id = lid) = some listing)
    (hland : listing.landlord = some requester) (hp : truthy? participantId = none) :
    resolveListing store requester t participantId
      = Except.error
          (Response.fail 400 "Provide participantId when landlord starts a conversation.") := by
  simp [resolveListing, ht, hfind, hland, hp]

/-- The roommate request branch for a requester who is not the owner. -/
theorem resolveRoommateRequest_other {store : Store} {requester owner : ObjectId} {t : String}
    {rid : ObjectId} {request : RoommateRequest} (participantId : Option String)
    (ht : castObjectId t = some rid)
    (hfind : store.roommateRequests.find? (fun r => r._id = rid) = some request)
    (hown : request.user = some owner) (hne : owner ≠ requester) :
    resolveRoommateRequest store requester t participantId
      = Except.ok ⟨some owner.toString, none, some rid⟩ := by
  have h2 : owner.toString ≠ requester.toString := fun e => hne (toString_inj.mp e)
  simp [resolveRoommateRequest, ht, hfind, hown, h2]

/-- The roommate request branch for the owner who names another participant. -/
theorem resolveRoommateRequest_owner {store : Store} {requester : ObjectId} {t p : String}
    {rid : ObjectId} {request : RoommateRequest} {participantId : Option String}
    (ht : castObjectId t = some rid)
    (hfind : store.roommateRequests.find? (fun r => r._id = rid) = some request)
    (hown : request.user = some requester) (hp : truthy? participantId = some p) :
    resolveRoommateRequest store requester t participantId
      = Except.ok ⟨some p, none, some rid⟩ := by
  simp [resolveRoommateRequest, ht, hfind, hown, hp]

/-- The roommate request branch for the owner who names no other participant. -/
theorem resolveRoommateRequest_owner_alone {store : Store} {requester : ObjectId} {t : String}
    {rid : ObjectId} {request : RoommateRequest} {participantId : Option String}
    (ht : castObjectId t = some rid)
    (hfind : store.roommateRequests.find? (fun r => r._id = rid) = some request)
    (hown : request.user = some requester) (hp : truthy? participantId = none) :
    resolveRoommateRequest store requester t participantId
      = Except.error
          (Response.fail 400
            "Provide participantId when starting a conversation about your own request.") := by
  simp [resolveRoommateRequest, ht, hfind, hown, hp]

/-- After the context is resolved to another user's identifier text, `startConversation` is the
lookup-or-create for the pair. -/
theorem startConversation_resolved {store : Store} {requester other : ObjectId}
    {req : StartRequest} {p : String} {l r : Option ObjectId} (env : Env)
    (hr : resolveContext store requester req = Except.ok ⟨some p, l, r⟩)
    (hp : castObjectId p = some other) (hne : other ≠ requester) :
    startConversation store requester req env = findOrCreate store [requester, other] l r env := by
  have hp2 : p ≠ requester.toString := by
    rintro rfl
    rw [castObjectId_toString] at hp
    exact hne (Option.some.inj hp).symm
  simp [startConversation, hr, truthy?_of_cast hp, hp2, hp]

theorem findOrCreate_status (store : Store) (ps : List ObjectId) (l r : Option ObjectId)
    (env : Env) (hone : l.isSome ≠ r.isSome) : (findOrCreate store ps l r env).1.status = 200 := by
  cases hfind : store.conversations.find? (matchesFilter ps l r) with
  | some existing => simp [findOrCreate, hfind, Response.data]
  | none =>
    cases l <;> cases r <;> simp at hone <;>
      simp [findOrCreate, hfind, validateContext, Response.data]

theorem matchesFilter_swap (a b : ObjectId) (l r : Option ObjectId) :
    matchesFilter [a, b] l r = matchesFilter [b, a] l r := by
  funext c
  simp only [matchesFilter, List.all_cons, List.all_nil, Bool.and_true, List.length_cons,
    List.length_nil]
  rw [Bool.and_comm (decide (a ∈ c.participants))]

/-- The lookup-or-create for a pair, repeated with the pair in the other order, returns what the
first call returned and writes nothing. -/
theorem findOrCreate_swap (store : Store) (a b : ObjectId) (l r : Option ObjectId)
    (env env2 : Env) :
    findOrCreate (findOrCreate store [a, b] l r env).2 [b, a] l r env2
      = findOrCreate store [a, b] l r env := by
  cases hfind : store.conversations.find? (matchesFilter [a, b] l r) with
  | some existing =>
    have hfind2 := hfind
    rw [matchesFilter_swap] at hfind2
    simp [findOrCreate, hfind, hfind2]
  | none =>
    cases hv : validateContext ⟨env.newId, l, r, [a, b], none, env.now, []⟩ with
    | error why =>
      have hv2 : validateContext ⟨env2.newId, l, r, [b, a], none, env2.now, []⟩
          = Except.error why := by
        rw [← hv]; exact validateContext_congr rfl rfl
      have hfind2 := hfind
      rw [matchesFilter_swap] at hfind2
      simp [findOrCreate, hfind, hfind2, hv, hv2]
    | ok done =>
      have hfind2 := hfind
      rw [matchesFilter_swap] at hfind2
      have hm : matchesFilter [b, a] l r ⟨env.newId, l, r, [a, b], none, env.now, []⟩ = true := by
        rw [← matchesFilter_swap]; exact matchesFilter_created [a, b] l r env
      simp [findOrCreate, hfind, hfind2, hv, hm]

theorem pair_of_two {l : List ObjectId} {a b : ObjectId} (hlen : l.length = 2) (ha : a ∈ l)
    (hb : b ∈ l) (hab : a ≠ b) : ∀ x, x ∈ l ↔ x = a ∨ x = b := by
  match l, hlen with
  | [y, z], _ =>
    intro x
    simp only [List.mem_cons, List.mem_singleton, List.not_mem_nil, or_false] at ha hb ⊢
    rcases ha with rfl | rfl <;> rcases hb with rfl | rfl
    · exact absurd rfl hab
    · rfl
    · exact or_comm
    · exact absurd rfl hab

/-- What a lookup-or-create for a pair of distinct users returns: a stored conversation with
exactly the two as participants, the store unchanged, or a new conversation of the two, appended
to the store. -/
theorem findOrCreate_pair (store : Store) (a b : ObjectId) (l r : Option ObjectId) (env : Env)
    (hab : a ≠ b) (hone : l.isSome ≠ r.isSome) :
    ∃ conv : Conversation,
      (∀ x, x ∈ conv.participants ↔ x = a ∨ x = b)
        ∧ ((conv ∈ store.conversations
              ∧ findOrCreate store [a, b] l r env
                = (Response.data (Payload.conversation (populateConversation store conv._id)),
                    store))
          ∨ (conv = ⟨env.newId, l, r, [a, b], none, env.now, []⟩
              ∧ (findOrCreate store [a, b] l r env).2
                = { store with conversations := store.conversations ++ [conv] })) := by
  cases hfind : store.conversations.find? (matchesFilter [a, b] l r) with
  | some existing =>
    have hm := List.find?_some hfind
    simp only [matchesFilter, List.all_cons, List.all_nil, Bool.and_true, List.length_cons,
      List.length_nil, Bool.and_eq_true, decide_eq_true_eq] at hm
    obtain ⟨⟨⟨⟨ha, hb⟩, hlen⟩, _⟩, _⟩ := hm
    refine ⟨existing, pair_of_two hlen ha hb hab, Or.inl ⟨List.mem_of_find?_eq_some hfind, ?_⟩⟩
    simp [findOrCreate, hfind]
  | none =>
    refine ⟨⟨env.newId, l, r, [a, b], none, env.now, []⟩, by simp, Or.inr ⟨rfl, ?_⟩⟩
    cases l <;> cases r <;> simp at hone <;> simp [findOrCreate, hfind, validateContext]

theorem resolveListing_ok {store : Store} {requester : ObjectId} {t : String}
    {participantId : Option String} {ctx : Resolved}
    (h : resolveListing store requester t participantId = Except.ok ctx) :
    ∃ lid, castObjectId t = some lid ∧ ctx.listing = some lid ∧ ctx.roommateRequest = none := by
  cases hc : castObjectId t with
  | none => simp only [resolveListing, hc] at h; cases h
  | some lid =>
    cases hf : store.listings.find? (fun l => l._id = lid) with
    | none => simp only [resolveListing, hc, hf] at h; cases h
    | some listing =>
      by_cases hl : listing.landlord.map ObjectId.toString = some requester.toString
      · cases ht : truthy? participantId with
        | none => simp only [resolveListing, hc, hf, hl, ht, if_true] at h; cases h
        | some p =>
          simp only [resolveListing, hc, hf, hl, ht, if_true] at h
          cases h; exact ⟨lid, rfl, rfl, rfl⟩
      · simp only [resolveListing, hc, hf, hl, if_false] at h
        cases h; exact ⟨lid, rfl, rfl, rfl⟩

/-- What `startConversation` does to the store once the context is resolved: nothing, or one
conversation with the resolved context appended. -/
theorem startConversation_appends {store : Store} {requester : ObjectId} {req : StartRequest}
    {ctx : Resolved} (env : Env) (hr : resolveContext store requester req = Except.ok ctx) :
    (startConversation store requester req env).2 = store
      ∨ ∃ doc : Conversation,
          (startConversation store requester req env).2
              = { store with conversations := store.conversations ++ [doc] }
            ∧ doc.listing = ctx.listing ∧ doc.roommateRequest = ctx.roommateRequest
            ∧ validateContext doc = Except.ok () := by
  cases ht : truthy? ctx.otherParticipantId with
  | none => simp [startConversation, hr, ht]
  | some other =>
    by_cases hself : other = requester.toString
    · simp [startConversation, hr, ht, hself]
    · cases hcast : castObjectId other with
      | none => simp [startConversation, hr, ht, hself, hcast]
      | some otherId =>
        have h1 : startConversation store requester req env
            = findOrCreate store [requester, otherId] ctx.listing ctx.roommateRequest env := by
          simp [startConversation, hr, ht, hself, hcast]
        rw [h1]
        cases hfind : store.conversations.find?
            (matchesFilter [requester, otherId] ctx.listing ctx.roommateRequest) with
        | some existing => simp [findOrCreate, hfind]
        | none =>
          cases hv : validateContext
              ⟨env.newId, ctx.listing, ctx.roommateRequest, [requester, otherId], none, env.now,
                []⟩ with
          | error why => simp [findOrCreate, hfind, hv]
          | ok done =>
            refine Or.inr ⟨_, ?_, rfl, rfl, hv⟩
            simp [findOrCreate, hfind, hv]

/-! ## Paging lemmas -/

theorem matchesQuery_iff (cid : ObjectId) (before : Option Nat) (m : Message) :
    matchesQuery cid before m = true
      ↔ m.conversation = cid ∧ ∀ instant, before = some instant → m.createdAt < instant := by
  cases before <;> simp [matchesQuery]

/-- The sorted selection is strictly descending when creation times do not repeat. -/
theorem sorted_selection_strict (ms : List Message)
    (hdistinct : ms.Pairwise fun x y => x.createdAt ≠ y.createdAt) :
    (ms.insertionSort newerMessage).Pairwise fun x y => y.createdAt < x.createdAt := by
  have hsorted : (ms.insertionSort newerMessage).Pairwise newerMessage :=
    List.sorted_insertionSort newerMessage ms
  have hne : (ms.insertionSort newerMessage).Pairwise fun x y => x.createdAt ≠ y.createdAt :=
    (List.Perm.pairwise_iff (fun {x y} (h : x.createdAt ≠ y.createdAt) => h.symm)
      (List.perm_insertionSort newerMessage ms)).mpr hdistinct
  exact (hsorted.and hne).imp fun ⟨hle, hn⟩ => lt_of_le_of_ne hle (Ne.symm hn)

theorem selectNewestFirst_perm (ms : List Message) (cid : ObjectId) (before : Option Nat) :
    (selectNewestFirst ms cid before).Perm (ms.filter (matchesQuery cid before)) :=
  List.perm_insertionSort newerMessage _

/-- With distinct creation times, the selection is strictly descending. -/
theorem selectNewestFirst_strict {ms : List Message} {cid : ObjectId} (before : Option Nat)
    (hdistinct : (ms.filter fun m => m.conversation = cid).Pairwise
      fun x y => x.createdAt ≠ y.createdAt) :
    (selectNewestFirst ms cid before).Pairwise fun x y => y.createdAt < x.createdAt := by
  apply sorted_selection_strict
  have hsub : (ms.filter (matchesQuery cid before)).Sublist
      (ms.filter fun m => m.conversation = cid) := by
    apply List.monotone_filter_right
    intro m hm
    simpa using ((matchesQuery_iff cid before m).mp hm).1
  exact hdistinct.sublist hsub

/-- Two strictly descending lists with the same members are the same list. -/
theorem eq_of_perm_of_strict {l1 l2 : List Message} (hp : l1.Perm l2)
    (h1 : l1.Pairwise fun x y => y.createdAt < x.createdAt)
    (h2 : l2.Pairwise fun x y => y.createdAt < x.createdAt) : l1 = l2 := by
  haveI : IsAntisymm Message (fun x y => y.createdAt < x.createdAt) :=
    ⟨fun a b hab hba => absurd hab (Nat.lt_asymm hba)⟩
  exact List.eq_of_perm_of_sorted hp h1 h2

/-- The part of a strictly descending list below the creation time of its member at the end of
the first `k` is what follows the first `k`. -/
theorem filter_older_eq_drop {s : List Message} {k : Nat} {oldest : Message}
    {rest : List Message}
    (hs : s.Pairwise fun x y => y.createdAt < x.createdAt)
    (hpage : (s.take k).reverse = oldest :: rest) :
    s.filter (fun m => m.createdAt < oldest.createdAt) = s.drop k := by
  have htake : s.take k = rest.reverse ++ [oldest] := by
    have := congrArg List.reverse hpage
    simpa using this
  have hsplit : s = (rest.reverse ++ [oldest]) ++ s.drop k := by
    rw [← htake, List.take_append_drop]
  rw [hsplit] at hs
  obtain ⟨hfront, hback, hcross⟩ := List.pairwise_append.mp hs
  obtain ⟨_, _, hfront2⟩ := List.pairwise_append.mp hfront
  have h1 : (rest.reverse ++ [oldest]).filter (fun m => m.createdAt < oldest.createdAt) = [] := by
    rw [List.filter_eq_nil_iff]
    intro m hm
    rw [List.mem_append, List.mem_singleton] at hm
    rcases hm with hm | rfl
    · have := hfront2 m hm oldest (by simp)
      simp only [decide_eq_true_eq, not_lt]
      exact Nat.le_of_lt this
    · simp
  have h2 : (s.drop k).filter (fun m => m.createdAt < oldest.createdAt) = s.drop k := by
    rw [List.filter_eq_self]
    intro m hm
    simpa using hcross oldest (by simp) m hm
  conv_lhs => rw [hsplit]
  rw [List.filter_append, h1, h2, List.nil_append]

/-! ## Effects of a call -/

theorem findOrCreate_effect (store : Store) (a b : ObjectId) (l r : Option ObjectId)
    (env : Env) : Effect store env (findOrCreate store [a, b] l r env).2 := by
  cases hfind : store.conversations.find? (matchesFilter [a, b] l r) with
  | some existing =>
    simp only [findOrCreate, hfind]
    exact Effect.unchanged
  | none =>
    cases hv : validateContext ⟨env.newId, l, r, [a, b], none, env.now, []⟩ with
    | error why =>
      simp only [findOrCreate, hfind, hv]
      exact Effect.unchanged
    | ok done =>
      simp only [findOrCreate, hfind, hv]
      exact Effect.created [a, b] l r rfl hfind hv

theorem startConversation_effect (store : Store) (requester : ObjectId) (req : StartRequest)
    (env : Env) : Effect store env (startConversation store requester req env).2 := by
  cases hr : resolveContext store requester req with
  | error response =>
    simp only [startConversation, hr]
    exact Effect.unchanged
  | ok ctx =>
    cases ht : truthy? ctx.otherParticipantId with
    | none =>
      simp only [startConversation, hr, ht]
      exact Effect.unchanged
    | some other =>
      by_cases hself : other = requester.toString
      · simp only [startConversation, hr, ht, hself, if_true]
        exact Effect.unchanged
      · cases hcast : castObjectId other with
        | none =>
          simp only [startConversation, hr, ht, hself, hcast, if_false]
          exact Effect.unchanged
        | some otherId =>
          simp only [startConversation, hr, ht, hself, hcast, if_false]
          exact findOrCreate_effect store requester otherId _ _ env

theorem getConversationMessages_effect (store : Store) (u : ObjectId) (id : String)
    (query : PageQuery) (env : Env) :
    Effect store env (getConversationMessages store u id query).2 := by
  cases hc : castObjectId id with
  | none =>
    simp only [getConversationMessages, hc]
    exact Effect.unchanged
  | some cid =>
    cases hf : store.findConversationById cid with
    | none =>
      simp only [getConversationMessages, hc, hf]
      exact Effect.unchanged
    | some conv =>
      by_cases hu : u ∈ conv.participants
      · rw [getConversationMessages_participant query hc hf hu]
        exact Effect.read cid conv u hf hu
      · simp only [getConversationMessages, hc, hf, ensureParticipant_false hu]
        exact Effect.unchanged

theorem markConversationRead_effect (store : Store) (u : ObjectId) (id : String) (env : Env) :
    Effect store env (markConversationRead store u id).2 := by
  cases hc : castObjectId id with
  | none =>
    simp only [markConversationRead, hc]
    exact Effect.unchanged
  | some cid =>
    cases hf : store.findConversationById cid with
    | none =>
      simp only [markConversationRead, hc, hf]
      exact Effect.unchanged
    | some conv =>
      by_cases hu : u ∈ conv.participants
      · cases hv : validateContext conv with
        | error why =>
          rw [markConversationRead_rejected hc hf hu hv]
          exact Effect.readRejected cid conv u why hf hv
        | ok done =>
          rw [markConversationRead_ok hc hf hu hv]
          exact Effect.read cid conv u hf hu
      · simp only [markConversationRead, hc, hf, ensureParticipant_false hu]
        exact Effect.unchanged

theorem sendConversationMessage_effect (store : Store) (u : ObjectId) (id : String)
    (body : Option String) (env : Env) :
    Effect store env (sendConversationMessage store u id body env).2 := by
  cases hb : truthy? body with
  | none =>
    simp only [sendConversationMessage, hb]
    exact Effect.unchanged
  | some text =>
    have hbody : body = some text := by
      cases body with
      | none => simp [truthy?] at hb
      | some t =>
        simp only [truthy?] at hb
        split at hb
        · cases hb
        · exact hb
    subst hbody
    by_cases htrim : jsTrim text = ""
    · simp only [sendConversationMessage, hb, htrim, if_true]
      exact Effect.unchanged
    · cases hc : castObjectId id with
      | none =>
        simp only [sendConversationMessage, hb, htrim, hc, if_false]
        exact Effect.unchanged
      | some cid =>
        cases hf : store.findConversationById cid with
        | none =>
          simp only [sendConversationMessage, hb, htrim, hc, hf, if_false]
          exact Effect.unchanged
        | some conv =>
          by_cases hu : u ∈ conv.participants
          · cases hv : validateContext conv with
            | error why =>
              rw [sendConversationMessage_rejected env hc hf hu htrim hv]
              exact Effect.sentRejected cid conv u text why hf hv
            | ok done =>
              rw [sendConversationMessage_ok env hc hf hu htrim hv]
              exact Effect.sent cid conv u text hf hu
          · simp only [sendConversationMessage, hb, htrim, hc, hf, ensureParticipant_false hu,
              if_false]
            exact Effect.unchanged

/-- Every call changes the store in one of the ways of `Effect`. -/
theorem perform_effect (store : Store) (call : Call) (env : Env) :
    Effect store env (perform store call env).2 := by
  cases call with
  | start requester req => exact startConversation_effect store requester req env
  | list user => exact Effect.unchanged
  | page user id query => exact getConversationMessages_effect store user id query env
  | send user id body => exact sendConversationMessage_effect store user id body env
  | read user id => exact markConversationRead_effect store user id env

/-! ## Invariant lemmas -/

theorem markMessagesRead_eq_map (ms : List Message) (cid u : ObjectId) :
    markMessagesRead ms cid u = ms.map (markOne cid u) := rfl

theorem markOne_conversation (cid u : ObjectId) (m : Message) :
    (markOne cid u m).conversation = m.conversation := by
  unfold markOne; split <;> rfl

theorem markOne_id (cid u : ObjectId) (m : Message) : (markOne cid u m)._id = m._id := by
  unfold markOne; split <;> rfl

theorem markOne_createdAt (cid u : ObjectId) (m : Message) :
    (markOne cid u m).createdAt = m.createdAt := by
  unfold markOne; split <;> rfl

theorem markOne_other {cid u : ObjectId} {m : Message} (h : m.conversation ≠ cid) :
    markOne cid u m = m := by
  simp [markOne, h]

/-- After marking, the readers of a message of the conversation are the old ones and the
user. -/
theorem mem_readBy_markOne {cid u : ObjectId} {m : Message} (h : m.conversation = cid)
    (x : ObjectId) : x ∈ (markOne cid u m).readBy ↔ x ∈ m.readBy ∨ x = u := by
  by_cases hu : u ∈ m.readBy
  · simp only [markOne, h, hu, not_true_eq_false, and_false, if_false]
    constructor
    · exact Or.inl
    · rintro (hx | rfl)
      · exact hx
      · exact hu
  · simp [markOne, h, hu]

theorem lastOf_append (ms : List Message) (m : Message) (cid : ObjectId) :
    lastOf (ms ++ [m]) cid = if m.conversation = cid then some m else lastOf ms cid := by
  unfold lastOf
  by_cases h : m.conversation = cid
  · simp [List.filter_append, h, List.getLast?_concat]
  · simp [List.filter_append, h]

theorem lastOf_mark (ms : List Message) (cid u target : ObjectId) :
    lastOf (markMessagesRead ms target u) cid = (lastOf ms cid).map (markOne target u) := by
  unfold lastOf
  rw [markMessagesRead_eq_map, List.filter_map, List.getLast?_map]
  congr 2
  apply List.filter_congr
  intro m _
  simp [markOne_conversation]

theorem lastOf_conversation {ms : List Message} {cid : ObjectId} {m : Message}
    (h : lastOf ms cid = some m) : m ∈ ms ∧ m.conversation = cid := by
  have hm := List.mem_of_getLast?_eq_some h
  rw [List.mem_filter] at hm
  exact ⟨hm.1, by simpa using hm.2⟩

theorem lastOf_eq_none {ms : List Message} {cid : ObjectId}
    (h : ∀ m ∈ ms, m.conversation ≠ cid) : lastOf ms cid = none := by
  unfold lastOf
  have : ms.filter (fun m => m.conversation = cid) = [] := by
    rw [List.filter_eq_nil_iff]
    intro m hm
    simpa using h m hm
  rw [this]; rfl

/-- In a list in order of creation time, no message of a conversation is created after its last
message. -/
theorem lastOf_newest {ms : List Message} {cid : ObjectId} {last : Message}
    (hclock : ms.Pairwise fun a b => a.createdAt ≤ b.createdAt)
    (h : lastOf ms cid = some last) :
    ∀ m ∈ ms, m.conversation = cid → m.createdAt ≤ last.createdAt := by
  intro m hm hcid
  unfold lastOf at h
  obtain ⟨front, hfront⟩ := List.getLast?_eq_some_iff.mp h
  have hpw : (ms.filter fun m => m.conversation = cid).Pairwise
      fun a b => a.createdAt ≤ b.createdAt := hclock.sublist (List.filter_sublist _)
  rw [hfront] at hpw
  have hmem : m ∈ ms.filter fun m => m.conversation = cid :=
    List.mem_filter.mpr ⟨hm, by simpa using hcid⟩
  rw [hfront, List.mem_append, List.mem_singleton] at hmem
  rcases hmem with hin | rfl
  · exact (List.pairwise_append.mp hpw).2.2 m hin last (by simp)
  · exact Nat.le_refl _

/-- The identifiers after an update that keeps identifiers. -/
theorem map_id_updateById (docs : List Conversation) (cid : ObjectId)
    (f : Conversation → Conversation) (hf : ∀ c, c._id = cid → (f c)._id = cid) :
    (updateById docs cid f).map (fun c => c._id) = docs.map fun c => c._id := by
  induction docs with
  | nil => rfl
  | cons a docs ih =>
    by_cases ha : a._id = cid
    · simp [updateById, ha, hf a ha]
    · simp [updateById, ha, ih]

/-- The members after an update addressed by identifier, when identifiers do not repeat. -/
theorem mem_updateById {store : Store} {cid : ObjectId} {conv : Conversation}
    (hids : (store.conversations.map fun c => c._id).Nodup)
    (hfound : store.findConversationById cid = some conv) (f : Conversation → Conversation)
    (x : Conversation) :
    x ∈ updateById store.conversations cid f
      ↔ (x ∈ store.conversations ∧ x._id ≠ cid) ∨ x = f conv := by
  obtain ⟨hid, front, back, hsplit, hfront⟩ := findConversationById_split hfound
  rw [hsplit, updateById_split front back conv cid f hid hfront]
  rw [hsplit] at hids
  have hback : ∀ y ∈ back, y._id ≠ cid := by
    intro y hy hyc
    rw [List.map_append, List.map_cons, List.nodup_append] at hids
    have h2 := (List.nodup_cons.mp hids.2.1).1
    apply h2
    rw [hid, ← hyc]
    exact List.mem_map_of_mem (fun c => c._id) hy
  simp only [List.mem_append, List.mem_cons]
  constructor
  · rintro (h | rfl | h)
    · exact Or.inl ⟨Or.inl h, hfront x h⟩
    · exact Or.inr rfl
    · exact Or.inl ⟨Or.inr (Or.inr h), hback x h⟩
  · rintro (⟨h | rfl | h, hne⟩ | rfl)
    · exact Or.inl h
    · exact absurd hid hne
    · exact Or.inr (Or.inr h)
    · exact Or.inr (Or.inl rfl)

theorem findConversationById_mem {store : Store} {cid : ObjectId} {conv : Conversation}
    (h : store.findConversationById cid = some conv) : conv ∈ store.conversations :=
  List.mem_of_find?_eq_some h

theorem Inv.of_empty (listings : List Listing) (roommateRequests : List RoommateRequest) :
    Inv ⟨listings, roommateRequests, [], []⟩ where
  ids := List.nodup_nil
  valid := by simp
  two := by simp
  owned := by simp
  last := by simp
  unread := by simp
  short := by simp
  clock := List.Pairwise.nil

theorem Inv.outside {store : Store} (h : Inv store) (listings : List Listing)
    (roommateRequests : List RoommateRequest) :
    Inv { store with listings := listings, roommateRequests := roommateRequests } where
  ids := h.ids
  valid := h.valid
  two := h.two
  owned := h.owned
  last := h.last
  unread := h.unread
  short := h.short
  clock := h.clock

theorem Inv.created {store : Store} (h : Inv store) (env : Env) (hadm : env.admissible store)
    (doc : Conversation) (hid : doc._id = env.newId) (hlen : doc.participants.length = 2)
    (hv : validateContext doc = Except.ok ()) (hlast : doc.lastMessage = none)
    (hunread : doc.unreadFor = []) :
    Inv { store with conversations := store.conversations ++ [doc] } := by
  have hnone : lastOf store.messages doc._id = none := by
    apply lastOf_eq_none
    intro m hm hc
    have := h.owned m hm
    rw [List.mem_map] at this
    obtain ⟨c, hcmem, hcid⟩ := this
    exact hadm.1 c hcmem (hcid.trans (hc.trans hid))
  have hmem : ∀ c, c ∈ store.conversations ++ [doc] ↔ c ∈ store.conversations ∨ c = doc := by
    intro c; simp
  constructor
  · show ((store.conversations ++ [doc]).map fun c => c._id).Nodup
    rw [List.map_append, List.nodup_append]
    refine ⟨h.ids, by simp, ?_⟩
    intro x hx hx2
    rw [List.mem_map] at hx
    obtain ⟨c, hc, rfl⟩ := hx
    simp only [List.map_cons, List.map_nil, List.mem_singleton] at hx2
    exact hadm.1 c hc (hx2.trans hid)
  · intro c hc
    rcases (hmem c).mp hc with hc | rfl
    · exact h.valid c hc
    · exact hv
  · intro c hc
    rcases (hmem c).mp hc with hc | rfl
    · exact h.two c hc
    · exact hlen
  · intro m hm
    show m.conversation ∈ (store.conversations ++ [doc]).map fun c => c._id
    rw [List.map_append, List.mem_append]
    exact Or.inl (h.owned m hm)
  · intro c hc
    rcases (hmem c).mp hc with hc | rfl
    · exact h.last c hc
    · show c.lastMessage = Option.map _ (lastOf store.messages c._id)
      rw [hnone, hlast]; rfl
  · intro c hc u
    rcases (hmem c).mp hc with hc | rfl
    · exact h.unread c hc u
    · show u ∈ c.unreadFor ↔ u ∈ c.participants ∧ ∃ m, lastOf store.messages c._id = some m
        ∧ u ∉ m.readBy
      simp [hnone, hunread]
  · intro c hc
    rcases (hmem c).mp hc with hc | rfl
    · exact h.short c hc
    · simp [hunread]
  · exact h.clock

theorem lastOf_mark_id (ms : List Message) (cid u target : ObjectId) :
    (lastOf (markMessagesRead ms target u) cid).map (fun m => m._id)
      = (lastOf ms cid).map fun m => m._id := by
  rw [lastOf_mark]
  cases lastOf ms cid with
  | none => rfl
  | some m => simp [markOne_id]

/-- Whether the last message of a conversation is unread by `u`, after messages of `target`
were marked as read by `v`. -/
theorem unread_after_mark (ms : List Message) (cid target v u : ObjectId) :
    (∃ m, lastOf (markMessagesRead ms target v) cid = some m ∧ u ∉ m.readBy)
      ↔ (∃ m, lastOf ms cid = some m ∧ u ∉ m.readBy) ∧ (cid = target → u ≠ v) := by
  rw [lastOf_mark]
  cases hl : lastOf ms cid with
  | none => simp
  | some m =>
    have hconv := (lastOf_conversation hl).2
    by_cases ht : cid = target
    · have := mem_readBy_markOne (u := v) (hconv.trans ht) u
      simp only [Option.map_some', Option.some.injEq, exists_eq_left', this, not_or, ht,
        forall_true_left]
    · have hne : m.conversation ≠ target := fun e => ht (hconv.symm.trans e)
      simp [markOne_other hne, ht]

theorem filter_ne_length_le_one {l : List ObjectId} {a : ObjectId} (hlen : l.length = 2)
    (ha : a ∈ l) : (l.filter fun p => p ≠ a).length ≤ 1 := by
  match l, hlen with
  | [x, y], _ =>
    simp only [List.mem_cons, List.mem_singleton, List.not_mem_nil, or_false] at ha
    rcases ha with rfl | rfl
    · by_cases h : y = a <;> simp [List.filter_cons, h]
    · by_cases h : x = a <;> simp [List.filter_cons, h]

theorem Inv.read {store : Store} (h : Inv store) {cid : ObjectId} {conv : Conversation}
    (v : ObjectId) (hfound : store.findConversationById cid = some conv) :
    Inv { store with
      messages := markMessagesRead store.messages cid v
      conversations := updateById store.conversations cid (pullUnread v) } := by
  have hid : conv._id = cid := (findConversationById_split hfound).1
  have hconv := findConversationById_mem hfound
  have hmem := mem_updateById h.ids hfound (pullUnread v)
  have hids : (updateById store.conversations cid (pullUnread v)).map (fun c => c._id)
      = store.conversations.map fun c => c._id :=
    map_id_updateById _ _ _ (fun _ hc => hc)
  -- every conversation of the new store comes from one of the old store
  have hfrom : ∀ x ∈ updateById store.conversations cid (pullUnread v),
      ∃ c ∈ store.conversations, x._id = c._id ∧ x.listing = c.listing
        ∧ x.roommateRequest = c.roommateRequest ∧ x.participants = c.participants
        ∧ x.lastMessage = c.lastMessage
        ∧ ((x = c ∧ c._id ≠ cid) ∨ (x = pullUnread v c ∧ c._id = cid)) := by
    intro x hx
    rcases (hmem x).mp hx with ⟨hx, hne⟩ | rfl
    · exact ⟨x, hx, rfl, rfl, rfl, rfl, rfl, Or.inl ⟨rfl, hne⟩⟩
    · exact ⟨conv, hconv, rfl, rfl, rfl, rfl, rfl, Or.inr ⟨rfl, hid⟩⟩
  constructor
  · show ((updateById store.conversations cid (pullUnread v)).map fun c => c._id).Nodup
    rw [hids]; exact h.ids
  · intro x hx
    obtain ⟨c, hc, _, hl, hr, _, _, _⟩ := hfrom x hx
    rw [validateContext_congr hl hr]; exact h.valid c hc
  · intro x hx
    obtain ⟨c, hc, _, _, _, hp, _, _⟩ := hfrom x hx
    rw [hp]; exact h.two c hc
  · intro m hm
    show m.conversation ∈ (updateById store.conversations cid (pullUnread v)).map fun c => c._id
    rw [hids]
    change m ∈ markMessagesRead store.messages cid v at hm
    rw [markMessagesRead_eq_map, List.mem_map] at hm
    obtain ⟨m0, hm0, rfl⟩ := hm
    rw [markOne_conversation]
    exact h.owned m0 hm0
  · intro x hx
    obtain ⟨c, hc, hxid, _, _, _, hlm, _⟩ := hfrom x hx
    show x.lastMessage = (lastOf (markMessagesRead store.messages cid v) x._id).map fun m => m._id
    rw [lastOf_mark_id, hlm, hxid]
    exact h.last c hc
  · intro x hx u
    show u ∈ x.unreadFor ↔ u ∈ x.participants
      ∧ ∃ m, lastOf (markMessagesRead store.messages cid v) x._id = some m ∧ u ∉ m.readBy
    rw [unread_after_mark]
    obtain ⟨c, hc, hxid, _, _, hp, _, hcase⟩ := hfrom x hx
    have hold := h.unread c hc u
    rcases hcase with ⟨rfl, hne⟩ | ⟨rfl, heq⟩
    · rw [hold]
      simp [hne]
    · have : u ∈ (pullUnread v c).unreadFor ↔ u ∈ c.unreadFor ∧ u ≠ v := by
        simp [pullUnread]
      rw [this, hold]
      simp only [show (pullUnread v c)._id = c._id from rfl,
        show (pullUnread v c).participants = c.participants from rfl, heq, forall_true_left]
      tauto
  · intro x hx
    obtain ⟨c, hc, _, _, _, _, _, hcase⟩ := hfrom x hx
    rcases hcase with ⟨rfl, _⟩ | ⟨rfl, _⟩
    · exact h.short x hc
    · exact Nat.le_trans (List.length_filter_le _ _) (h.short c hc)
  · show (markMessagesRead store.messages cid v).Pairwise fun a b => a.createdAt ≤ b.createdAt
    rw [markMessagesRead_eq_map, List.pairwise_map]
    simpa [markOne_createdAt] using h.clock

theorem Inv.sent {store : Store} (h : Inv store) (env : Env) (hadm : env.admissible store)
    {cid : ObjectId} {conv : Conversation} (s : ObjectId) (text : String)
    (hfound : store.findConversationById cid = some conv) (hs : s ∈ conv.participants) :
    Inv { store with
      messages := store.messages ++ [createMessage cid s text env]
      conversations :=
        updateById store.conversations cid fun _ => sendUpdate conv s env.newId env } := by
  have hid : conv._id = cid := (findConversationById_split hfound).1
  have hconv := findConversationById_mem hfound
  have hmem := mem_updateById h.ids hfound (fun _ => sendUpdate conv s env.newId env)
  have hids : (updateById store.conversations cid
      (fun _ => sendUpdate conv s env.newId env)).map (fun c => c._id)
      = store.conversations.map fun c => c._id :=
    map_id_updateById _ _ _ (fun _ _ => hid)
  have hlast : ∀ x : ObjectId, lastOf (store.messages ++ [createMessage cid s text env]) x
      = if cid = x then some (createMessage cid s text env) else lastOf store.messages x := by
    intro x
    rw [lastOf_append]; rfl
  constructor
  · show ((updateById store.conversations cid
      (fun _ => sendUpdate conv s env.newId env)).map fun c => c._id).Nodup
    rw [hids]; exact h.ids
  · intro x hx
    rcases (hmem x).mp hx with ⟨hx, _⟩ | rfl
    · exact h.valid x hx
    · rw [validateContext_sendUpdate]; exact h.valid conv hconv
  · intro x hx
    rcases (hmem x).mp hx with ⟨hx, _⟩ | rfl
    · exact h.two x hx
    · exact h.two conv hconv
  · intro m hm
    show m.conversation ∈ (updateById store.conversations cid
      (fun _ => sendUpdate conv s env.newId env)).map fun c => c._id
    rw [hids]
    change m ∈ store.messages ++ [createMessage cid s text env] at hm
    rcases List.mem_append.mp hm with hm | hm
    · exact h.owned m hm
    · rw [List.mem_singleton] at hm
      subst hm
      show cid ∈ store.conversations.map fun c => c._id
      rw [← hid]
      exact List.mem_map_of_mem (fun c => c._id) hconv
  · intro x hx
    show x.lastMessage
      = (lastOf (store.messages ++ [createMessage cid s text env]) x._id).map fun m => m._id
    rw [hlast]
    rcases (hmem x).mp hx with ⟨hx, hne⟩ | rfl
    · rw [if_neg (fun e => hne e.symm)]
      exact h.last x hx
    · have hid2 : cid = (sendUpdate conv s env.newId env)._id := hid.symm
      rw [if_pos hid2]; rfl
  · intro x hx u
    show u ∈ x.unreadFor ↔ u ∈ x.participants
      ∧ ∃ m, lastOf (store.messages ++ [createMessage cid s text env]) x._id = some m
        ∧ u ∉ m.readBy
    rw [hlast]
    rcases (hmem x).mp hx with ⟨hx, hne⟩ | rfl
    · rw [if_neg (fun e => hne e.symm)]
      exact h.unread x hx u
    · have hid2 : cid = (sendUpdate conv s env.newId env)._id := hid.symm
      rw [if_pos hid2, sendUpdate_eq]
      simp [createMessage]
  · intro x hx
    rcases (hmem x).mp hx with ⟨hx, _⟩ | rfl
    · exact h.short x hx
    · rw [sendUpdate_eq]
      exact filter_ne_length_le_one (h.two conv hconv) hs
  · show (store.messages ++ [createMessage cid s text env]).Pairwise
      fun a b => a.createdAt ≤ b.createdAt
    rw [List.pairwise_append]
    refine ⟨h.clock, List.pairwise_singleton _ _, ?_⟩
    intro a ha b hb
    rw [List.mem_singleton] at hb
    subst hb
    exact hadm.2 a ha

/-- A call with admissible surroundings keeps the invariant. -/
theorem Inv.effect {store after : Store} {env : Env} (h : Inv store)
    (hadm : env.admissible store) (heff : Effect store env after) : Inv after := by
  cases heff with
  | unchanged => exact h
  | created ps l r hlen _ hv => exact h.created env hadm _ rfl hlen hv rfl rfl
  | read cid conv user hfound _ => exact h.read user hfound
  | readRejected cid conv user why hfound hv =>
    have := h.valid conv (findConversationById_mem hfound)
    rw [hv] at this; cases this
  | sent cid conv user text hfound hu => exact h.sent env hadm user text hfound hu
  | sentRejected cid conv user text why hfound hv =>
    have := h.valid conv (findConversationById_mem hfound)
    rw [hv] at this; cases this

/-- Every reachable store has the invariant. -/
theorem Reachable.inv {store : Store} (h : Reachable store) : Inv store := by
  induction h with
  | empty listings roommateRequests => exact Inv.of_empty listings roommateRequests
  | outside listings roommateRequests _ ih => exact ih.outside listings roommateRequests
  | call call env _ hadm ih => exact ih.effect hadm (perform_effect _ call env)

/-! ## The sample run -/

theorem Demo.reachable_started : Reachable Demo.started :=
  Reachable.call _ _ (Reachable.empty _ _) (by decide)

theorem Demo.reachable_wrote : Reachable Demo.wrote :=
  Reachable.call _ _ Demo.reachable_started (by decide)

theorem Demo.reachable_answered : Reachable Demo.answered :=
  Reachable.call _ _ Demo.reachable_wrote (by decide)

theorem Demo.reachable_alone : Reachable Demo.alone :=
  Reachable.call _ _ (Reachable.empty _ _) (by decide)

/-! ## Response statuses -/

theorem reported_fail_400 {m : String}
    (h : m ∈ ["Provide listingId or roommateRequestId.",
      "Provide participantId when landlord starts a conversation.",
      "Provide participantId when starting a conversation about your own request.",
      "Conversation requires another participant.",
      "Cannot start a conversation with yourself.",
      "Message body is required."]) : (Response.fail 400 m).reported :=
  Or.inr (Or.inl ⟨m, h, rfl⟩)

theorem reported_fail_404 {m : String}
    (h : m ∈ ["Listing not found.", "Roommate request not found.", "Conversation not found."]) :
    (Response.fail 404 m).reported :=
  Or.inr (Or.inr (Or.inl ⟨m, h, rfl⟩))

theorem reported_thrown (m : String) (e : Failure) : (Response.thrown m e).reported :=
  Or.inr (Or.inr (Or.inr ⟨m, e, rfl⟩))

theorem reported_data (p : Payload) : (Response.data p).reported :=
  Or.inl ⟨rfl, Or.inl rfl, rfl⟩

/-- A response of one of the reported forms has a regular status and flag. -/
theorem regular_of_reported {r : Response} (h : r.reported) : r.regular := by
  rcases h with ⟨hs, hst, he⟩ | ⟨m, _, rfl⟩ | ⟨m, _, rfl⟩ | ⟨m, e, rfl⟩
  · refine ⟨?_, ?_, ?_⟩
    · rcases hst with h | h
      · exact Or.inl h
      · exact Or.inr (Or.inl h)
    · exact ⟨fun _ => hst, fun _ => hs⟩
    · intro h; exact absurd he h
  · simp [Response.regular, Response.fail]
  · simp [Response.regular, Response.fail]
  · simp [Response.regular, Response.thrown]

theorem resolveListing_reported {store : Store} {requester : ObjectId} {listingId : String}
    {participantId : Option String} {response : Response}
    (h : resolveListing store requester listingId participantId = Except.error response) :
    response.reported := by
  cases hc : castObjectId listingId with
  | none =>
    simp only [resolveListing, hc] at h
    cases h; exact reported_thrown _ _
  | some lid =>
    cases hf : store.listings.find? (fun l => l._id = lid) with
    | none =>
      simp only [resolveListing, hc, hf] at h
      cases h; exact reported_fail_404 (by simp)
    | some listing =>
      by_cases hl : listing.landlord.map ObjectId.toString = some requester.toString
      · cases ht : truthy? participantId with
        | none =>
          simp only [resolveListing, hc, hf, hl, ht, if_true] at h
          cases h; exact reported_fail_400 (by simp)
        | some p => simp only [resolveListing, hc, hf, hl, ht, if_true] at h; cases h
      · simp only [resolveListing, hc, hf, hl, if_false] at h; cases h

theorem resolveRoommateRequest_reported {store : Store} {requester : ObjectId}
    {roommateRequestId : String} {participantId : Option String} {response : Response}
    (h : resolveRoommateRequest store requester roommateRequestId participantId
      = Except.error response) :
    response.reported := by
  cases hc : castObjectId roommateRequestId with
  | none =>
    simp only [resolveRoommateRequest, hc] at h
    cases h; exact reported_thrown _ _
  | some rid =>
    cases hf : store.roommateRequests.find? (fun r => r._id = rid) with
    | none =>
      simp only [resolveRoommateRequest, hc, hf] at h
      cases h; exact reported_fail_404 (by simp)
    | some request =>
      by_cases hl : request.user.map ObjectId.toString = some requester.toString
      · cases ht : truthy? participantId with
        | none =>
          simp only [resolveRoommateRequest, hc, hf, hl, ht, if_true] at h
          cases h; exact reported_fail_400 (by simp)
        | some p => simp only [resolveRoommateRequest, hc, hf, hl, ht, if_true] at h; cases h
      · simp only [resolveRoommateRequest, hc, hf, hl, if_false] at h; cases h

theorem resolveContext_reported {store : Store} {requester : ObjectId} {req : StartRequest}
    {response : Response} (h : resolveContext store requester req = Except.error response) :
    response.reported := by
  unfold resolveContext at h
  split at h
  · cases h; exact reported_fail_400 (by simp)
  · exact resolveListing_reported h
  · exact resolveRoommateRequest_reported h

theorem findOrCreate_reported (store : Store) (ps : List ObjectId) (l r : Option ObjectId)
    (env : Env) : (findOrCreate store ps l r env).1.reported := by
  cases hfind : store.conversations.find? (matchesFilter ps l r) with
  | some existing =>
    simp only [findOrCreate, hfind]
    exact reported_data _
  | none =>
    cases hv : validateContext ⟨env.newId, l, r, ps, none, env.now, []⟩ with
    | error why =>
      simp only [findOrCreate, hfind, hv]
      exact reported_thrown _ _
    | ok done =>
      simp only [findOrCreate, hfind, hv]
      exact reported_data _

theorem startConversation_reported (store : Store) (requester : ObjectId) (req : StartRequest)
    (env : Env) : (startConversation store requester req env).1.reported := by
  cases hr : resolveContext store requester req with
  | error response =>
    simp only [startConversation, hr]
    exact resolveContext_reported hr
  | ok ctx =>
    cases ht : truthy? ctx.otherParticipantId with
    | none =>
      simp only [startConversation, hr, ht]
      exact reported_fail_400 (by simp)
    | some other =>
      by_cases hself : other = requester.toString
      · simp only [startConversation, hr, ht, hself, if_true]
        exact reported_fail_400 (by simp)
      · cases hcast : castObjectId other with
        | none =>
          simp only [startConversation, hr, ht, hself, hcast, if_false]
          exact reported_thrown _ _
        | some otherId =>
          simp only [startConversation, hr, ht, hself, hcast, if_false]
          exact findOrCreate_reported store _ _ _ env

theorem getConversationMessages_reported (store : Store) (u : ObjectId) (id : String)
    (query : PageQuery) : (getConversationMessages store u id query).1.reported := by
  cases hc : castObjectId id with
  | none =>
    simp only [getConversationMessages, hc]
    exact reported_thrown _ _
  | some cid =>
    cases hf : store.findConversationById cid with
    | none =>
      simp only [getConversationMessages, hc, hf]
      exact reported_fail_404 (by simp)
    | some conv =>
      by_cases hu : u ∈ conv.participants
      · rw [getConversationMessages_participant query hc hf hu]
        exact reported_data _
      · simp only [getConversationMessages, hc, hf, ensureParticipant_false hu]
        exact reported_fail_404 (by simp)

theorem markConversationRead_reported (store : Store) (u : ObjectId) (id : String) :
    (markConversationRead store u id).1.reported := by
  cases hc : castObjectId id with
  | none =>
    simp only [markConversationRead, hc]
    exact reported_thrown _ _
  | some cid =>
    cases hf : store.findConversationById cid with
    | none =>
      simp only [markConversationRead, hc, hf]
      exact reported_fail_404 (by simp)
    | some conv =>
      by_cases hu : u ∈ conv.participants
      · cases hv : validateContext conv with
        | error why =>
          rw [markConversationRead_rejected hc hf hu hv]
          exact reported_thrown _ _
        | ok done =>
          rw [markConversationRead_ok hc hf hu hv]
          simp [Response.reported]
      · simp only [markConversationRead, hc, hf, ensureParticipant_false hu]
        exact reported_fail_404 (by simp)

theorem sendConversationMessage_reported (store : Store) (u : ObjectId) (id : String)
    (body : Option String) (env : Env) :
    (sendConversationMessage store u id body env).1.reported := by
  cases hb : truthy? body with
  | none =>
    simp only [sendConversationMessage, hb]
    exact reported_fail_400 (by simp)
  | some text =>
    have hbody : body = some text := by
      cases body with
      | none => simp [truthy?] at hb
      | some t =>
        simp only [truthy?] at hb
        split at hb
        · cases hb
        · exact hb
    subst hbody
    by_cases htrim : jsTrim text = ""
    · simp only [sendConversationMessage, hb, htrim, if_true]
      exact reported_fail_400 (by simp)
    · cases hc : castObjectId id with
      | none =>
        simp only [sendConversationMessage, hb, htrim, hc, if_false]
        exact reported_thrown _ _
      | some cid =>
        cases hf : store.findConversationById cid with
        | none =>
          simp only [sendConversationMessage, hb, htrim, hc, hf, if_false]
          exact reported_fail_404 (by simp)
        | some conv =>
          by_cases hu : u ∈ conv.participants
          · cases hv : validateContext conv with
            | error why =>
              rw [sendConversationMessage_rejected env hc hf hu htrim hv]
              exact reported_thrown _ _
            | ok done =>
              rw [sendConversationMessage_ok env hc hf hu htrim hv]
              simp [Response.reported]
          · simp only [sendConversationMessage, hb, htrim, hc, hf, ensureParticipant_false hu,
              if_false]
            exact reported_fail_404 (by simp)


/-- The text of an identifier is not empty. -/
theorem toString_ne_empty (o : ObjectId) : o.toString ≠ "" := by
  intro h
  have h1 := castObjectId_toString o
  have h0 : castObjectId "" = none := by decide
  rw [h, h0] at h1
  cases h1
/-! ## Uniqueness lemmas -/

/-- The last part of `startConversation` is the lookup followed by the completion on the same
store. -/
theorem findOrCreate_eq_complete (store : Store) (ps : List ObjectId) (l r : Option ObjectId)
    (env : Env) :
    findOrCreate store ps l r env
      = completeStart (lookupConversation store ps l r) store ps l r env := by
  cases hfind : store.conversations.find? (matchesFilter ps l r) with
  | some existing => simp [findOrCreate, completeStart, lookupConversation, hfind]
  | none =>
    cases hv : validateContext ⟨env.newId, l, r, ps, none, env.now, []⟩ with
    | error why =>
      simp [findOrCreate, completeStart, lookupConversation, createConversation, hfind, hv]
    | ok done =>
      simp [findOrCreate, completeStart, lookupConversation, createConversation, hfind, hv]

theorem pairwise_updateById {docs : List Conversation} (cid : ObjectId)
    (f : Conversation → Conversation)
    (hf : ∀ c, (f c).listing = c.listing ∧ (f c).roommateRequest = c.roommateRequest
      ∧ (f c).participants = c.participants)
    (h : docs.Pairwise fun a b => ¬sameTopic a b) :
    (updateById docs cid f).Pairwise fun a b => ¬sameTopic a b := by
  have hkey : ∀ l : List Conversation,
      (l.Pairwise fun a b => ¬sameTopic a b)
        ↔ (l.map fun c => (c.listing, c.roommateRequest, c.participants)).Pairwise
            fun a b => ¬(a.1 = b.1 ∧ a.2.1 = b.2.1
              ∧ (∀ x ∈ a.2.2, x ∈ b.2.2) ∧ ∀ x ∈ b.2.2, x ∈ a.2.2) := by
    intro l
    rw [List.pairwise_map]
    rfl
  have hmap : (updateById docs cid f).map (fun c => (c.listing, c.roommateRequest, c.participants))
      = docs.map fun c => (c.listing, c.roommateRequest, c.participants) := by
    clear h
    induction docs with
    | nil => rfl
    | cons a docs ih =>
      by_cases ha : a._id = cid
      · obtain ⟨h1, h2, h3⟩ := hf a
        simp [updateById, ha, h1, h2, h3]
      · simp [updateById, ha, ih]
  rw [hkey, hmap, ← hkey]
  exact h

/-- A call keeps conversations with the same context and participants apart, because a
conversation is created only after the lookup found none. -/
theorem Effect.unique {store after : Store} {env : Env} (hinv : Inv store)
    (h : store.conversations.Pairwise fun a b => ¬sameTopic a b)
    (heff : Effect store env after) :
    after.conversations.Pairwise fun a b => ¬sameTopic a b := by
  cases heff with
  | unchanged => exact h
  | created ps l r hlen hfind hv =>
    show (store.conversations ++ [_]).Pairwise _
    rw [List.pairwise_append]
    refine ⟨h, List.pairwise_singleton _ _, ?_⟩
    intro c hc d hd
    rw [List.mem_singleton] at hd
    subst hd
    rintro ⟨hl, hr, _, hsub⟩
    rw [List.find?_eq_none] at hfind
    apply hfind c hc
    have htwo := hinv.two c hc
    simp only [matchesFilter, Bool.and_eq_true, List.all_eq_true, decide_eq_true_eq]
    refine ⟨⟨⟨hsub, by rw [htwo, hlen]⟩, ?_⟩, ?_⟩
    · cases l with
      | none => rfl
      | some x => simpa using hl
    · cases r with
      | none => rfl
      | some x => simpa using hr
  | read cid conv user hfound _ =>
    exact pairwise_updateById cid _ (fun _ => ⟨rfl, rfl, rfl⟩) h
  | readRejected cid conv user why _ _ => exact h
  | sent cid conv user text hfound _ =>
    show (updateById store.conversations cid fun _ => sendUpdate conv user env.newId env).Pairwise _
    rw [updateById_const_eq (fun c => sendUpdate c user env.newId env) hfound]
    exact pairwise_updateById cid _ (fun _ => ⟨rfl, rfl, rfl⟩) h
  | sentRejected cid conv user text why _ _ => exact h

/-! ## Paging backwards: lemmas -/

theorem markOne_idem (cid u : ObjectId) (m : Message) :
    markOne cid u (markOne cid u m) = markOne cid u m := by
  by_cases h : m.conversation = cid ∧ u ∉ m.readBy
  · simp [markOne, h]
  · simp [markOne, h]

/-- The selection after a page was fetched: the selection before the creation time of the
oldest message of the page is what followed the page, also when the messages have been marked
as read in between. -/
theorem selection_after_page {ms : List Message} {cid : ObjectId} {before : Option Nat}
    {k : Nat} {oldest : Message} {rest : List Message} (g : Message → Message)
    (hg : ∀ m, (g m).conversation = m.conversation ∧ (g m).createdAt = m.createdAt)
    (hdistinct : (ms.filter fun m => m.conversation = cid).Pairwise
      fun x y => x.createdAt ≠ y.createdAt)
    (hpage : ((selectNewestFirst ms cid before).take k).reverse = oldest :: rest) :
    selectNewestFirst (ms.map g) cid (some oldest.createdAt)
      = ((selectNewestFirst ms cid before).drop k).map g := by
  have hstrict := selectNewestFirst_strict before hdistinct
  have hold : oldest ∈ selectNewestFirst ms cid before := by
    have h1 : oldest ∈ ((selectNewestFirst ms cid before).take k).reverse := by
      rw [hpage]; simp
    exact List.mem_of_mem_take (List.mem_reverse.mp h1)
  have hbound : ∀ b, before = some b → oldest.createdAt < b := by
    have h2 := (selectNewestFirst_perm ms cid before).subset hold
    exact ((matchesQuery_iff cid before oldest).mp (List.mem_filter.mp h2).2).2
  have hdistinct2 : ((ms.map g).filter fun m => m.conversation = cid).Pairwise
      fun x y => x.createdAt ≠ y.createdAt := by
    rw [List.filter_map, List.pairwise_map]
    have hsame : ms.filter ((fun m => decide (m.conversation = cid)) ∘ g)
        = ms.filter fun m => m.conversation = cid := by
      apply List.filter_congr
      intro m _
      simp [(hg m).1]
    rw [hsame]
    exact hdistinct.imp fun {a b} h => by rw [(hg a).2, (hg b).2]; exact h
  apply eq_of_perm_of_strict
  · -- the members
    have h1 : (ms.map g).filter (matchesQuery cid (some oldest.createdAt))
        = (ms.filter (matchesQuery cid (some oldest.createdAt))).map g := by
      rw [List.filter_map]
      congr 1
      apply List.filter_congr
      intro m _
      simp [matchesQuery, (hg m).1, (hg m).2]
    have h2 : ms.filter (matchesQuery cid (some oldest.createdAt))
        = (ms.filter (matchesQuery cid before)).filter
            fun m => m.createdAt < oldest.createdAt := by
      rw [List.filter_filter]
      apply List.filter_congr
      intro m _
      cases hb : before with
      | none => simp [matchesQuery, Bool.and_comm]
      | some b =>
        have := hbound b hb
        simp only [matchesQuery, Bool.and_eq_true, decide_eq_true_eq]
        by_cases hm : m.createdAt < oldest.createdAt
        · have : m.createdAt < b := Nat.lt_trans hm this
          simp [hm, this]
        · simp [hm]
    have h3 := filter_older_eq_drop hstrict hpage
    refine (selectNewestFirst_perm _ _ _).trans ?_
    rw [h1, h2, ← h3]
    exact ((selectNewestFirst_perm ms cid before).symm.filter _).map g
  · exact selectNewestFirst_strict _ hdistinct2
  · rw [List.pairwise_map]
    exact (hstrict.sublist (List.drop_sublist _ _)).imp
      fun {a b} h => by rw [(hg a).2, (hg b).2]; exact h

/-- A page request of a participant, with a positive limit. -/
theorem getConversationMessages_page_eq {store : Store} {u : ObjectId} {c : String}
    {cid : ObjectId} {conv : Conversation} {limit : Nat} (before : Option Nat)
    (hc : castObjectId c = some cid) (hfound : store.findConversationById cid = some conv)
    (hu : u ∈ conv.participants) (hlimit : 0 < limit) :
    getConversationMessages store u c ⟨before, some limit⟩
      = (Response.data (Payload.messages
            ((selectNewestFirst store.messages cid before).take limit).reverse),
          readStore store cid u) := by
  rw [getConversationMessages_participant _ hc hfound hu]
  simp [findPage, limitDocs, Nat.pos_iff_ne_zero.mp hlimit, selectNewestFirst, readStore]

theorem pageBackward_empty {store : Store} {u : ObjectId} {c : String}
    {cid : ObjectId} {conv : Conversation} {limit : Nat} {before : Option Nat} (fuel : Nat)
    (hc : castObjectId c = some cid) (hfound : store.findConversationById cid = some conv)
    (hu : u ∈ conv.participants) (hlimit : 0 < limit)
    (hpage : ((selectNewestFirst store.messages cid before).take limit).reverse = []) :
    pageBackward (fuel + 1) store u c limit before = [] := by
  simp [pageBackward, getConversationMessages_page_eq before hc hfound hu hlimit, hpage,
    Response.data]

theorem pageBackward_cons {store : Store} {u : ObjectId} {c : String}
    {cid : ObjectId} {conv : Conversation} {limit : Nat} {before : Option Nat} (fuel : Nat)
    {oldest : Message} {rest : List Message}
    (hc : castObjectId c = some cid) (hfound : store.findConversationById cid = some conv)
    (hu : u ∈ conv.participants) (hlimit : 0 < limit)
    (hpage : ((selectNewestFirst store.messages cid before).take limit).reverse
      = oldest :: rest) :
    pageBackward (fuel + 1) store u c limit before
      = pageBackward fuel (readStore store cid u) u c limit (some oldest.createdAt)
          ++ oldest :: rest := by
  simp [pageBackward, getConversationMessages_page_eq before hc hfound hu hlimit, hpage,
    Response.data]

/-- Paging backwards with enough requests returns, up to the read marks set on the way, the
whole selection, oldest first. -/
theorem pageBackward_all {u : ObjectId} {c : String} {cid : ObjectId} {limit : Nat}
    (hc : castObjectId c = some cid) (hlimit : 0 < limit) :
    ∀ (fuel : Nat) (store : Store) (conv : Conversation) (before : Option Nat),
      store.findConversationById cid = some conv → u ∈ conv.participants →
      ((store.messages.filter fun m => m.conversation = cid).Pairwise
        fun x y => x.createdAt ≠ y.createdAt) →
      (selectNewestFirst store.messages cid before).length < fuel →
      (pageBackward fuel store u c limit before).map (markOne cid u)
        = (selectNewestFirst store.messages cid before).reverse.map (markOne cid u) := by
  intro fuel
  induction fuel with
  | zero => intro store conv before _ _ _ hlen; exact absurd hlen (Nat.not_lt_zero _)
  | succ fuel ih =>
    intro store conv before hfound hu hdistinct hlen
    cases hpage : ((selectNewestFirst store.messages cid before).take limit).reverse with
    | nil =>
      rw [pageBackward_empty fuel hc hfound hu hlimit hpage]
      have htake : (selectNewestFirst store.messages cid before).take limit = [] := by
        simpa using hpage
      have hnil : selectNewestFirst store.messages cid before = [] := by
        cases hs : selectNewestFirst store.messages cid before with
        | nil => rfl
        | cons x xs =>
          rw [hs] at htake
          obtain ⟨n, rfl⟩ : ∃ n, limit = n + 1 := ⟨limit - 1, by omega⟩
          simp at htake
      rw [hnil]; rfl
    | cons oldest rest =>
      rw [pageBackward_cons fuel hc hfound hu hlimit hpage]
      have hsel := selection_after_page (markOne cid u)
        (fun m => ⟨markOne_conversation cid u m, markOne_createdAt cid u m⟩) hdistinct hpage
      have hfound2 : (readStore store cid u).findConversationById cid
          = some (pullUnread u conv) := by
        unfold readStore
        rw [findConversationById_update _ _ cid (pullUnread u) (fun _ => rfl), hfound]
        rfl
      have hdistinct2 : ((readStore store cid u).messages.filter
          fun m => m.conversation = cid).Pairwise fun x y => x.createdAt ≠ y.createdAt := by
        show ((markMessagesRead store.messages cid u).filter _).Pairwise _
        rw [markMessagesRead_eq_map, List.filter_map, List.pairwise_map]
        have hsame : store.messages.filter
            ((fun m => decide (m.conversation = cid)) ∘ markOne cid u)
            = store.messages.filter fun m => m.conversation = cid := by
          apply List.filter_congr
          intro m _
          simp [markOne_conversation]
        rw [hsame]
        exact hdistinct.imp fun {a b} h => by
          rw [markOne_createdAt, markOne_createdAt]; exact h
      have hmsgs : (readStore store cid u).messages = store.messages.map (markOne cid u) := rfl
      have hne : (selectNewestFirst store.messages cid before) ≠ [] := by
        intro h; rw [h] at hpage; simp at hpage
      have hlen2 : (selectNewestFirst (readStore store cid u).messages cid
          (some oldest.createdAt)).length < fuel := by
        rw [hmsgs, hsel, List.length_map, List.length_drop]
        have : 0 < (selectNewestFirst store.messages cid before).length :=
          List.length_pos.mpr hne
        omega
      have hrec := ih (readStore store cid u) (pullUnread u conv) (some oldest.createdAt)
        hfound2 hu hdistinct2 hlen2
      rw [List.map_append, hrec, hmsgs, hsel, ← hpage]
      simp only [List.map_reverse, List.map_map]
      have hidem : markOne cid u ∘ markOne cid u = markOne cid u := by
        funext m; exact markOne_idem cid u m
      rw [hidem, ← List.reverse_append, ← List.map_append, List.take_append_drop]

/-! ## Validation and error responses -/

/-- C2: the write-time validator `validateContext` rejects a conversation exactly when it
references both a listing and a roommate request, or neither; it accepts exactly the
conversations with one of the two references. -/
theorem validateContext_rejects_iff (doc : Conversation) :
    ((∃ text, validateContext doc = Except.error text) ↔
        (doc.listing.isSome = true ∧ doc.roommateRequest.isSome = true)
          ∨ (doc.listing.isSome = false ∧ doc.roommateRequest.isSome = false))
      ∧ (validateContext doc = Except.ok () ↔
        (doc.listing.isSome = true ∧ doc.roommateRequest.isSome = false)
          ∨ (doc.listing.isSome = false ∧ doc.roommateRequest.isSome = true)) := by
  cases hl : doc.listing <;> cases hr : doc.roommateRequest <;>
    simp [validateContext, hl, hr]

/-- C4: for a caller who is not a participant of an existing conversation, each of
`getConversationMessages`, `sendConversationMessage` (with a non-blank body) and
`markConversationRead` answers 404 "Conversation not found.", and the whole response equals the
one for a well-formed identifier of no stored conversation. -/
theorem nonparticipant_response_eq_missing (store : Store) (u : ObjectId) (c c2 : String)
    (cid cid2 : ObjectId) (conv : Conversation) (query : PageQuery) (text : String) (env : Env)
    (hc : castObjectId c = some cid) (hfound : store.findConversationById cid = some conv)
    (hnot : u ∉ conv.participants)
    (hc2 : castObjectId c2 = some cid2) (hmissing : store.findConversationById cid2 = none)
    (hbody : jsTrim text ≠ "") :
    (getConversationMessages store u c query).1 = Response.fail 404 "Conversation not found."
      ∧ (getConversationMessages store u c2 query).1 = (getConversationMessages store u c query).1
      ∧ (sendConversationMessage store u c (some text) env).1
          = Response.fail 404 "Conversation not found."
      ∧ (sendConversationMessage store u c2 (some text) env).1
          = (sendConversationMessage store u c (some text) env).1
      ∧ (markConversationRead store u c).1 = Response.fail 404 "Conversation not found."
      ∧ (markConversationRead store u c2).1 = (markConversationRead store u c).1 := by
  have hp := ensureParticipant_false hnot
  have ht := truthy?_of_trim_ne hbody
  simp [getConversationMessages, sendConversationMessage, markConversationRead, hc, hc2, hfound,
    hmissing, hp, ht, hbody]

/-- Instance of `nonparticipant_response_eq_missing`: Carol, who is not in the conversation of
Bob and Alice, and an identifier of no conversation. -/
theorem nonparticipant_response_eq_missing_witness :
    (castObjectId Demo.chatText = some Demo.chat
        ∧ Demo.store.findConversationById Demo.chat = some Demo.chatDoc
        ∧ Demo.carol ∉ Demo.chatDoc.participants
        ∧ castObjectId Demo.strayText = some (ObjectId.ofDigits 15 15)
        ∧ Demo.store.findConversationById (ObjectId.ofDigits 15 15) = none
        ∧ jsTrim "Hi" ≠ "")
      ∧ (getConversationMessages Demo.store Demo.carol Demo.chatText ⟨none, none⟩).1
          = Response.fail 404 "Conversation not found."
      ∧ (getConversationMessages Demo.store Demo.carol Demo.strayText ⟨none, none⟩).1
          = (getConversationMessages Demo.store Demo.carol Demo.chatText ⟨none, none⟩).1
      ∧ (sendConversationMessage Demo.store Demo.carol Demo.chatText (some "Hi") Demo.env).1
          = Response.fail 404 "Conversation not found."
      ∧ (sendConversationMessage Demo.store Demo.carol Demo.strayText (some "Hi") Demo.env).1
          = (sendConversationMessage Demo.store Demo.carol Demo.chatText (some "Hi") Demo.env).1
      ∧ (markConversationRead Demo.store Demo.carol Demo.chatText).1
          = Response.fail 404 "Conversation not found."
      ∧ (markConversationRead Demo.store Demo.carol Demo.strayText).1
          = (markConversationRead Demo.store Demo.carol Demo.chatText).1 :=
  ⟨⟨by decide, by decide, by decide, by decide, by decide, by decide⟩,
    nonparticipant_response_eq_missing Demo.store Demo.carol Demo.chatText Demo.strayText
      Demo.chat (ObjectId.ofDigits 15 15) Demo.chatDoc ⟨none, none⟩ "Hi" Demo.env
      (by decide) (by decide) (by decide) (by decide) (by decide) (by decide)⟩

/-- C10: a body that is missing, empty or made of white space only is answered with 400
"Message body is required." for every identifier text and every caller, before any lookup,
and the store is left as it was. -/
theorem sendConversationMessage_blank (store : Store) (userId : ObjectId) (id : String)
    (body : Option String) (env : Env)
    (hblank : body = none ∨ ∃ text, body = some text ∧ text.data.all isJsWhitespace = true) :
    sendConversationMessage store userId id body env
      = (Response.fail 400 "Message body is required.", store) := by
  rcases hblank with rfl | ⟨text, rfl, hws⟩
  · simp [sendConversationMessage, truthy?]
  · have htrim : jsTrim text = "" := by
      simp [jsTrim, trimChars_all _ hws]
    by_cases he : text = ""
    · simp [sendConversationMessage, truthy?, he]
    · simp [sendConversationMessage, truthy?, he, htrim]

/-- Instance of `sendConversationMessage_blank`: a body of white space, sent by a user outside
the conversation to an identifier that is not even well-formed. -/
theorem sendConversationMessage_blank_witness :
    (" \n\t".data.all isJsWhitespace = true)
      ∧ sendConversationMessage Demo.store Demo.carol "no such id" (some " \n\t") Demo.env
        = (Response.fail 400 "Message body is required.", Demo.store) :=
  ⟨by decide,
    sendConversationMessage_blank Demo.store Demo.carol "no such id" (some " \n\t") Demo.env
      (Or.inr ⟨" \n\t", rfl, by decide⟩)⟩

/-! ## Sending a message -/

/-- C8: for a participant `s` of the stored conversation `c` and a body that is not blank,
`sendConversationMessage` appends exactly one message to the message store, leaving the messages
stored before in place and unchanged; the new message has conversation `c`, sender `s`, the
trimmed text as body and `s` as only reader.  Its body is not empty and equals its own trim, so
that a message store in which every body has this property keeps it. -/
theorem sendConversationMessage_appends (store : Store) (s : ObjectId) (c : String)
    (cid : ObjectId) (conv : Conversation) (text : String) (env : Env)
    (hc : castObjectId c = some cid) (hfound : store.findConversationById cid = some conv)
    (hs : s ∈ conv.participants) (hbody : jsTrim text ≠ "") :
    ∃ m : Message,
      (sendConversationMessage store s c (some text) env).2.messages = store.messages ++ [m]
        ∧ m.conversation = cid ∧ m.sender = s ∧ m.body = jsTrim text ∧ m.readBy = [s]
        ∧ m.body ≠ "" ∧ jsTrim m.body = m.body
        ∧ ((∀ x ∈ store.messages, x.body ≠ "" ∧ jsTrim x.body = x.body) →
          ∀ x ∈ (sendConversationMessage store s c (some text) env).2.messages,
            x.body ≠ "" ∧ jsTrim x.body = x.body) := by
  have hmsgs : (sendConversationMessage store s c (some text) env).2.messages
      = store.messages ++ [createMessage cid s text env] := by
    cases hv : validateContext conv with
    | error why => rw [sendConversationMessage_rejected env hc hfound hs hbody hv]
    | ok u => rw [sendConversationMessage_ok env hc hfound hs hbody hv]
  refine ⟨createMessage cid s text env, hmsgs, rfl, rfl, rfl, rfl, hbody, jsTrim_idem text, ?_⟩
  intro hall x hx
  rw [hmsgs] at hx
  rcases List.mem_append.mp hx with h | h
  · exact hall x h
  · rw [List.mem_singleton] at h
    subst h
    exact ⟨hbody, jsTrim_idem text⟩

/-- Instance of `sendConversationMessage_appends`: Bob sends " Hello " to Alice. -/
theorem sendConversationMessage_appends_witness :
    (castObjectId Demo.chatText = some Demo.chat
        ∧ Demo.store.findConversationById Demo.chat = some Demo.chatDoc
        ∧ Demo.bob ∈ Demo.chatDoc.participants
        ∧ jsTrim " Hello " ≠ "")
      ∧ ∃ m : Message,
        (sendConversationMessage Demo.store Demo.bob Demo.chatText (some " Hello ")
            Demo.env).2.messages = Demo.store.messages ++ [m]
          ∧ m.conversation = Demo.chat ∧ m.sender = Demo.bob ∧ m.body = jsTrim " Hello "
          ∧ m.readBy = [Demo.bob]
          ∧ m.body ≠ "" ∧ jsTrim m.body = m.body
          ∧ ((∀ x ∈ Demo.store.messages, x.body ≠ "" ∧ jsTrim x.body = x.body) →
            ∀ x ∈ (sendConversationMessage Demo.store Demo.bob Demo.chatText (some " Hello ")
                Demo.env).2.messages,
              x.body ≠ "" ∧ jsTrim x.body = x.body) :=
  ⟨⟨by decide, by decide, by decide, by decide⟩,
    sendConversationMessage_appends Demo.store Demo.bob Demo.chatText Demo.chat Demo.chatDoc
      " Hello " Demo.env (by decide) (by decide) (by decide) (by decide)⟩

/-- C9: a successful `sendConversationMessage` by a participant `s` replaces the stored
conversation by one with `lastMessage` the identifier of the message it has just appended,
`lastActivityAt` the current time and `unreadFor` the participants other than `s`, whatever
`unreadFor` held before; participants and context stay, and every other conversation stays. -/
theorem sendConversationMessage_updates (store : Store) (s : ObjectId) (c : String)
    (cid : ObjectId) (conv : Conversation) (text : String) (env : Env)
    (hc : castObjectId c = some cid) (hfound : store.findConversationById cid = some conv)
    (hs : s ∈ conv.participants) (hbody : jsTrim text ≠ "")
    (hok : (sendConversationMessage store s c (some text) env).1.status = 201) :
    ∃ (front back : List Conversation) (m : Message),
      store.conversations = front ++ conv :: back
        ∧ (∀ x ∈ front, x._id ≠ cid)
        ∧ (sendConversationMessage store s c (some text) env).2.messages = store.messages ++ [m]
        ∧ (sendConversationMessage store s c (some text) env).2.conversations
          = front ++
              { conv with
                lastMessage := some m._id
                lastActivityAt := env.now
                unreadFor := conv.participants.filter fun p => p ≠ s } :: back := by
  obtain ⟨hid, front, back, hsplit, hfront⟩ := findConversationById_split hfound
  cases hv : validateContext conv with
  | error why =>
    rw [sendConversationMessage_rejected env hc hfound hs hbody hv] at hok
    simp [Response.thrown] at hok
  | ok u =>
    refine ⟨front, back, createMessage cid s text env, hsplit, hfront, ?_, ?_⟩
    · rw [sendConversationMessage_ok env hc hfound hs hbody hv]
    · rw [sendConversationMessage_ok env hc hfound hs hbody hv]
      simp only [hsplit]
      rw [updateById_split front back conv cid _ hid hfront, sendUpdate_eq]
      rfl

/-- Instance of `sendConversationMessage_updates`: Alice answers Bob while she is herself
recorded as unread; afterwards only Bob is. -/
theorem sendConversationMessage_updates_witness :
    (castObjectId Demo.chatText = some Demo.chat
        ∧ Demo.store.findConversationById Demo.chat = some Demo.chatDoc
        ∧ Demo.alice ∈ Demo.chatDoc.participants
        ∧ jsTrim "Hi Bob" ≠ ""
        ∧ (sendConversationMessage Demo.store Demo.alice Demo.chatText (some "Hi Bob")
            Demo.env).1.status = 201)
      ∧ ∃ (front back : List Conversation) (m : Message),
        Demo.store.conversations = front ++ Demo.chatDoc :: back
          ∧ (∀ x ∈ front, x._id ≠ Demo.chat)
          ∧ (sendConversationMessage Demo.store Demo.alice Demo.chatText (some "Hi Bob")
              Demo.env).2.messages = Demo.store.messages ++ [m]
          ∧ (sendConversationMessage Demo.store Demo.alice Demo.chatText (some "Hi Bob")
              Demo.env).2.conversations
            = front ++
                { Demo.chatDoc with
                  lastMessage := some m._id
                  lastActivityAt := Demo.env.now
                  unreadFor := Demo.chatDoc.participants.filter fun p => p ≠ Demo.alice } ::
                  back :=
  ⟨⟨by decide, by decide, by decide, by decide, by decide⟩,
    sendConversationMessage_updates Demo.store Demo.alice Demo.chatText Demo.chat Demo.chatDoc
      "Hi Bob" Demo.env (by decide) (by decide) (by decide) (by decide) (by decide)⟩

/-! ## Marking as read -/

/-- C7: for a participant `u` of a stored conversation, a second `markConversationRead` right
after the first returns the same response and leaves the store as the first left it; when the
stored conversation passes the write-time validator, both calls succeed with status 200 and `u`
is not in the conversation's `unreadFor` afterwards. -/
theorem markConversationRead_twice (store : Store) (u : ObjectId) (c : String)
    (cid : ObjectId) (conv : Conversation)
    (hc : castObjectId c = some cid) (hfound : store.findConversationById cid = some conv)
    (hu : u ∈ conv.participants) :
    markConversationRead (markConversationRead store u c).2 u c = markConversationRead store u c
      ∧ (validateContext conv = Except.ok () →
          (markConversationRead store u c).1
              = ⟨200, true, some "Conversation marked as read.", Payload.none, none⟩
            ∧ ∃ after, (markConversationRead store u c).2.findConversationById cid = some after
                ∧ u ∉ after.unreadFor) := by
  have hkeep : ∀ x, (pullUnread u x)._id = x._id := fun _ => rfl
  cases hv : validateContext conv with
  | error why =>
    refine ⟨?_, fun h => by cases h⟩
    rw [markConversationRead_rejected hc hfound hu hv]
    have hfound2 : Store.findConversationById
        { store with messages := markMessagesRead store.messages cid u } cid = some conv := hfound
    rw [markConversationRead_rejected hc hfound2 hu hv]
    simp [markMessagesRead_idem]
  | ok done =>
    have hfound2 := findConversationById_update store (markMessagesRead store.messages cid u) cid
      (pullUnread u) hkeep
    rw [hfound] at hfound2
    have hu2 : u ∈ (pullUnread u conv).participants := hu
    have hv2 : validateContext (pullUnread u conv) = Except.ok () := by
      rw [validateContext_pullUnread, hv]
    rw [markConversationRead_ok hc hfound hu hv]
    refine ⟨?_, fun _ => ⟨rfl, pullUnread u conv, hfound2, ?_⟩⟩
    · rw [markConversationRead_ok hc hfound2 hu2 hv2]
      simp [markMessagesRead_idem, updateById_twice _ _ _ hkeep (pullUnread_idem u)]
    · simp [pullUnread]

/-- Instance of `markConversationRead_twice`: Alice marks the conversation as read. -/
theorem markConversationRead_twice_witness :
    (castObjectId Demo.chatText = some Demo.chat
        ∧ Demo.store.findConversationById Demo.chat = some Demo.chatDoc
        ∧ Demo.alice ∈ Demo.chatDoc.participants)
      ∧ markConversationRead (markConversationRead Demo.store Demo.alice Demo.chatText).2
          Demo.alice Demo.chatText = markConversationRead Demo.store Demo.alice Demo.chatText
      ∧ (validateContext Demo.chatDoc = Except.ok () →
          (markConversationRead Demo.store Demo.alice Demo.chatText).1
              = ⟨200, true, some "Conversation marked as read.", Payload.none, none⟩
            ∧ ∃ after,
                (markConversationRead Demo.store Demo.alice
                    Demo.chatText).2.findConversationById Demo.chat = some after
                  ∧ Demo.alice ∉ after.unreadFor) :=
  ⟨⟨by decide, by decide, by decide⟩,
    markConversationRead_twice Demo.store Demo.alice Demo.chatText Demo.chat Demo.chatDoc
      (by decide) (by decide) (by decide)⟩

/-- C6: in a stored conversation whose participants are the two distinct users `a` and `b`,
after a successful `sendConversationMessage` by `a` the conversation's `unreadFor` is exactly
`[b]`, whatever it held before; after `b` then calls `getConversationMessages` (with any query)
or `markConversationRead`, the call succeeds and `unreadFor` is empty. -/
theorem unread_fan_out (store : Store) (a b : ObjectId) (c : String) (cid : ObjectId)
    (conv : Conversation) (text : String) (env : Env)
    (hc : castObjectId c = some cid) (hfound : store.findConversationById cid = some conv)
    (hpair : conv.participants = [a, b] ∨ conv.participants = [b, a]) (hab : a ≠ b)
    (hbody : jsTrim text ≠ "")
    (hok : (sendConversationMessage store a c (some text) env).1.status = 201) :
    ((sendConversationMessage store a c (some text) env).2.findConversationById cid).map
        Conversation.unreadFor = some [b]
      ∧ (∀ query : PageQuery,
          (getConversationMessages (sendConversationMessage store a c (some text) env).2 b c
              query).1.status = 200
            ∧ ((getConversationMessages (sendConversationMessage store a c (some text) env).2 b c
              query).2.findConversationById cid).map Conversation.unreadFor = some [])
      ∧ (markConversationRead (sendConversationMessage store a c (some text) env).2 b c).1.status
          = 200
      ∧ ((markConversationRead (sendConversationMessage store a c (some text) env).2 b
          c).2.findConversationById cid).map Conversation.unreadFor = some [] := by
  have ha : a ∈ conv.participants := by rcases hpair with h | h <;> simp [h]
  have hb : b ∈ conv.participants := by rcases hpair with h | h <;> simp [h]
  have hba : b ≠ a := fun e => hab e.symm
  cases hv : validateContext conv with
  | error why =>
    rw [sendConversationMessage_rejected env hc hfound ha hbody hv] at hok
    simp [Response.thrown] at hok
  | ok done =>
    have hkeep : ∀ x, (sendUpdate x a env.newId env)._id = x._id := fun _ => rfl
    have hkeep2 : ∀ x, (pullUnread b x)._id = x._id := fun _ => rfl
    rw [sendConversationMessage_ok env hc hfound ha hbody hv]
    simp only [updateById_const_eq (fun x => sendUpdate x a env.newId env) hfound]
    have hsent := findConversationById_update store
      (store.messages ++ [createMessage cid a text env]) cid
      (fun x => sendUpdate x a env.newId env) hkeep
    rw [hfound] at hsent
    have hunread : (sendUpdate conv a env.newId env).unreadFor = [b] := by
      rw [sendUpdate_eq]
      rcases hpair with h | h <;> simp [h, hab, hba]
    have hb2 : b ∈ (sendUpdate conv a env.newId env).participants := hb
    have hv2 : validateContext (sendUpdate conv a env.newId env) = Except.ok () := by
      rw [validateContext_sendUpdate, hv]
    have hpull : (pullUnread b (sendUpdate conv a env.newId env)).unreadFor = [] := by
      simp [pullUnread, hunread]
    refine ⟨by simp [hsent, hunread], fun query => ?_, ?_⟩
    · rw [getConversationMessages_participant query hc hsent hb2]
      refine ⟨rfl, ?_⟩
      rw [findConversationById_update _ _ cid (pullUnread b) hkeep2, hsent]
      simp [hpull]
    · rw [markConversationRead_ok hc hsent hb2 hv2]
      refine ⟨rfl, ?_⟩
      rw [findConversationById_update _ _ cid (pullUnread b) hkeep2, hsent]
      simp [hpull]

/-- Instance of `unread_fan_out`: Bob writes to Alice, then Alice reads. -/
theorem unread_fan_out_witness :
    (castObjectId Demo.chatText = some Demo.chat
        ∧ Demo.store.findConversationById Demo.chat = some Demo.chatDoc
        ∧ (Demo.chatDoc.participants = [Demo.bob, Demo.alice]
            ∨ Demo.chatDoc.participants = [Demo.alice, Demo.bob])
        ∧ Demo.bob ≠ Demo.alice
        ∧ jsTrim "Hello" ≠ ""
        ∧ (sendConversationMessage Demo.store Demo.bob Demo.chatText (some "Hello")
            Demo.env).1.status = 201)
      ∧ ((sendConversationMessage Demo.store Demo.bob Demo.chatText (some "Hello")
            Demo.env).2.findConversationById Demo.chat).map Conversation.unreadFor
          = some [Demo.alice]
      ∧ (∀ query : PageQuery,
          (getConversationMessages
              (sendConversationMessage Demo.store Demo.bob Demo.chatText (some "Hello")
                Demo.env).2 Demo.alice Demo.chatText query).1.status = 200
            ∧ ((getConversationMessages
              (sendConversationMessage Demo.store Demo.bob Demo.chatText (some "Hello")
                Demo.env).2 Demo.alice Demo.chatText query).2.findConversationById
                  Demo.chat).map Conversation.unreadFor = some [])
      ∧ (markConversationRead
          (sendConversationMessage Demo.store Demo.bob Demo.chatText (some "Hello") Demo.env).2
          Demo.alice Demo.chatText).1.status = 200
      ∧ ((markConversationRead
          (sendConversationMessage Demo.store Demo.bob Demo.chatText (some "Hello") Demo.env).2
          Demo.alice Demo.chatText).2.findConversationById Demo.chat).map Conversation.unreadFor
          = some [] :=
  ⟨⟨by decide, by decide, Or.inl (by decide), by decide, by decide, by decide⟩,
    unread_fan_out Demo.store Demo.bob Demo.alice Demo.chatText Demo.chat Demo.chatDoc "Hello"
      Demo.env (by decide) (by decide) (Or.inl (by decide)) (by decide) (by decide) (by decide)⟩

/-! ## Paging -/

/-- C5: for a participant of a stored conversation whose messages have pairwise distinct
creation times, and a positive limit (50 when the query names none),
`getConversationMessages` answers with a page that is in strictly ascending order of creation
time, consists of messages of the conversation created strictly before `before` (of any of its
messages when the query names no `before`), has as many messages as the smaller of the limit
and the number of such messages, and leaves out only messages older than all it contains. -/
theorem getConversationMessages_page (store : Store) (u : ObjectId) (c : String)
    (cid : ObjectId) (conv : Conversation) (query : PageQuery)
    (hc : castObjectId c = some cid) (hfound : store.findConversationById cid = some conv)
    (hu : u ∈ conv.participants)
    (hdistinct : (store.messages.filter fun m => m.conversation = cid).Pairwise
      fun x y => x.createdAt ≠ y.createdAt)
    (hlimit : 0 < query.limit.getD 50) :
    ∃ page : List Message,
      (getConversationMessages store u c query).1 = Response.data (Payload.messages page)
        ∧ page.Pairwise (fun x y => x.createdAt < y.createdAt)
        ∧ (∀ m ∈ page, m ∈ store.messages ∧ m.conversation = cid
            ∧ ∀ instant, query.before = some instant → m.createdAt < instant)
        ∧ page.length
            = min (query.limit.getD 50)
                (store.messages.filter (matchesQuery cid query.before)).length
        ∧ (∀ m ∈ store.messages, m.conversation = cid →
            (∀ instant, query.before = some instant → m.createdAt < instant) →
            m ∉ page → ∀ p ∈ page, m.createdAt < p.createdAt) := by
  have hsel : (store.messages.filter (matchesQuery cid query.before)).Pairwise
      fun x y => x.createdAt ≠ y.createdAt := by
    have hsub : (store.messages.filter (matchesQuery cid query.before)).Sublist
        (store.messages.filter fun m => m.conversation = cid) := by
      apply List.monotone_filter_right
      intro m hm
      simpa using ((matchesQuery_iff cid query.before m).mp hm).1
    exact hdistinct.sublist hsub
  have hstrict := sorted_selection_strict _ hsel
  have hperm := List.perm_insertionSort newerMessage
    (store.messages.filter (matchesQuery cid query.before))
  have hpage : findPage store cid query
      = ((store.messages.filter (matchesQuery cid query.before)).insertionSort
          newerMessage).take (query.limit.getD 50) := by
    simp [findPage, limitDocs, Nat.pos_iff_ne_zero.mp hlimit]
  refine ⟨(findPage store cid query).reverse, ?_, ?_, ?_, ?_, ?_⟩
  · rw [getConversationMessages_participant query hc hfound hu]
  · rw [List.pairwise_reverse, hpage]
    exact hstrict.sublist (List.take_sublist _ _)
  · intro m hm
    rw [List.mem_reverse, hpage] at hm
    have hm2 := hperm.subset (List.mem_of_mem_take hm)
    rw [List.mem_filter, matchesQuery_iff] at hm2
    exact ⟨hm2.1, hm2.2.1, hm2.2.2⟩
  · rw [List.length_reverse, hpage, List.length_take, hperm.length_eq]
  · intro m hm hcid hbefore hnot p hp
    rw [List.mem_reverse, hpage] at hnot hp
    have hsorted : m ∈ (store.messages.filter (matchesQuery cid query.before)).insertionSort
        newerMessage :=
      hperm.symm.subset (List.mem_filter.mpr ⟨hm, (matchesQuery_iff _ _ _).mpr ⟨hcid, hbefore⟩⟩)
    rw [← List.take_append_drop (query.limit.getD 50)
      ((store.messages.filter (matchesQuery cid query.before)).insertionSort newerMessage)]
      at hsorted hstrict
    have hdrop := (List.mem_append.mp hsorted).resolve_left hnot
    exact (List.pairwise_append.mp hstrict).2.2 p hp m hdrop

/-- Instance of `getConversationMessages_page`: of ten messages created at the instants 1 to
10, the page before instant 8 with limit 3 holds those of the instants 5, 6 and 7, in this
order. -/
theorem getConversationMessages_page_witness :
    (castObjectId Demo.chatText = some Demo.chat
        ∧ Demo.store.findConversationById Demo.chat = some Demo.chatDoc
        ∧ Demo.alice ∈ Demo.chatDoc.participants
        ∧ ((Demo.store.messages.filter fun m => m.conversation = Demo.chat).Pairwise
            fun x y => x.createdAt ≠ y.createdAt)
        ∧ 0 < (PageQuery.mk (some 8) (some 3)).limit.getD 50)
      ∧ (getConversationMessages Demo.store Demo.alice Demo.chatText ⟨some 8, some 3⟩).1
          = Response.data (Payload.messages [Demo.note 5, Demo.note 6, Demo.note 7])
      ∧ ∃ page : List Message,
        (getConversationMessages Demo.store Demo.alice Demo.chatText ⟨some 8, some 3⟩).1
            = Response.data (Payload.messages page)
          ∧ page.Pairwise (fun x y => x.createdAt < y.createdAt)
          ∧ (∀ m ∈ page, m ∈ Demo.store.messages ∧ m.conversation = Demo.chat
              ∧ ∀ instant, (PageQuery.mk (some 8) (some 3)).before = some instant →
                m.createdAt < instant)
          ∧ page.length
              = min ((PageQuery.mk (some 8) (some 3)).limit.getD 50)
                  (Demo.store.messages.filter
                    (matchesQuery Demo.chat (PageQuery.mk (some 8) (some 3)).before)).length
          ∧ (∀ m ∈ Demo.store.messages, m.conversation = Demo.chat →
              (∀ instant, (PageQuery.mk (some 8) (some 3)).before = some instant →
                m.createdAt < instant) →
              m ∉ page → ∀ p ∈ page, m.createdAt < p.createdAt) :=
  ⟨⟨by decide, by decide, by decide, by decide, by decide⟩, by decide,
    getConversationMessages_page Demo.store Demo.alice Demo.chatText Demo.chat Demo.chatDoc
      ⟨some 8, some 3⟩ (by decide) (by decide) (by decide) (by decide) (by decide)⟩

/-! ## Starting a conversation -/

/-- C1: when `startConversation` succeeds, the same request by the same requester right after
it returns the same response, hence the same conversation, and leaves the whole store (the
conversations and the messages) as the first call left it. -/
theorem startConversation_repeat (store : Store) (requester : ObjectId) (req : StartRequest)
    (env env2 : Env) (hok : (startConversation store requester req env).1.status = 200) :
    startConversation (startConversation store requester req env).2 requester req env2
        = startConversation store requester req env
      ∧ ∃ view,
          (startConversation store requester req env).1.payload
              = Payload.conversation (some view)
            ∧ (startConversation (startConversation store requester req env).2 requester req
                env2).1.payload = Payload.conversation (some view) := by
  have hsame : startConversation (startConversation store requester req env).2 requester req env2
      = startConversation store requester req env := by
    cases hr : resolveContext store requester req with
    | error response => simp [startConversation, hr]
    | ok ctx =>
      cases ht : truthy? ctx.otherParticipantId with
      | none => simp [startConversation, hr, ht]
      | some other =>
        by_cases hself : other = requester.toString
        · simp [startConversation, hr, ht, hself]
        · cases hcast : castObjectId other with
          | none => simp [startConversation, hr, ht, hself, hcast]
          | some otherId =>
            have h1 : startConversation store requester req env
                = findOrCreate store [requester, otherId] ctx.listing ctx.roommateRequest env := by
              simp [startConversation, hr, ht, hself, hcast]
            obtain ⟨hl, hq, _⟩ := findOrCreate_frame store [requester, otherId] ctx.listing
              ctx.roommateRequest env
            rw [h1]
            have hr2 := resolveContext_congr hl hq requester req
            rw [hr] at hr2
            have h2 : ∀ s : Store, resolveContext s requester req = Except.ok ctx →
                startConversation s requester req env2
                  = findOrCreate s [requester, otherId] ctx.listing ctx.roommateRequest env2 := by
              intro s hs
              simp [startConversation, hs, ht, hself, hcast]
            rw [h2 _ hr2, findOrCreate_idem]
  refine ⟨hsame, ?_⟩
  rw [hsame]
  suffices h : ∃ view, (startConversation store requester req env).1.payload
      = Payload.conversation (some view) by
    obtain ⟨view, hview⟩ := h
    exact ⟨view, hview, hview⟩
  cases hr : resolveContext store requester req with
  | error response =>
    simp only [startConversation, hr] at hok
    exact absurd hok (resolveContext_error_status hr)
  | ok ctx =>
    cases ht : truthy? ctx.otherParticipantId with
    | none => simp [startConversation, hr, ht, Response.fail] at hok
    | some other =>
      by_cases hself : other = requester.toString
      · simp [startConversation, hr, ht, hself, Response.fail] at hok
      · cases hcast : castObjectId other with
        | none => simp [startConversation, hr, ht, hself, hcast, Response.thrown] at hok
        | some otherId =>
          have h1 : startConversation store requester req env
              = findOrCreate store [requester, otherId] ctx.listing ctx.roommateRequest env := by
            simp [startConversation, hr, ht, hself, hcast]
          rw [h1] at hok ⊢
          exact findOrCreate_view _ _ _ _ _ hok

/-- Instance of `startConversation_repeat`: Carol asks twice about the listing of Alice. -/
theorem startConversation_repeat_witness :
    (startConversation Demo.store Demo.carol Demo.askFlat Demo.env).1.status = 200
      ∧ (startConversation (startConversation Demo.store Demo.carol Demo.askFlat Demo.env).2
            Demo.carol Demo.askFlat Demo.later
          = startConversation Demo.store Demo.carol Demo.askFlat Demo.env
        ∧ ∃ view,
            (startConversation Demo.store Demo.carol Demo.askFlat Demo.env).1.payload
                = Payload.conversation (some view)
              ∧ (startConversation
                  (startConversation Demo.store Demo.carol Demo.askFlat Demo.env).2
                  Demo.carol Demo.askFlat Demo.later).1.payload
                = Payload.conversation (some view)) :=
  ⟨by decide,
    startConversation_repeat Demo.store Demo.carol Demo.askFlat Demo.env Demo.later (by decide)⟩

/-- C3, evaluated where it fails: Alice, the landlord of the listing, names her own identifier
in capital letters as the other participant.  The text differs from the text of her identifier,
so the test against a conversation with oneself lets it pass; the cast gives her identifier, and
a conversation whose two participants are both Alice is created and returned with status 200. -/
theorem startConversation_own_identifier_in_capitals :
    castObjectId "AAAAAAAAAAAAAAAAAAAAAAA1" = some Demo.alice
      ∧ startConversation Demo.listed Demo.alice Demo.askSelf Demo.env
        = (Response.data (Payload.conversation (some
              ⟨⟨Demo.env.newId, some Demo.flat, none, [Demo.alice, Demo.alice], none, 20, []⟩,
                none⟩)),
            { Demo.listed with
              conversations :=
                [⟨Demo.env.newId, some Demo.flat, none, [Demo.alice, Demo.alice], none, 20,
                  []⟩] }) := by
  decide

/-- C12: when the listing exists, its landlord is another user than the requester, and no
stored conversation about the listing has exactly the requester and the landlord as
participants, `startConversation` with only `listingId` succeeds and appends one conversation:
participants the requester and the landlord, the listing as context, no roommate request, no
last message, nobody unread, activity time now.  The stored conversations, the messages and the
rest of the store stay as they were. -/
theorem startConversation_creates (store : Store) (requester landlord : ObjectId) (t : String)
    (lid : ObjectId) (listing : Listing) (env : Env)
    (ht : castObjectId t = some lid)
    (hfind : store.listings.find? (fun l => l._id = lid) = some listing)
    (hland : listing.landlord = some landlord) (hne : landlord ≠ requester)
    (hnone : ∀ c ∈ store.conversations, c.listing = some lid →
      ¬∀ x, x ∈ c.participants ↔ x = requester ∨ x = landlord) :
    (startConversation store requester ⟨some t, none, none⟩ env).1.status = 200
      ∧ (startConversation store requester ⟨some t, none, none⟩ env).2
        = { store with
            conversations := store.conversations ++
              [⟨env.newId, some lid, none, [requester, landlord], none, env.now, []⟩] } := by
  have hr : resolveContext store requester ⟨some t, none, none⟩
      = Except.ok ⟨some landlord.toString, some lid, none⟩ := by
    simp only [resolveContext, truthy?_of_cast ht]
    exact resolveListing_other none ht hfind hland hne
  rw [startConversation_resolved env hr (castObjectId_toString landlord) hne]
  refine ⟨findOrCreate_status _ _ _ _ _ (by simp), ?_⟩
  have hfind2 : store.conversations.find? (matchesFilter [requester, landlord] (some lid) none)
      = none := by
    rw [List.find?_eq_none]
    intro c hc hm
    simp only [matchesFilter, List.all_cons, List.all_nil, Bool.and_true, List.length_cons,
      List.length_nil, Bool.and_eq_true, decide_eq_true_eq] at hm
    obtain ⟨⟨⟨hr1, hr2⟩, hlen⟩, hl⟩ := hm
    exact hnone c hc hl (pair_of_two hlen hr1 hr2 (Ne.symm hne))
  simp [findOrCreate, hfind2, validateContext]

/-- Instance of `startConversation_creates`: Carol asks about the listing of Alice. -/
theorem startConversation_creates_witness :
    (castObjectId "000000000000000000000001" = some Demo.flat
        ∧ Demo.store.listings.find? (fun l => l._id = Demo.flat) = some ⟨Demo.flat, some Demo.alice⟩
        ∧ (Listing.mk Demo.flat (some Demo.alice)).landlord = some Demo.alice
        ∧ Demo.alice ≠ Demo.carol
        ∧ ∀ c ∈ Demo.store.conversations, c.listing = some Demo.flat →
          ¬∀ x, x ∈ c.participants ↔ x = Demo.carol ∨ x = Demo.alice)
      ∧ (startConversation Demo.store Demo.carol ⟨some "000000000000000000000001", none, none⟩
          Demo.env).1.status = 200
      ∧ (startConversation Demo.store Demo.carol ⟨some "000000000000000000000001", none, none⟩
          Demo.env).2
        = { Demo.store with
            conversations := Demo.store.conversations ++
              [⟨Demo.env.newId, some Demo.flat, none, [Demo.carol, Demo.alice], none,
                Demo.env.now, []⟩] } :=
  have hnone : ∀ c ∈ Demo.store.conversations, c.listing = some Demo.flat →
      ¬∀ x, x ∈ c.participants ↔ x = Demo.carol ∨ x = Demo.alice := by
    intro c hc _ hall
    have hc2 : c = Demo.chatDoc := by simpa [Demo.store] using hc
    subst hc2
    exact absurd ((hall Demo.carol).mpr (Or.inl rfl)) (by decide)
  ⟨⟨by decide, by decide, rfl, by decide, hnone⟩,
    startConversation_creates Demo.store Demo.carol Demo.alice "000000000000000000000001"
      Demo.flat ⟨Demo.flat, some Demo.alice⟩ Demo.env (by decide) (by decide) rfl (by decide)
      hnone⟩

/-- C13: for a listing (or a roommate request) of `owner` and another user `other`, the request
of `owner` naming `other` as `participantId` and the request of `other` without `participantId`
both succeed, and whichever comes second returns the response of the first, with the same
conversation, and leaves the store as the first call left it, whatever the order of the two
participants in a stored conversation. -/
theorem startConversation_either_party (store : Store) (owner other : ObjectId) (t p : String)
    (id : ObjectId) (req : StartRequest) (env env2 : Env)
    (ht : castObjectId t = some id)
    (hctx : (req = ⟨some t, none, none⟩
          ∧ ∃ listing, store.listings.find? (fun l => l._id = id) = some listing
            ∧ listing.landlord = some owner)
      ∨ (req = ⟨none, none, some t⟩
          ∧ ∃ request, store.roommateRequests.find? (fun r => r._id = id) = some request
            ∧ request.user = some owner))
    (hp : castObjectId p = some other) (hne : other ≠ owner) :
    (startConversation store owner { req with participantId := some p } env).1.status = 200
      ∧ (startConversation store other req env).1.status = 200
      ∧ startConversation
            (startConversation store owner { req with participantId := some p } env).2
            other req env2
          = startConversation store owner { req with participantId := some p } env
      ∧ startConversation (startConversation store other req env).2 owner
            { req with participantId := some p } env2
          = startConversation store other req env := by
  have hpt := truthy?_of_cast hp
  have htt := truthy?_of_cast ht
  -- in both contexts the two requests are the lookup-or-create for the same pair and context
  obtain ⟨l, r, hone, hO, hR⟩ : ∃ l r : Option ObjectId, l.isSome ≠ r.isSome
      ∧ (∀ s : Store, s.listings = store.listings →
          s.roommateRequests = store.roommateRequests → ∀ e,
          startConversation s owner { req with participantId := some p } e
            = findOrCreate s [owner, other] l r e)
      ∧ (∀ s : Store, s.listings = store.listings →
          s.roommateRequests = store.roommateRequests → ∀ e,
          startConversation s other req e = findOrCreate s [other, owner] l r e) := by
    rcases hctx with ⟨rfl, listing, hfind, hland⟩ | ⟨rfl, request, hfind, hown⟩
    · refine ⟨some id, none, by simp, ?_, ?_⟩
      · intro s hl _ e
        have hr : resolveContext s owner ⟨some t, some p, none⟩
            = Except.ok ⟨some p, some id, none⟩ := by
          simp only [resolveContext, htt]
          exact resolveListing_owner ht (hl ▸ hfind) hland hpt
        exact startConversation_resolved e hr hp hne
      · intro s hl _ e
        have hr : resolveContext s other ⟨some t, none, none⟩
            = Except.ok ⟨some owner.toString, some id, none⟩ := by
          simp only [resolveContext, htt]
          exact resolveListing_other none ht (hl ▸ hfind) hland (Ne.symm hne)
        exact startConversation_resolved e hr (castObjectId_toString owner) (Ne.symm hne)
    · have hnone : truthy? (none : Option String) = none := rfl
      refine ⟨none, some id, by simp, ?_, ?_⟩
      · intro s _ hq e
        have hr : resolveContext s owner ⟨none, some p, some t⟩
            = Except.ok ⟨some p, none, some id⟩ := by
          simp only [resolveContext, htt, hnone]
          exact resolveRoommateRequest_owner ht (hq ▸ hfind) hown hpt
        exact startConversation_resolved e hr hp hne
      · intro s _ hq e
        have hr : resolveContext s other ⟨none, none, some t⟩
            = Except.ok ⟨some owner.toString, none, some id⟩ := by
          simp only [resolveContext, htt, hnone]
          exact resolveRoommateRequest_other none ht (hq ▸ hfind) hown (Ne.symm hne)
        exact startConversation_resolved e hr (castObjectId_toString owner) (Ne.symm hne)
  have hf1 := findOrCreate_frame store [owner, other] l r env
  have hf2 := findOrCreate_frame store [other, owner] l r env
  rw [hO store rfl rfl env, hR store rfl rfl env, hR _ hf1.1 hf1.2.1 env2,
    hO _ hf2.1 hf2.2.1 env2]
  exact ⟨findOrCreate_status _ _ _ _ _ hone, findOrCreate_status _ _ _ _ _ hone,
    findOrCreate_swap store owner other l r env env2,
    findOrCreate_swap store other owner l r env env2⟩

/-- C14 as stated fails: Bob owns the roommate request the request names and gives no
`participantId`, but the request names the listing of Alice as well; the listing is taken, the
landlord becomes the other participant, and a conversation is created with status 200. -/
theorem startConversation_owner_alone_fails_with_listing :
    castObjectId "000000000000000000000003" = some Demo.room
      ∧ Demo.shared.roommateRequests.find? (fun r => r._id = Demo.room)
        = some ⟨Demo.room, some Demo.bob⟩
      ∧ Demo.askBoth.roommateRequestId = some "000000000000000000000003"
      ∧ truthy? Demo.askBoth.participantId = none
      ∧ (startConversation Demo.shared Demo.bob Demo.askBoth Demo.env).1.status = 200
      ∧ (startConversation Demo.shared Demo.bob Demo.askBoth Demo.env).2.conversations
        = [⟨Demo.env.newId, some Demo.flat, none, [Demo.bob, Demo.alice], none, 20, []⟩] := by
  decide

/-- C14, amended: when the requester is the landlord of the listing named by `listingId`, or,
no `listingId` being given, the owner of the roommate request named by `roommateRequestId`, and
no `participantId` is given, `startConversation` answers with status 400 and leaves the store as
it was. -/
theorem startConversation_owner_alone (store : Store) (requester : ObjectId) (t : String)
    (id : ObjectId) (req : StartRequest) (env : Env)
    (ht : castObjectId t = some id)
    (hctx : (truthy? req.listingId = some t
          ∧ ∃ listing, store.listings.find? (fun l => l._id = id) = some listing
            ∧ listing.landlord = some requester)
      ∨ (truthy? req.listingId = none ∧ truthy? req.roommateRequestId = some t
          ∧ ∃ request, store.roommateRequests.find? (fun r => r._id = id) = some request
            ∧ request.user = some requester))
    (hp : truthy? req.participantId = none) :
    ∃ message, startConversation store requester req env = (Response.fail 400 message, store) := by
  rcases hctx with ⟨hl, listing, hfind, hland⟩ | ⟨hl, hq, request, hfind, hown⟩
  · refine ⟨"Provide participantId when landlord starts a conversation.", ?_⟩
    have hr : resolveContext store requester req = Except.error
        (Response.fail 400 "Provide participantId when landlord starts a conversation.") := by
      simp only [resolveContext, hl]
      exact resolveListing_owner_alone ht hfind hland hp
    simp [startConversation, hr]
  · refine ⟨"Provide participantId when starting a conversation about your own request.", ?_⟩
    have hr : resolveContext store requester req = Except.error
        (Response.fail 400
          "Provide participantId when starting a conversation about your own request.") := by
      simp only [resolveContext, hl, hq]
      exact resolveRoommateRequest_owner_alone ht hfind hown hp
    simp [startConversation, hr]

/-- C15: when neither `listingId` nor `roommateRequestId` is given, `startConversation` answers
400 "Provide listingId or roommateRequestId." whatever `participantId` is and whatever the
store holds, and leaves the store as it was. -/
theorem startConversation_without_context (store : Store) (requester : ObjectId)
    (req : StartRequest) (env : Env) (hl : truthy? req.listingId = none)
    (hq : truthy? req.roommateRequestId = none) :
    startConversation store requester req env
      = (Response.fail 400 "Provide listingId or roommateRequestId.", store) := by
  simp [startConversation, resolveContext, hl, hq]

/-- Instance of `startConversation_without_context`: a request with a participant only. -/
theorem startConversation_without_context_witness :
    (truthy? (StartRequest.mk none (some "bbbbbbbbbbbbbbbbbbbbbbb2") none).listingId = none
        ∧ truthy? (StartRequest.mk none (some "bbbbbbbbbbbbbbbbbbbbbbb2") none).roommateRequestId
          = none)
      ∧ startConversation Demo.store Demo.alice ⟨none, some "bbbbbbbbbbbbbbbbbbbbbbb2", none⟩
          Demo.env
        = (Response.fail 400 "Provide listingId or roommateRequestId.", Demo.store) :=
  ⟨⟨rfl, rfl⟩,
    startConversation_without_context Demo.store Demo.alice
      ⟨none, some "bbbbbbbbbbbbbbbbbbbbbbb2", none⟩ Demo.env rfl rfl⟩

/-- Instance of `startConversation_owner_alone`: Alice asks about her own listing and names
nobody. -/
theorem startConversation_owner_alone_witness :
    (castObjectId "000000000000000000000001" = some Demo.flat
        ∧ truthy? Demo.askFlat.listingId = some "000000000000000000000001"
        ∧ Demo.listed.listings.find? (fun l => l._id = Demo.flat)
          = some ⟨Demo.flat, some Demo.alice⟩
        ∧ truthy? Demo.askFlat.participantId = none)
      ∧ ∃ message,
        startConversation Demo.listed Demo.alice Demo.askFlat Demo.env
          = (Response.fail 400 message, Demo.listed) :=
  ⟨⟨by decide, by decide, by decide, by decide⟩,
    startConversation_owner_alone Demo.listed Demo.alice "000000000000000000000001" Demo.flat
      Demo.askFlat Demo.env (by decide)
      (Or.inl ⟨by decide, ⟨Demo.flat, some Demo.alice⟩, by decide, rfl⟩) (by decide)⟩

/-- Instance of `startConversation_either_party`: Alice, the landlord, names Bob; Bob asks about
the listing. -/
theorem startConversation_either_party_witness :
    (castObjectId "000000000000000000000001" = some Demo.flat
        ∧ Demo.listed.listings.find? (fun l => l._id = Demo.flat)
          = some ⟨Demo.flat, some Demo.alice⟩
        ∧ castObjectId "bbbbbbbbbbbbbbbbbbbbbbb2" = some Demo.bob
        ∧ Demo.bob ≠ Demo.alice)
      ∧ (startConversation Demo.listed Demo.alice
          { Demo.askFlat with participantId := some "bbbbbbbbbbbbbbbbbbbbbbb2" }
          Demo.env).1.status = 200
      ∧ (startConversation Demo.listed Demo.bob Demo.askFlat Demo.env).1.status = 200
      ∧ startConversation
            (startConversation Demo.listed Demo.alice
              { Demo.askFlat with participantId := some "bbbbbbbbbbbbbbbbbbbbbbb2" } Demo.env).2
            Demo.bob Demo.askFlat Demo.later
          = startConversation Demo.listed Demo.alice
              { Demo.askFlat with participantId := some "bbbbbbbbbbbbbbbbbbbbbbb2" } Demo.env
      ∧ startConversation (startConversation Demo.listed Demo.bob Demo.askFlat Demo.env).2
            Demo.alice { Demo.askFlat with participantId := some "bbbbbbbbbbbbbbbbbbbbbbb2" }
            Demo.later
          = startConversation Demo.listed Demo.bob Demo.askFlat Demo.env :=
  ⟨⟨by decide, by decide, by decide, by decide⟩,
    startConversation_either_party Demo.listed Demo.alice Demo.bob "000000000000000000000001"
      "bbbbbbbbbbbbbbbbbbbbbbb2" Demo.flat Demo.askFlat Demo.env Demo.later (by decide)
      (Or.inl ⟨rfl, ⟨Demo.flat, some Demo.alice⟩, by decide, rfl⟩) (by decide) (by decide)⟩

/-! ## Listing conversations -/

/-- C11: `getConversations` answers with the stored conversations that have the user among
their participants, each as often as it is stored and no other, in an order in which
`lastActivityAt` never increases, and leaves the store as it was. -/
theorem getConversations_lists (store : Store) (u : ObjectId) :
    ∃ views : List ConversationView,
      getConversations store u = (Response.data (Payload.conversations views), store)
        ∧ (views.map fun v => v.conversation).Perm
            (store.conversations.filter fun c => u ∈ c.participants)
        ∧ (views.map fun v => v.conversation).Pairwise
            (fun a b => b.lastActivityAt ≤ a.lastActivityAt)
        ∧ ∀ c, c ∈ (views.map fun v => v.conversation)
            ↔ c ∈ store.conversations ∧ u ∈ c.participants := by
  have hmap : ∀ l : List Conversation,
      (l.map fun c => ({ conversation := c
                         lastMessage := c.lastMessage.bind store.findMessageById } :
        ConversationView)).map (fun v => v.conversation) = l := by
    intro l
    induction l with
    | nil => rfl
    | cons c l ih => simpa using ih
  refine ⟨_, rfl, ?_, ?_, ?_⟩
  · rw [hmap]
    exact List.perm_insertionSort newerActivity _
  · rw [hmap]
    exact List.sorted_insertionSort newerActivity _
  · intro c
    rw [hmap, (List.perm_insertionSort newerActivity _).mem_iff, List.mem_filter]
    simp

/-! ## Properties of every call and of every reachable store -/

/-- C17: whatever the call, the messages stored before it are still stored after it, at the
same place, each with the same identifier, conversation, sender, body and creation time and with
all the readers it had; what the call adds comes after them. -/
theorem messages_kept (store : Store) (call : Call) (env : Env) :
    ∃ kept added : List Message,
      (perform store call env).2.messages = kept ++ added
        ∧ List.Forall₂
            (fun before after =>
              after._id = before._id ∧ after.conversation = before.conversation
                ∧ after.sender = before.sender ∧ after.body = before.body
                ∧ after.createdAt = before.createdAt ∧ before.readBy ⊆ after.readBy)
            store.messages kept := by
  have hrefl : ∀ ms : List Message, List.Forall₂
      (fun before after =>
        after._id = before._id ∧ after.conversation = before.conversation
          ∧ after.sender = before.sender ∧ after.body = before.body
          ∧ after.createdAt = before.createdAt ∧ before.readBy ⊆ after.readBy) ms ms := by
    intro ms
    induction ms with
    | nil => exact List.Forall₂.nil
    | cons m ms ih => exact List.Forall₂.cons ⟨rfl, rfl, rfl, rfl, rfl, fun _ h => h⟩ ih
  have hmark : ∀ (cid u : ObjectId) (ms : List Message), List.Forall₂
      (fun before after =>
        after._id = before._id ∧ after.conversation = before.conversation
          ∧ after.sender = before.sender ∧ after.body = before.body
          ∧ after.createdAt = before.createdAt ∧ before.readBy ⊆ after.readBy)
      ms (markMessagesRead ms cid u) := by
    intro cid u ms
    induction ms with
    | nil => exact List.Forall₂.nil
    | cons m ms ih =>
      refine List.Forall₂.cons ?_ ih
      by_cases hm : m.conversation = cid ∧ u ∉ m.readBy
      · simp [hm]
      · simp [hm]
  have heff := perform_effect store call env
  generalize (perform store call env).2 = after at heff ⊢
  cases heff with
  | unchanged => exact ⟨store.messages, [], by simp, hrefl _⟩
  | created ps l r _ _ _ => exact ⟨store.messages, [], by simp, hrefl _⟩
  | read cid conv user _ _ => exact ⟨_, [], by simp, hmark cid user _⟩
  | readRejected cid conv user why _ _ => exact ⟨_, [], by simp, hmark cid user _⟩
  | sent cid conv user text _ _ => exact ⟨store.messages, _, rfl, hrefl _⟩
  | sentRejected cid conv user text why _ _ => exact ⟨store.messages, _, rfl, hrefl _⟩

/-- C16: in every reachable store, a conversation with at least one message has as
`lastMessage` the identifier of its most recently created message, which is the last of its
messages in the collection and has a creation time no message of the conversation exceeds; a
conversation with no message has no `lastMessage`. -/
theorem reachable_lastMessage (store : Store) (h : Reachable store) :
    ∀ c ∈ store.conversations,
      ((∃ m ∈ store.messages, m.conversation = c._id) →
          ∃ last ∈ store.messages, last.conversation = c._id
            ∧ lastOf store.messages c._id = some last
            ∧ c.lastMessage = some last._id
            ∧ ∀ m ∈ store.messages, m.conversation = c._id → m.createdAt ≤ last.createdAt)
        ∧ ((∀ m ∈ store.messages, m.conversation ≠ c._id) → c.lastMessage = none) := by
  intro c hc
  have hinv := h.inv
  constructor
  · rintro ⟨m, hm, hmc⟩
    cases hlast : lastOf store.messages c._id with
    | none =>
      unfold lastOf at hlast
      have hmem : m ∈ store.messages.filter fun m => m.conversation = c._id :=
        List.mem_filter.mpr ⟨hm, by simpa using hmc⟩
      rw [List.getLast?_eq_none_iff] at hlast
      rw [hlast] at hmem
      cases hmem
    | some last =>
      obtain ⟨hmem, hconv⟩ := lastOf_conversation hlast
      refine ⟨last, hmem, hconv, rfl, ?_, lastOf_newest hinv.clock hlast⟩
      rw [hinv.last c hc, hlast]; rfl
  · intro hno
    rw [hinv.last c hc, lastOf_eq_none hno]; rfl

/-- Instance of `reachable_lastMessage`: the store after Bob wrote and Alice answered. -/
theorem reachable_lastMessage_witness :
    Reachable Demo.answered
      ∧ ∀ c ∈ Demo.answered.conversations,
        ((∃ m ∈ Demo.answered.messages, m.conversation = c._id) →
            ∃ last ∈ Demo.answered.messages, last.conversation = c._id
              ∧ lastOf Demo.answered.messages c._id = some last
              ∧ c.lastMessage = some last._id
              ∧ ∀ m ∈ Demo.answered.messages, m.conversation = c._id →
                m.createdAt ≤ last.createdAt)
          ∧ ((∀ m ∈ Demo.answered.messages, m.conversation ≠ c._id) → c.lastMessage = none) :=
  ⟨Demo.reachable_answered, reachable_lastMessage Demo.answered Demo.reachable_answered⟩

/-- C18 as stated fails: after Bob wrote and Alice answered without opening the conversation,
Alice is a participant and the message of Bob does not have her among its readers, but she is
not in `unreadFor`, because sending replaced `unreadFor` by the other participants. -/
theorem unread_for_any_message_fails :
    Reachable Demo.answered
      ∧ ∃ c ∈ Demo.answered.conversations,
        ¬(Demo.alice ∈ c.unreadFor ↔
            Demo.alice ∈ c.participants
              ∧ ∃ m ∈ Demo.answered.messages, m.conversation = c._id
                ∧ Demo.alice ∉ m.readBy) :=
  ⟨Demo.reachable_answered,
    ⟨ObjectId.ofDigits 2 0, some Demo.flat, none, [Demo.bob, Demo.alice],
      some (ObjectId.ofDigits 3 2), 22, [Demo.bob]⟩, by decide, by decide⟩

/-- C18, amended: in every reachable store, a user is in a conversation's `unreadFor` exactly
when the user is a participant of the conversation and the conversation has a message and its
most recently created message does not have the user among its readers. -/
theorem reachable_unread_iff (store : Store) (h : Reachable store) :
    ∀ c ∈ store.conversations, ∀ u,
      u ∈ c.unreadFor ↔
        u ∈ c.participants ∧ ∃ m, lastOf store.messages c._id = some m ∧ u ∉ m.readBy :=
  h.inv.unread

/-- Instance of `reachable_unread_iff`: the store after Bob wrote and Alice answered. -/
theorem reachable_unread_iff_witness :
    Reachable Demo.answered
      ∧ ∀ c ∈ Demo.answered.conversations, ∀ u,
        u ∈ c.unreadFor ↔
          u ∈ c.participants
            ∧ ∃ m, lastOf Demo.answered.messages c._id = some m ∧ u ∉ m.readBy :=
  ⟨Demo.reachable_answered, reachable_unread_iff Demo.answered Demo.reachable_answered⟩

/-- C19, evaluated where it fails: from a store without conversations, Alice asks about her own
listing and names her own identifier in capital letters as the other participant; the store
reached holds a conversation whose two participants are both Alice. -/
theorem reachable_conversation_with_oneself :
    Reachable Demo.alone
      ∧ Demo.alone.conversations
        = [⟨ObjectId.ofDigits 2 0, some Demo.flat, none, [Demo.alice, Demo.alice], none, 20, []⟩]
      ∧ ∃ c ∈ Demo.alone.conversations, c.participants.length = 2 ∧ ¬c.participants.Nodup :=
  ⟨Demo.reachable_alone, by decide,
    ⟨ObjectId.ofDigits 2 0, some Demo.flat, none, [Demo.alice, Demo.alice], none, 20, []⟩,
    by decide, by decide, by decide⟩

/-- C20: in every reachable store, every member of a conversation's `unreadFor` is one of its
participants, and `unreadFor` holds no identifier twice. -/
theorem reachable_unreadFor (store : Store) (h : Reachable store) :
    ∀ c ∈ store.conversations, (∀ u ∈ c.unreadFor, u ∈ c.participants) ∧ c.unreadFor.Nodup := by
  intro c hc
  have hinv := h.inv
  refine ⟨fun u hu => ((hinv.unread c hc u).mp hu).1, ?_⟩
  have hshort := hinv.short c hc
  match hl : c.unreadFor with
  | [] => exact List.nodup_nil
  | [a] => exact List.nodup_singleton a
  | a :: b :: rest => rw [hl] at hshort; simp at hshort

/-- Instance of `reachable_unreadFor`: the store after Bob wrote and Alice answered. -/
theorem reachable_unreadFor_witness :
    Reachable Demo.answered
      ∧ ∀ c ∈ Demo.answered.conversations,
        (∀ u ∈ c.unreadFor, u ∈ c.participants) ∧ c.unreadFor.Nodup :=
  ⟨Demo.reachable_answered, reachable_unreadFor Demo.answered Demo.reachable_answered⟩

/-! ## Read effects and frames -/

/-- C21: for a participant `u` of a stored conversation that passes the write-time validator,
`getConversationMessages` with any `before` and `limit` succeeds and leaves the same store as
`markConversationRead` does from the same store: every message of the conversation, in the page
or not, has `u` among its readers, and `u` is not in the conversation's `unreadFor`. -/
theorem getConversationMessages_store_eq_read (store : Store) (u : ObjectId) (c : String)
    (cid : ObjectId) (conv : Conversation) (query : PageQuery)
    (hc : castObjectId c = some cid) (hfound : store.findConversationById cid = some conv)
    (hu : u ∈ conv.participants) (hv : validateContext conv = Except.ok ()) :
    (getConversationMessages store u c query).1.status = 200
      ∧ (markConversationRead store u c).1.status = 200
      ∧ (getConversationMessages store u c query).2 = (markConversationRead store u c).2
      ∧ (∀ m ∈ (getConversationMessages store u c query).2.messages,
          m.conversation = cid → u ∈ m.readBy)
      ∧ ∃ after, (getConversationMessages store u c query).2.findConversationById cid = some after
          ∧ u ∉ after.unreadFor := by
  rw [getConversationMessages_participant query hc hfound hu,
    markConversationRead_ok hc hfound hu hv]
  refine ⟨rfl, rfl, rfl, ?_, pullUnread u conv, ?_, by simp [pullUnread]⟩
  · intro m hm hmc
    change m ∈ markMessagesRead store.messages cid u at hm
    rw [markMessagesRead_eq_map, List.mem_map] at hm
    obtain ⟨m0, _, rfl⟩ := hm
    rw [markOne_conversation] at hmc
    exact (mem_readBy_markOne hmc u).mpr (Or.inr rfl)
  · rw [findConversationById_update _ _ cid (pullUnread u) (fun _ => rfl), hfound]
    rfl

/-- C22: for a participant `u` of a stored conversation that passes the write-time validator,
`markConversationRead` succeeds; afterwards the messages are the old ones, those of the
conversation that lacked `u` having `u` added to their readers and all others untouched, and
the conversations are the old ones with the conversation's `unreadFor` freed of `u` and nothing
else changed; listings and roommate requests stay. -/
theorem markConversationRead_frame (store : Store) (u : ObjectId) (c : String)
    (cid : ObjectId) (conv : Conversation)
    (hc : castObjectId c = some cid) (hfound : store.findConversationById cid = some conv)
    (hu : u ∈ conv.participants) (hv : validateContext conv = Except.ok ()) :
    (markConversationRead store u c).1
        = ⟨200, true, some "Conversation marked as read.", Payload.none, none⟩
      ∧ (markConversationRead store u c).2.listings = store.listings
      ∧ (markConversationRead store u c).2.roommateRequests = store.roommateRequests
      ∧ (markConversationRead store u c).2.messages
        = store.messages.map (fun m =>
            if m.conversation = cid ∧ u ∉ m.readBy then { m with readBy := m.readBy ++ [u] }
            else m)
      ∧ (∀ m ∈ (markConversationRead store u c).2.messages, m.conversation = cid → u ∈ m.readBy)
      ∧ ∃ front back : List Conversation,
          store.conversations = front ++ conv :: back
            ∧ (∀ x ∈ front, x._id ≠ cid)
            ∧ (markConversationRead store u c).2.conversations
              = front ++ { conv with unreadFor := conv.unreadFor.filter fun p => p ≠ u } :: back
            ∧ ∀ p, p ∈ conv.unreadFor.filter (fun p => p ≠ u) ↔ p ∈ conv.unreadFor ∧ p ≠ u := by
  obtain ⟨hid, front, back, hsplit, hfront⟩ := findConversationById_split hfound
  rw [markConversationRead_ok hc hfound hu hv]
  refine ⟨rfl, rfl, rfl, rfl, ?_, front, back, hsplit, hfront, ?_, ?_⟩
  · intro m hm hmc
    change m ∈ markMessagesRead store.messages cid u at hm
    rw [markMessagesRead_eq_map, List.mem_map] at hm
    obtain ⟨m0, _, rfl⟩ := hm
    rw [markOne_conversation] at hmc
    exact (mem_readBy_markOne hmc u).mpr (Or.inr rfl)
  · show updateById store.conversations cid (pullUnread u) = _
    rw [hsplit, updateById_split front back conv cid _ hid hfront]
    rfl
  · intro p
    simp

/-- C23: for a stored conversation and a user who is not one of its participants,
`getConversationMessages`, `sendConversationMessage` (with any body) and `markConversationRead`
called by that user leave the whole store as it was. -/
theorem nonparticipant_store_unchanged (store : Store) (u : ObjectId) (c : String)
    (cid : ObjectId) (conv : Conversation) (query : PageQuery) (body : Option String) (env : Env)
    (hc : castObjectId c = some cid) (hfound : store.findConversationById cid = some conv)
    (hnot : u ∉ conv.participants) :
    (getConversationMessages store u c query).2 = store
      ∧ (sendConversationMessage store u c body env).2 = store
      ∧ (markConversationRead store u c).2 = store := by
  have hp := ensureParticipant_false hnot
  refine ⟨by simp [getConversationMessages, hc, hfound, hp], ?_,
    by simp [markConversationRead, hc, hfound, hp]⟩
  cases hb : truthy? body with
  | none => simp [sendConversationMessage, hb]
  | some text =>
    by_cases ht : jsTrim text = ""
    · simp [sendConversationMessage, hb, ht]
    · simp [sendConversationMessage, hb, ht, hc, hfound, hp]

/-- Instance of `getConversationMessages_store_eq_read`: Alice opens a page of the
conversation. -/
theorem getConversationMessages_store_eq_read_witness :
    (castObjectId Demo.chatText = some Demo.chat
        ∧ Demo.store.findConversationById Demo.chat = some Demo.chatDoc
        ∧ Demo.alice ∈ Demo.chatDoc.participants
        ∧ validateContext Demo.chatDoc = Except.ok ())
      ∧ (getConversationMessages Demo.store Demo.alice Demo.chatText ⟨some 8, some 3⟩).1.status
          = 200
      ∧ (markConversationRead Demo.store Demo.alice Demo.chatText).1.status = 200
      ∧ (getConversationMessages Demo.store Demo.alice Demo.chatText ⟨some 8, some 3⟩).2
          = (markConversationRead Demo.store Demo.alice Demo.chatText).2
      ∧ (∀ m ∈ (getConversationMessages Demo.store Demo.alice Demo.chatText
            ⟨some 8, some 3⟩).2.messages,
          m.conversation = Demo.chat → Demo.alice ∈ m.readBy)
      ∧ ∃ after,
          (getConversationMessages Demo.store Demo.alice Demo.chatText
              ⟨some 8, some 3⟩).2.findConversationById Demo.chat = some after
            ∧ Demo.alice ∉ after.unreadFor :=
  ⟨⟨by decide, by decide, by decide, rfl⟩,
    getConversationMessages_store_eq_read Demo.store Demo.alice Demo.chatText Demo.chat
      Demo.chatDoc ⟨some 8, some 3⟩ (by decide) (by decide) (by decide) rfl⟩

/-- Instance of `markConversationRead_frame`: Alice marks the conversation as read. -/
theorem markConversationRead_frame_witness :
    (castObjectId Demo.chatText = some Demo.chat
        ∧ Demo.store.findConversationById Demo.chat = some Demo.chatDoc
        ∧ Demo.alice ∈ Demo.chatDoc.participants
        ∧ validateContext Demo.chatDoc = Except.ok ())
      ∧ (markConversationRead Demo.store Demo.alice Demo.chatText).1
          = ⟨200, true, some "Conversation marked as read.", Payload.none, none⟩
      ∧ (markConversationRead Demo.store Demo.alice Demo.chatText).2.listings
          = Demo.store.listings
      ∧ (markConversationRead Demo.store Demo.alice Demo.chatText).2.roommateRequests
          = Demo.store.roommateRequests
      ∧ (markConversationRead Demo.store Demo.alice Demo.chatText).2.messages
          = Demo.store.messages.map (fun m =>
              if m.conversation = Demo.chat ∧ Demo.alice ∉ m.readBy then
                { m with readBy := m.readBy ++ [Demo.alice] }
              else m)
      ∧ (∀ m ∈ (markConversationRead Demo.store Demo.alice Demo.chatText).2.messages,
          m.conversation = Demo.chat → Demo.alice ∈ m.readBy)
      ∧ ∃ front back : List Conversation,
          Demo.store.conversations = front ++ Demo.chatDoc :: back
            ∧ (∀ x ∈ front, x._id ≠ Demo.chat)
            ∧ (markConversationRead Demo.store Demo.alice Demo.chatText).2.conversations
              = front ++
                  { Demo.chatDoc with
                    unreadFor := Demo.chatDoc.unreadFor.filter fun p => p ≠ Demo.alice } :: back
            ∧ ∀ p, p ∈ Demo.chatDoc.unreadFor.filter (fun p => p ≠ Demo.alice)
                ↔ p ∈ Demo.chatDoc.unreadFor ∧ p ≠ Demo.alice :=
  ⟨⟨by decide, by decide, by decide, rfl⟩,
    markConversationRead_frame Demo.store Demo.alice Demo.chatText Demo.chat Demo.chatDoc
      (by decide) (by decide) (by decide) rfl⟩

/-- Instance of `nonparticipant_store_unchanged`: Carol tries the conversation of Bob and
Alice. -/
theorem nonparticipant_store_unchanged_witness :
    (castObjectId Demo.chatText = some Demo.chat
        ∧ Demo.store.findConversationById Demo.chat = some Demo.chatDoc
        ∧ Demo.carol ∉ Demo.chatDoc.participants)
      ∧ (getConversationMessages Demo.store Demo.carol Demo.chatText ⟨none, none⟩).2
          = Demo.store
      ∧ (sendConversationMessage Demo.store Demo.carol Demo.chatText (some "Hi") Demo.env).2
          = Demo.store
      ∧ (markConversationRead Demo.store Demo.carol Demo.chatText).2 = Demo.store :=
  ⟨⟨by decide, by decide, by decide⟩,
    nonparticipant_store_unchanged Demo.store Demo.carol Demo.chatText Demo.chat Demo.chatDoc
      ⟨none, none⟩ (some "Hi") Demo.env (by decide) (by decide) (by decide)⟩

/-! ## Statuses -/

/-- C24: the statuses of the five operations.  Every response has status 200, 201, 400, 404 or
500, hence never 403; its success flag is set exactly when the status is 200 or 201; a caught
error, the only source of an error text, is answered with 500; and every response is a success,
a 400 with one of the texts for an invalid request, a 404 with one of the texts for a document
that was not found, or the response of a `catch` block.  Each failure is answered with the
status of its kind.  Status 400 answers an invalid request: no context named, the landlord of
the listing (owner of the roommate request) naming no participant or naming the text of the
own identifier, a listing (roommate request) without an owner, and a message body that is
missing or blank.  Status 404 answers a well-formed identifier of no listing, of no roommate
request or of no conversation, and a caller who is not a participant of the conversation.
Status 500 answers what the driver or the validator throws: an identifier text that cannot be
cast, and a stored conversation the validator rejects on saving. -/
theorem perform_status (store : Store) (call : Call) (env : Env) :
    ((perform store call env).1.status = 200 ∨ (perform store call env).1.status = 201
        ∨ (perform store call env).1.status = 400 ∨ (perform store call env).1.status = 404
        ∨ (perform store call env).1.status = 500)
      ∧ (perform store call env).1.status ≠ 403
      ∧ ((perform store call env).1.success = true
          ↔ (perform store call env).1.status = 200 ∨ (perform store call env).1.status = 201)
      ∧ ((perform store call env).1.error ≠ none → (perform store call env).1.status = 500)
      -- the forms of response
      ∧ (((perform store call env).1.success = true
            ∧ ((perform store call env).1.status = 200 ∨ (perform store call env).1.status = 201)
            ∧ (perform store call env).1.error = none)
          ∨ (∃ m ∈ ["Provide listingId or roommateRequestId.",
                "Provide participantId when landlord starts a conversation.",
                "Provide participantId when starting a conversation about your own request.",
                "Conversation requires another participant.",
                "Cannot start a conversation with yourself.",
                "Message body is required."],
              (perform store call env).1 = Response.fail 400 m)
          ∨ (∃ m ∈ ["Listing not found.", "Roommate request not found.",
                "Conversation not found."],
              (perform store call env).1 = Response.fail 404 m)
          ∨ (∃ m e, (perform store call env).1 = Response.thrown m e))
      -- invalid requests: status 400
      ∧ (∀ requester req, call = Call.start requester req →
          truthy? req.listingId = none → truthy? req.roommateRequestId = none →
          (perform store call env).1 = Response.fail 400 "Provide listingId or roommateRequestId.")
      ∧ (∀ requester req t id listing, call = Call.start requester req →
          truthy? req.listingId = some t → castObjectId t = some id →
          store.listings.find? (fun l => l._id = id) = some listing →
          (listing.landlord = some requester → truthy? req.participantId = none →
              (perform store call env).1
                = Response.fail 400 "Provide participantId when landlord starts a conversation.")
            ∧ (listing.landlord = some requester →
                req.participantId = some requester.toString →
                (perform store call env).1
                  = Response.fail 400 "Cannot start a conversation with yourself.")
            ∧ (listing.landlord = none →
                (perform store call env).1
                  = Response.fail 400 "Conversation requires another participant."))
      ∧ (∀ requester req t id request, call = Call.start requester req →
          truthy? req.listingId = none → truthy? req.roommateRequestId = some t →
          castObjectId t = some id →
          store.roommateRequests.find? (fun r => r._id = id) = some request →
          (request.user = some requester → truthy? req.participantId = none →
              (perform store call env).1
                = Response.fail 400
                    "Provide participantId when starting a conversation about your own request.")
            ∧ (request.user = some requester →
                req.participantId = some requester.toString →
                (perform store call env).1
                  = Response.fail 400 "Cannot start a conversation with yourself.")
            ∧ (request.user = none →
                (perform store call env).1
                  = Response.fail 400 "Conversation requires another participant."))
      ∧ (∀ user id body, call = Call.send user id body →
          (body = none ∨ ∃ text, body = some text ∧ jsTrim text = "") →
          (perform store call env).1 = Response.fail 400 "Message body is required.")
      -- documents that are not found and callers who are not participants: status 404
      ∧ (∀ requester req t id, call = Call.start requester req →
          truthy? req.listingId = some t → castObjectId t = some id →
          store.listings.find? (fun l => l._id = id) = none →
          (perform store call env).1 = Response.fail 404 "Listing not found.")
      ∧ (∀ requester req t id, call = Call.start requester req →
          truthy? req.listingId = none → truthy? req.roommateRequestId = some t →
          castObjectId t = some id →
          store.roommateRequests.find? (fun r => r._id = id) = none →
          (perform store call env).1 = Response.fail 404 "Roommate request not found.")
      ∧ (∀ user id cid,
          (call = Call.read user id ∨ (∃ query, call = Call.page user id query)
            ∨ ∃ text, call = Call.send user id (some text) ∧ jsTrim text ≠ "") →
          castObjectId id = some cid →
          (store.findConversationById cid = none
            ∨ ∃ conv, store.findConversationById cid = some conv ∧ user ∉ conv.participants) →
          (perform store call env).1 = Response.fail 404 "Conversation not found.")
      -- what the driver and the validator throw: status 500
      ∧ (∀ requester req t, call = Call.start requester req →
          truthy? req.listingId = some t → castObjectId t = none →
          (perform store call env).1
            = Response.thrown "Unable to start conversation" (Failure.cast "Listing" "_id" t))
      ∧ (∀ requester req t, call = Call.start requester req →
          truthy? req.listingId = none → truthy? req.roommateRequestId = some t →
          castObjectId t = none →
          (perform store call env).1
            = Response.thrown "Unable to start conversation"
                (Failure.cast "RoommateRequest" "_id" t))
      ∧ (∀ requester req ctx p, call = Call.start requester req →
          resolveContext store requester req = Except.ok ctx →
          truthy? ctx.otherParticipantId = some p → p ≠ requester.toString →
          castObjectId p = none →
          (perform store call env).1
            = Response.thrown "Unable to start conversation" (Failure.objectId p))
      ∧ (∀ user id,
          (call = Call.read user id ∨ (∃ query, call = Call.page user id query)
            ∨ ∃ text, call = Call.send user id (some text) ∧ jsTrim text ≠ "") →
          castObjectId id = none →
          (perform store call env).1.status = 500
            ∧ (perform store call env).1.error = some (Failure.cast "Conversation" "_id" id))
      ∧ (∀ user id cid conv why,
          (call = Call.read user id
            ∨ ∃ text, call = Call.send user id (some text) ∧ jsTrim text ≠ "") →
          castObjectId id = some cid → store.findConversationById cid = some conv →
          user ∈ conv.participants → validateContext conv = Except.error why →
          (perform store call env).1.status = 500
            ∧ (perform store call env).1.error = some (Failure.validation why)) := by
  have hrep : (perform store call env).1.reported := by
    cases call with
    | start requester req => exact startConversation_reported store requester req env
    | list user => exact reported_data _
    | page user id query => exact getConversationMessages_reported store user id query
    | send user id body => exact sendConversationMessage_reported store user id body env
    | read user id => exact markConversationRead_reported store user id
  obtain ⟨h1, h2, h3⟩ := regular_of_reported hrep
  refine ⟨h1, ?_, h2, h3, hrep, ?_, ?_, ?_, ?_, ?_, ?_, ?_, ?_, ?_, ?_, ?_, ?_⟩
  · rcases h1 with h | h | h | h | h <;> rw [h] <;> decide
  · rintro requester req rfl hl hq
    simp [perform, startConversation, resolveContext, hl, hq]
  · rintro requester req t id listing rfl hl ht hfind
    refine ⟨fun hland hp => ?_, fun hland hp => ?_, fun hland => ?_⟩
    · have hr : resolveContext store requester req = Except.error
          (Response.fail 400 "Provide participantId when landlord starts a conversation.") := by
        simp only [resolveContext, hl]
        exact resolveListing_owner_alone ht hfind hland hp
      simp [perform, startConversation, hr]
    · have hp2 : truthy? req.participantId = some requester.toString := by
        simp [hp, truthy?, toString_ne_empty]
      have hr : resolveContext store requester req
          = Except.ok ⟨some requester.toString, some id, none⟩ := by
        simp only [resolveContext, hl]
        exact resolveListing_owner ht hfind hland hp2
      simp [perform, startConversation_same_text env hr rfl]
    · have hr : resolveContext store requester req = Except.ok ⟨none, some id, none⟩ := by
        simp [resolveContext, hl, resolveListing, ht, hfind, hland]
      simp [perform, startConversation, hr, truthy?]
  · rintro requester req t id request rfl hl hq ht hfind
    refine ⟨fun hown hp => ?_, fun hown hp => ?_, fun hown => ?_⟩
    · have hr : resolveContext store requester req = Except.error
          (Response.fail 400
            "Provide participantId when starting a conversation about your own request.") := by
        simp only [resolveContext, hl, hq]
        exact resolveRoommateRequest_owner_alone ht hfind hown hp
      simp [perform, startConversation, hr]
    · have hp2 : truthy? req.participantId = some requester.toString := by
        simp [hp, truthy?, toString_ne_empty]
      have hr : resolveContext store requester req
          = Except.ok ⟨some requester.toString, none, some id⟩ := by
        simp only [resolveContext, hl, hq]
        exact resolveRoommateRequest_owner ht hfind hown hp2
      simp [perform, startConversation_same_text env hr rfl]
    · have hr : resolveContext store requester req = Except.ok ⟨none, none, some id⟩ := by
        simp [resolveContext, hl, hq, resolveRoommateRequest, ht, hfind, hown]
      simp [perform, startConversation, hr, truthy?]
  · rintro user id body rfl hblank
    rcases hblank with rfl | ⟨text, rfl, htrim⟩
    · simp [perform, sendConversationMessage, truthy?]
    · by_cases he : text = ""
      · simp [perform, sendConversationMessage, truthy?, he]
      · simp [perform, sendConversationMessage, truthy?, he, htrim]
  · rintro requester req t id rfl hl ht hfind
    simp [perform, startConversation, resolveContext, hl, resolveListing, ht, hfind]
  · rintro requester req t id rfl hl hq ht hfind
    simp [perform, startConversation, resolveContext, hl, hq, resolveRoommateRequest, ht, hfind]
  · rintro user id cid hcall hc hmiss
    have hpart : ∀ conv, store.findConversationById cid = some conv →
        ensureParticipant conv user = false := by
      intro conv hf
      rcases hmiss with h | ⟨c2, h, hn⟩
      · rw [h] at hf; cases hf
      · rw [h] at hf; cases hf; exact ensureParticipant_false hn
    rcases hcall with rfl | ⟨query, rfl⟩ | ⟨text, rfl, hbody⟩
    · cases hf : store.findConversationById cid with
      | none => simp [perform, markConversationRead, hc, hf]
      | some conv => simp [perform, markConversationRead, hc, hf, hpart conv hf]
    · cases hf : store.findConversationById cid with
      | none => simp [perform, getConversationMessages, hc, hf]
      | some conv => simp [perform, getConversationMessages, hc, hf, hpart conv hf]
    · have ht := truthy?_of_trim_ne hbody
      cases hf : store.findConversationById cid with
      | none => simp [perform, sendConversationMessage, ht, hbody, hc, hf]
      | some conv =>
        simp [perform, sendConversationMessage, ht, hbody, hc, hf, hpart conv hf]
  · rintro requester req t rfl hl ht
    simp [perform, startConversation, resolveContext, hl, resolveListing, ht]
  · rintro requester req t rfl hl hq ht
    simp [perform, startConversation, resolveContext, hl, hq, resolveRoommateRequest, ht]
  · rintro requester req ctx p rfl hr hp hne hcast
    simp [perform, startConversation, hr, hp, hne, hcast]
  · rintro user id hcall hc
    rcases hcall with rfl | ⟨query, rfl⟩ | ⟨text, rfl, hbody⟩
    · simp [perform, markConversationRead, hc, Response.thrown]
    · simp [perform, getConversationMessages, hc, Response.thrown]
    · have ht := truthy?_of_trim_ne hbody
      simp [perform, sendConversationMessage, ht, hbody, hc, Response.thrown]
  · rintro user id cid conv why hcall hc hfound hu hv
    rcases hcall with rfl | ⟨text, rfl, hbody⟩
    · simp [perform, markConversationRead_rejected hc hfound hu hv, Response.thrown]
    · simp [perform, sendConversationMessage_rejected env hc hfound hu hbody hv, Response.thrown]

/-- Instances of `perform_status`: Alice asking about her own listing without naming a
participant is answered 400, Bob asking about a listing that does not exist 404, Carol marking
the conversation of Bob and Alice as read 404, Bob sending a blank body 400, and Carol marking
an identifier that is not well-formed 500. -/
theorem perform_status_witness :
    (perform Demo.listed (Call.start Demo.alice Demo.askFlat) Demo.env).1
        = Response.fail 400 "Provide participantId when landlord starts a conversation."
      ∧ (perform Demo.listed (Call.start Demo.bob ⟨some Demo.strayText, none, none⟩) Demo.env).1
        = Response.fail 404 "Listing not found."
      ∧ (Demo.carol ∉ Demo.chatDoc.participants
        ∧ (perform Demo.store (Call.read Demo.carol Demo.chatText) Demo.env).1
          = Response.fail 404 "Conversation not found.")
      ∧ (perform Demo.store (Call.send Demo.bob Demo.chatText (some " \n")) Demo.env).1
        = Response.fail 400 "Message body is required."
      ∧ ((perform Demo.store (Call.read Demo.carol "no such id") Demo.env).1.status = 500
        ∧ (perform Demo.store (Call.read Demo.carol "no such id") Demo.env).1.error
          = some (Failure.cast "Conversation" "_id" "no such id")) := by
  refine ⟨?_, ?_, ⟨by decide, ?_⟩, ?_, ?_⟩
  · obtain ⟨_, _, _, _, _, _, h, _⟩ :=
      perform_status Demo.listed (Call.start Demo.alice Demo.askFlat) Demo.env
    exact (h Demo.alice Demo.askFlat "000000000000000000000001" Demo.flat
      ⟨Demo.flat, some Demo.alice⟩ rfl (by decide) (by decide) (by decide)).1 rfl (by decide)
  · obtain ⟨_, _, _, _, _, _, _, _, _, h, _⟩ :=
      perform_status Demo.listed (Call.start Demo.bob ⟨some Demo.strayText, none, none⟩) Demo.env
    exact h Demo.bob ⟨some Demo.strayText, none, none⟩ Demo.strayText (ObjectId.ofDigits 15 15)
      rfl (by decide) (by decide) (by decide)
  · obtain ⟨_, _, _, _, _, _, _, _, _, _, _, h, _⟩ :=
      perform_status Demo.store (Call.read Demo.carol Demo.chatText) Demo.env
    exact h Demo.carol Demo.chatText Demo.chat (Or.inl rfl) (by decide)
      (Or.inr ⟨Demo.chatDoc, by decide, by decide⟩)
  · obtain ⟨_, _, _, _, _, _, _, _, h, _⟩ :=
      perform_status Demo.store (Call.send Demo.bob Demo.chatText (some " \n")) Demo.env
    exact h Demo.bob Demo.chatText (some " \n") rfl (Or.inr ⟨" \n", rfl, by decide⟩)
  · obtain ⟨_, _, _, _, _, _, _, _, _, _, _, _, _, _, _, h, _⟩ :=
      perform_status Demo.store (Call.read Demo.carol "no such id") Demo.env
    exact h Demo.carol "no such id" (Or.inl rfl) (by decide)
/-! ## Resolving the context -/

/-- C29 as stated fails: Alice is not the owner of the roommate request the request names, Bob
is, but the request names her own listing as well; the listing is taken, and `participantId`
decides.  With Carol named a conversation of Alice and Carol is created, not one of Alice and
Bob, and without `participantId` the same request is refused with status 400. -/
theorem startConversation_uses_participantId_with_listing :
    castObjectId "000000000000000000000003" = some Demo.room
      ∧ Demo.shared.roommateRequests.find? (fun r => r._id = Demo.room)
        = some ⟨Demo.room, some Demo.bob⟩
      ∧ Demo.askCarol.roommateRequestId = some "000000000000000000000003"
      ∧ Demo.bob ≠ Demo.alice
      ∧ (startConversation Demo.shared Demo.alice Demo.askCarol Demo.env).1.status = 200
      ∧ (startConversation Demo.shared Demo.alice Demo.askCarol Demo.env).2.conversations
        = [⟨Demo.env.newId, some Demo.flat, none, [Demo.alice, Demo.carol], none, 20, []⟩]
      ∧ startConversation Demo.shared Demo.alice { Demo.askCarol with participantId := none }
          Demo.env
        = (Response.fail 400 "Provide participantId when landlord starts a conversation.",
            Demo.shared) := by
  decide

/-- C29, amended: when the requester is not the landlord of the listing named by `listingId`,
or, no `listingId` being given, not the owner of the roommate request named by
`roommateRequestId`, `participantId` plays no part: the call is the lookup-or-create for the
requester and the landlord (owner), it equals the call without `participantId`, it succeeds, and
the conversation it returns or creates has exactly the requester and the landlord (owner) as
participants. -/
theorem startConversation_ignores_participantId (store : Store) (requester owner : ObjectId)
    (t : String) (id : ObjectId) (req : StartRequest) (env : Env)
    (ht : castObjectId t = some id)
    (hctx : (truthy? req.listingId = some t
          ∧ ∃ listing, store.listings.find? (fun l => l._id = id) = some listing
            ∧ listing.landlord = some owner)
      ∨ (truthy? req.listingId = none ∧ truthy? req.roommateRequestId = some t
          ∧ ∃ request, store.roommateRequests.find? (fun r => r._id = id) = some request
            ∧ request.user = some owner))
    (hne : owner ≠ requester) :
    startConversation store requester req env
        = startConversation store requester { req with participantId := none } env
      ∧ (startConversation store requester req env).1.status = 200
      ∧ ∃ (l r : Option ObjectId) (conv : Conversation),
          startConversation store requester req env
              = findOrCreate store [requester, owner] l r env
            ∧ (∀ x, x ∈ conv.participants ↔ x = requester ∨ x = owner)
            ∧ ((conv ∈ store.conversations
                  ∧ startConversation store requester req env
                    = (Response.data
                        (Payload.conversation (populateConversation store conv._id)), store))
              ∨ (conv = ⟨env.newId, l, r, [requester, owner], none, env.now, []⟩
                  ∧ (startConversation store requester req env).2
                    = { store with conversations := store.conversations ++ [conv] })) := by
  obtain ⟨l, r, hone, hreq, hreq2⟩ : ∃ l r : Option ObjectId, l.isSome ≠ r.isSome
      ∧ startConversation store requester req env
          = findOrCreate store [requester, owner] l r env
      ∧ startConversation store requester { req with participantId := none } env
          = findOrCreate store [requester, owner] l r env := by
    rcases hctx with ⟨hl, listing, hfind, hland⟩ | ⟨hl, hq, request, hfind, hown⟩
    · refine ⟨some id, none, by simp, ?_, ?_⟩
      · have hr : resolveContext store requester req
            = Except.ok ⟨some owner.toString, some id, none⟩ := by
          simp only [resolveContext, hl]
          exact resolveListing_other _ ht hfind hland hne
        exact startConversation_resolved env hr (castObjectId_toString owner) hne
      · have hr : resolveContext store requester { req with participantId := none }
            = Except.ok ⟨some owner.toString, some id, none⟩ := by
          simp only [resolveContext, hl]
          exact resolveListing_other _ ht hfind hland hne
        exact startConversation_resolved env hr (castObjectId_toString owner) hne
    · refine ⟨none, some id, by simp, ?_, ?_⟩
      · have hr : resolveContext store requester req
            = Except.ok ⟨some owner.toString, none, some id⟩ := by
          simp only [resolveContext, hl, hq]
          exact resolveRoommateRequest_other _ ht hfind hown hne
        exact startConversation_resolved env hr (castObjectId_toString owner) hne
      · have hr : resolveContext store requester { req with participantId := none }
            = Except.ok ⟨some owner.toString, none, some id⟩ := by
          simp only [resolveContext, hl, hq]
          exact resolveRoommateRequest_other _ ht hfind hown hne
        exact startConversation_resolved env hr (castObjectId_toString owner) hne
  refine ⟨hreq.trans hreq2.symm, ?_, l, r, ?_⟩
  · rw [hreq]; exact findOrCreate_status _ _ _ _ _ hone
  · obtain ⟨conv, hpair, hcase⟩ := findOrCreate_pair store requester owner l r env
      (Ne.symm hne) hone
    refine ⟨conv, hreq, hpair, ?_⟩
    rw [hreq]
    exact hcase

/-- C30: when a start request names a listing, a roommate request it names as well plays no
part: the roommate requests are not consulted, the call equals the call without
`roommateRequestId`, the resolved context is the listing alone, and a conversation the call
creates carries the listing and no roommate request and passes the validator. -/
theorem startConversation_listing_first (store : Store) (requester : ObjectId)
    (req : StartRequest) (env : Env) (t q : String) (hl : truthy? req.listingId = some t)
    (_hq : truthy? req.roommateRequestId = some q) :
    (∀ others : List RoommateRequest,
        resolveContext { store with roommateRequests := others } requester req
          = resolveContext store requester req)
      ∧ startConversation store requester req env
          = startConversation store requester { req with roommateRequestId := none } env
      ∧ (∀ ctx, resolveContext store requester req = Except.ok ctx →
          ctx.listing = castObjectId t ∧ ctx.listing ≠ none ∧ ctx.roommateRequest = none)
      ∧ ((startConversation store requester req env).2 = store
          ∨ ∃ doc : Conversation,
              (startConversation store requester req env).2
                  = { store with conversations := store.conversations ++ [doc] }
                ∧ doc.listing = castObjectId t ∧ doc.listing ≠ none
                ∧ doc.roommateRequest = none
                ∧ validateContext doc = Except.ok ()) := by
  have hres : ∀ s : Store, ∀ r : StartRequest, truthy? r.listingId = some t →
      r.participantId = req.participantId → s.listings = store.listings →
      resolveContext s requester r = resolveListing store requester t req.participantId := by
    intro s r hrl hrp hs
    simp only [resolveContext, hrl, hrp]
    simp [resolveListing, hs]
  have hctx : ∀ ctx, resolveContext store requester req = Except.ok ctx →
      ctx.listing = castObjectId t ∧ ctx.listing ≠ none ∧ ctx.roommateRequest = none := by
    intro ctx hr
    rw [hres store req hl rfl rfl] at hr
    obtain ⟨lid, hlid, hcl, hcr⟩ := resolveListing_ok hr
    exact ⟨hcl.trans hlid.symm, by simp [hcl], hcr⟩
  refine ⟨?_, ?_, hctx, ?_⟩
  · intro others
    exact (hres { store with roommateRequests := others } req hl rfl rfl).trans
      (hres store req hl rfl rfl).symm
  · have h2 := hres store { req with roommateRequestId := none } hl rfl rfl
    have h1 := hres store req hl rfl rfl
    simp only [startConversation, h1, h2]
  · cases hr : resolveContext store requester req with
    | error response => simp [startConversation, hr]
    | ok ctx =>
      obtain ⟨h1, h2, h3⟩ := hctx ctx hr
      rcases startConversation_appends env hr with h | ⟨doc, hdoc, hdl, hdr, hdv⟩
      · exact Or.inl h
      · exact Or.inr ⟨doc, hdoc, hdl.trans h1, by rw [hdl]; exact h2, hdr.trans h3, hdv⟩

/-- Instances of `startConversation_ignores_participantId`: Bob asks about the listing of Alice
and names Carol; Carol asks about the roommate request of Bob, naming no listing, and names
Alice. -/
theorem startConversation_ignores_participantId_witness :
    (castObjectId "000000000000000000000001" = some Demo.flat
        ∧ truthy? (StartRequest.mk (some "000000000000000000000001")
            (some "ccccccccccccccccccccccc3") none).listingId
          = some "000000000000000000000001"
        ∧ Demo.listed.listings.find? (fun l => l._id = Demo.flat)
          = some ⟨Demo.flat, some Demo.alice⟩
        ∧ Demo.alice ≠ Demo.bob)
      ∧ (truthy? (StartRequest.mk none (some "aaaaaaaaaaaaaaaaaaaaaaa1")
            (some "000000000000000000000003")).listingId = none
        ∧ Demo.shared.roommateRequests.find? (fun r => r._id = Demo.room)
          = some ⟨Demo.room, some Demo.bob⟩
        ∧ Demo.bob ≠ Demo.carol
        ∧ startConversation Demo.shared Demo.carol
              ⟨none, some "aaaaaaaaaaaaaaaaaaaaaaa1", some "000000000000000000000003"⟩ Demo.env
            = startConversation Demo.shared Demo.carol
                ⟨none, none, some "000000000000000000000003"⟩ Demo.env
        ∧ (startConversation Demo.shared Demo.carol
              ⟨none, some "aaaaaaaaaaaaaaaaaaaaaaa1", some "000000000000000000000003"⟩
              Demo.env).2.conversations
          = [⟨Demo.env.newId, none, some Demo.room, [Demo.carol, Demo.bob], none, 20, []⟩])
      ∧ startConversation Demo.listed Demo.bob
            ⟨some "000000000000000000000001", some "ccccccccccccccccccccccc3", none⟩ Demo.env
          = startConversation Demo.listed Demo.bob
              { (StartRequest.mk (some "000000000000000000000001")
                  (some "ccccccccccccccccccccccc3") none) with participantId := none } Demo.env
      ∧ (startConversation Demo.listed Demo.bob
            ⟨some "000000000000000000000001", some "ccccccccccccccccccccccc3", none⟩
            Demo.env).1.status = 200
      ∧ ∃ (l r : Option ObjectId) (conv : Conversation),
          startConversation Demo.listed Demo.bob
                ⟨some "000000000000000000000001", some "ccccccccccccccccccccccc3", none⟩
                Demo.env
              = findOrCreate Demo.listed [Demo.bob, Demo.alice] l r Demo.env
            ∧ (∀ x, x ∈ conv.participants ↔ x = Demo.bob ∨ x = Demo.alice)
            ∧ ((conv ∈ Demo.listed.conversations
                  ∧ startConversation Demo.listed Demo.bob
                      ⟨some "000000000000000000000001", some "ccccccccccccccccccccccc3", none⟩
                      Demo.env
                    = (Response.data
                        (Payload.conversation (populateConversation Demo.listed conv._id)),
                        Demo.listed))
              ∨ (conv = ⟨Demo.env.newId, l, r, [Demo.bob, Demo.alice], none, Demo.env.now, []⟩
                  ∧ (startConversation Demo.listed Demo.bob
                      ⟨some "000000000000000000000001", some "ccccccccccccccccccccccc3", none⟩
                      Demo.env).2
                    = { Demo.listed with
                        conversations := Demo.listed.conversations ++ [conv] })) :=
  ⟨⟨by decide, by decide, by decide, by decide⟩,
    ⟨by decide, by decide, by decide,
      (startConversation_ignores_participantId Demo.shared Demo.carol Demo.bob
        "000000000000000000000003" Demo.room
        ⟨none, some "aaaaaaaaaaaaaaaaaaaaaaa1", some "000000000000000000000003"⟩ Demo.env
        (by decide)
        (Or.inr ⟨by decide, by decide, ⟨Demo.room, some Demo.bob⟩, by decide, rfl⟩)
        (by decide)).1,
      by decide⟩,
    startConversation_ignores_participantId Demo.listed Demo.bob Demo.alice
      "000000000000000000000001" Demo.flat
      ⟨some "000000000000000000000001", some "ccccccccccccccccccccccc3", none⟩ Demo.env
      (by decide) (Or.inl ⟨by decide, ⟨Demo.flat, some Demo.alice⟩, by decide, rfl⟩)
      (by decide)⟩

/-- Instance of `startConversation_listing_first`: Bob names the listing of Alice and his own
roommate request. -/
theorem startConversation_listing_first_witness :
    (truthy? Demo.askBoth.listingId = some "000000000000000000000001"
        ∧ truthy? Demo.askBoth.roommateRequestId = some "000000000000000000000003")
      ∧ (∀ others : List RoommateRequest,
          resolveContext { Demo.shared with roommateRequests := others } Demo.bob Demo.askBoth
            = resolveContext Demo.shared Demo.bob Demo.askBoth)
      ∧ startConversation Demo.shared Demo.bob Demo.askBoth Demo.env
          = startConversation Demo.shared Demo.bob
              { Demo.askBoth with roommateRequestId := none } Demo.env
      ∧ (∀ ctx, resolveContext Demo.shared Demo.bob Demo.askBoth = Except.ok ctx →
          ctx.listing = castObjectId "000000000000000000000001" ∧ ctx.listing ≠ none
            ∧ ctx.roommateRequest = none)
      ∧ ((startConversation Demo.shared Demo.bob Demo.askBoth Demo.env).2 = Demo.shared
          ∨ ∃ doc : Conversation,
              (startConversation Demo.shared Demo.bob Demo.askBoth Demo.env).2
                  = { Demo.shared with conversations := Demo.shared.conversations ++ [doc] }
                ∧ doc.listing = castObjectId "000000000000000000000001" ∧ doc.listing ≠ none
                ∧ doc.roommateRequest = none
                ∧ validateContext doc = Except.ok ()) :=
  ⟨⟨by decide, by decide⟩,
    startConversation_listing_first Demo.shared Demo.bob Demo.askBoth Demo.env
      "000000000000000000000001" "000000000000000000000003" (by decide) (by decide)⟩

/-! ## Uniqueness and concurrent starts -/

/-- C25 as stated fails: the store accepts a conversation whose context and participants are
those of a stored conversation; after the write both are stored. -/
theorem createConversation_accepts_duplicate :
    sameTopic Demo.chatDoc
        ⟨ObjectId.ofDigits 2 0, some Demo.flat, none, [Demo.alice, Demo.bob], none, 20, []⟩
      ∧ createConversation Demo.store
          ⟨ObjectId.ofDigits 2 0, some Demo.flat, none, [Demo.alice, Demo.bob], none, 20, []⟩
        = Except.ok
            { Demo.store with
              conversations :=
                [Demo.chatDoc,
                  ⟨ObjectId.ofDigits 2 0, some Demo.flat, none, [Demo.alice, Demo.bob], none,
                    20, []⟩] } :=
  ⟨by decide, rfl⟩

/-- C25, amended: the store checks only the context rule when a conversation is created; that
no two conversations have the same context and the same set of participants is kept by the
lookup `startConversation` makes before it creates, and holds in every store reachable by
sequential calls. -/
theorem reachable_unique (store : Store) (h : Reachable store) :
    (∀ (s : Store) (doc : Conversation), validateContext doc = Except.ok () →
        createConversation s doc
          = Except.ok { s with conversations := s.conversations ++ [doc] })
      ∧ store.conversations.Pairwise fun a b => ¬sameTopic a b := by
  refine ⟨fun s doc hv => by simp [createConversation, hv], ?_⟩
  induction h with
  | empty listings roommateRequests => exact List.Pairwise.nil
  | outside listings roommateRequests _ ih => exact ih
  | call call env hprev _ ih => exact Effect.unique hprev.inv ih (perform_effect _ call env)

/-- Instance of `reachable_unique`: the store after Bob wrote and Alice answered. -/
theorem reachable_unique_witness :
    Reachable Demo.answered
      ∧ (∀ (s : Store) (doc : Conversation), validateContext doc = Except.ok () →
          createConversation s doc
            = Except.ok { s with conversations := s.conversations ++ [doc] })
      ∧ Demo.answered.conversations.Pairwise fun a b => ¬sameTopic a b :=
  ⟨Demo.reachable_answered, reachable_unique Demo.answered Demo.reachable_answered⟩

/-- C26 as stated fails: Bob's request about the listing of Alice is the lookup and the
completion for the pair Bob and Alice; when two such calls run concurrently and both lookups
return before either goes on, each creates a conversation: the two calls return conversations
with different identifiers, and two conversations for the pair and the listing are stored. -/
theorem concurrent_starts_create_two :
    startConversation Demo.listed Demo.bob Demo.askFlat Demo.env
        = completeStart
            (lookupConversation Demo.listed [Demo.bob, Demo.alice] (some Demo.flat) none)
            Demo.listed [Demo.bob, Demo.alice] (some Demo.flat) none Demo.env
      ∧ startTwiceInterleaved Demo.listed [Demo.bob, Demo.alice] (some Demo.flat) none
          Demo.env Demo.later
        = ((Response.data (Payload.conversation (some
                ⟨⟨Demo.env.newId, some Demo.flat, none, [Demo.bob, Demo.alice], none, 20, []⟩,
                  none⟩)),
            Response.data (Payload.conversation (some
                ⟨⟨Demo.later.newId, some Demo.flat, none, [Demo.bob, Demo.alice], none, 30, []⟩,
                  none⟩))),
            { Demo.listed with
              conversations :=
                [⟨Demo.env.newId, some Demo.flat, none, [Demo.bob, Demo.alice], none, 20, []⟩,
                  ⟨Demo.later.newId, some Demo.flat, none, [Demo.bob, Demo.alice], none, 30,
                    []⟩] })
      ∧ Demo.env.newId ≠ Demo.later.newId := by
  decide

/-- C26, amended: for a pair and a context of which no conversation is stored, two calls of
which the second starts when the first has finished return the same response, and exactly one
conversation for the pair and context is stored afterwards; two calls whose lookups both return
before either goes on store two. -/
theorem start_twice (store : Store) (a b : ObjectId) (l r : Option ObjectId) (envA envB : Env)
    (hone : l.isSome ≠ r.isSome) (hnew : lookupConversation store [a, b] l r = none) :
    (startTwiceInSequence store [a, b] l r envA envB).1.2
        = (startTwiceInSequence store [a, b] l r envA envB).1.1
      ∧ (startTwiceInSequence store [a, b] l r envA envB).1.1.status = 200
      ∧ (startTwiceInSequence store [a, b] l r envA envB).2
        = (findOrCreate store [a, b] l r envA).2
      ∧ ((startTwiceInSequence store [a, b] l r envA envB).2.conversations.filter
          (matchesFilter [a, b] l r)).length = 1
      ∧ ((startTwiceInterleaved store [a, b] l r envA envB).2.conversations.filter
          (matchesFilter [a, b] l r)).length = 2 := by
  have hseq : startTwiceInSequence store [a, b] l r envA envB
      = (((findOrCreate store [a, b] l r envA).1,
          (findOrCreate (findOrCreate store [a, b] l r envA).2 [a, b] l r envB).1),
          (findOrCreate (findOrCreate store [a, b] l r envA).2 [a, b] l r envB).2) := by
    simp only [startTwiceInSequence, ← findOrCreate_eq_complete]
  have hnone : store.conversations.filter (matchesFilter [a, b] l r) = [] := by
    rw [List.filter_eq_nil_iff]
    unfold lookupConversation at hnew
    rw [List.find?_eq_none] at hnew
    exact hnew
  have hvA : validateContext ⟨envA.newId, l, r, [a, b], none, envA.now, []⟩ = Except.ok () := by
    cases l <;> cases r <;> simp at hone <;> simp [validateContext]
  have hvB : validateContext ⟨envB.newId, l, r, [a, b], none, envB.now, []⟩ = Except.ok () := by
    cases l <;> cases r <;> simp at hone <;> simp [validateContext]
  have hfirst : (findOrCreate store [a, b] l r envA).2
      = { store with
          conversations := store.conversations ++
            [⟨envA.newId, l, r, [a, b], none, envA.now, []⟩] } := by
    unfold lookupConversation at hnew
    simp [findOrCreate, hnew, hvA]
  rw [hseq, findOrCreate_idem]
  refine ⟨rfl, findOrCreate_status _ _ _ _ _ hone, rfl, ?_, ?_⟩
  · show ((findOrCreate store [a, b] l r envA).2.conversations.filter _).length = 1
    rw [hfirst]
    simp [List.filter_append, hnone, matchesFilter_created]
  · simp only [startTwiceInterleaved, hnew, completeStart, createConversation, hvA, hvB]
    simp [List.filter_append, hnone, matchesFilter_created]

/-- Instance of `start_twice`: Bob and Alice about the listing of Alice. -/
theorem start_twice_witness :
    ((some Demo.flat).isSome ≠ (none : Option ObjectId).isSome
        ∧ lookupConversation Demo.listed [Demo.bob, Demo.alice] (some Demo.flat) none = none)
      ∧ (startTwiceInSequence Demo.listed [Demo.bob, Demo.alice] (some Demo.flat) none Demo.env
            Demo.later).1.2
          = (startTwiceInSequence Demo.listed [Demo.bob, Demo.alice] (some Demo.flat) none
              Demo.env Demo.later).1.1
      ∧ (startTwiceInSequence Demo.listed [Demo.bob, Demo.alice] (some Demo.flat) none Demo.env
            Demo.later).1.1.status = 200
      ∧ (startTwiceInSequence Demo.listed [Demo.bob, Demo.alice] (some Demo.flat) none Demo.env
            Demo.later).2
          = (findOrCreate Demo.listed [Demo.bob, Demo.alice] (some Demo.flat) none Demo.env).2
      ∧ ((startTwiceInSequence Demo.listed [Demo.bob, Demo.alice] (some Demo.flat) none
            Demo.env Demo.later).2.conversations.filter
            (matchesFilter [Demo.bob, Demo.alice] (some Demo.flat) none)).length = 1
      ∧ ((startTwiceInterleaved Demo.listed [Demo.bob, Demo.alice] (some Demo.flat) none
            Demo.env Demo.later).2.conversations.filter
            (matchesFilter [Demo.bob, Demo.alice] (some Demo.flat) none)).length = 2 :=
  ⟨⟨by decide, by decide⟩,
    start_twice Demo.listed Demo.bob Demo.alice (some Demo.flat) none Demo.env Demo.later
      (by decide) (by decide)⟩

/-! ## Review counts -/

/-- C28, evaluated where it fails: every request's count is right; Carol deletes her review of
the request of Bob through an URL that names the request of Alice.  The call succeeds, the
review is gone, the count is recomputed for the request of Alice, and the request of Bob keeps
the count 1 with no review left that references it. -/
theorem deleteRoommateReview_leaves_count :
    Demo.reviewed.consistent
      ∧ deleteRoommateReview Demo.reviewed Demo.carol false "000000000000000000000004"
          "444444444444444444444441"
        = (⟨200, true, some "Review deleted", Payload.none, none⟩,
            { requests := [⟨Demo.attic, some Demo.alice, 0⟩, ⟨Demo.room, some Demo.bob, 1⟩]
              reviews := [] })
      ∧ ¬(deleteRoommateReview Demo.reviewed Demo.carol false "000000000000000000000004"
          "444444444444444444444441").2.consistent := by
  decide

/-! ## Paging backwards -/

/-- C27 as stated fails: of three messages, two created at the same instant, paging backwards
with limit 2 returns the newest and one of the two; the next page, asked for before that
instant, is empty, and the other of the two is never returned. -/
theorem pageBackward_skips_tied :
    pageBackward 10 Demo.tied Demo.alice Demo.chatText 2 none = [Demo.memo 1 1, Demo.memo 3 2]
      ∧ Demo.memo 2 1 ∈ Demo.tied.messages
      ∧ (Demo.memo 2 1).conversation = Demo.chat
      ∧ (Demo.memo 2 1)._id ∉
          (pageBackward 10 Demo.tied Demo.alice Demo.chatText 2 none).map fun m => m._id := by
  decide

/-- C27, amended: for a participant of a stored conversation whose messages have pairwise
distinct creation times and a positive limit, paging backwards with more requests than the
conversation has messages returns every message of the conversation exactly once, in ascending
order of creation time. -/
theorem pageBackward_complete (store : Store) (u : ObjectId) (c : String) (cid : ObjectId)
    (conv : Conversation) (limit fuel : Nat)
    (hc : castObjectId c = some cid) (hfound : store.findConversationById cid = some conv)
    (hu : u ∈ conv.participants)
    (hdistinct : (store.messages.filter fun m => m.conversation = cid).Pairwise
      fun x y => x.createdAt ≠ y.createdAt)
    (hlimit : 0 < limit)
    (hfuel : (store.messages.filter fun m => m.conversation = cid).length < fuel) :
    ((pageBackward fuel store u c limit none).map fun m => m._id).Perm
        ((store.messages.filter fun m => m.conversation = cid).map fun m => m._id)
      ∧ (pageBackward fuel store u c limit none).Pairwise
          (fun x y => x.createdAt < y.createdAt) := by
  have hfilter : store.messages.filter (matchesQuery cid none)
      = store.messages.filter fun m => m.conversation = cid := by
    apply List.filter_congr
    intro m _
    simp [matchesQuery]
  have hperm : (selectNewestFirst store.messages cid none).Perm
      (store.messages.filter fun m => m.conversation = cid) := by
    rw [← hfilter]; exact selectNewestFirst_perm _ _ _
  have hlen : (selectNewestFirst store.messages cid none).length < fuel := by
    rw [hperm.length_eq]; exact hfuel
  have hall := pageBackward_all hc hlimit fuel store conv none hfound hu hdistinct hlen
  have hstrict := selectNewestFirst_strict none hdistinct
  constructor
  · have hid : (pageBackward fuel store u c limit none).map (fun m => m._id)
        = (selectNewestFirst store.messages cid none).reverse.map fun m => m._id := by
      have := congrArg (List.map fun m => m._id) hall
      simpa [List.map_map, Function.comp_def, markOne_id] using this
    rw [hid]
    exact ((List.reverse_perm _).trans hperm).map _
  · have htime : (pageBackward fuel store u c limit none).map (fun m => m.createdAt)
        = (selectNewestFirst store.messages cid none).reverse.map fun m => m.createdAt := by
      have := congrArg (List.map fun m => m.createdAt) hall
      simpa [List.map_map, Function.comp_def, markOne_createdAt] using this
    have h1 : ((pageBackward fuel store u c limit none).map fun m => m.createdAt).Pairwise
        (fun a b => a < b) := by
      rw [htime, List.pairwise_map, List.pairwise_reverse]
      exact hstrict
    exact List.pairwise_map.mp h1

/-- Instance of `pageBackward_complete`: the ten messages of Bob, three at a time. -/
theorem pageBackward_complete_witness :
    (castObjectId Demo.chatText = some Demo.chat
        ∧ Demo.store.findConversationById Demo.chat = some Demo.chatDoc
        ∧ Demo.alice ∈ Demo.chatDoc.participants
        ∧ ((Demo.store.messages.filter fun m => m.conversation = Demo.chat).Pairwise
            fun x y => x.createdAt ≠ y.createdAt)
        ∧ 0 < 3
        ∧ (Demo.store.messages.filter fun m => m.conversation = Demo.chat).length < 11)
      ∧ ((pageBackward 11 Demo.store Demo.alice Demo.chatText 3 none).map fun m => m._id).Perm
          ((Demo.store.messages.filter fun m => m.conversation = Demo.chat).map fun m => m._id)
      ∧ (pageBackward 11 Demo.store Demo.alice Demo.chatText 3 none).Pairwise
          (fun x y => x.createdAt < y.createdAt) :=
  ⟨⟨by decide, by decide, by decide, by decide, by decide, by decide⟩,
    pageBackward_complete Demo.store Demo.alice Demo.chatText Demo.chat Demo.chatDoc 3 11
      (by decide) (by decide) (by decide) (by decide) (by decide) (by decide)⟩

end StayShare
